import Mathlib

/-!
# The JSON-RPC server of the ICE adapter (`src/JsonRpcServer.cpp`)

A shallow embedding of `faf::JsonRpcServer`: the byte-stream framer
(`trim_whitespace`, `_parseJsonFromMsgBuffer`, the read loop of `_onRead`) and the
RPC layer (`sendRequest`, `_sendJson`, `_processJsonMessage`, `_processRequest`).

Conventions of the embedding

* `std::string` buffers are `List Char`; method names and JSON keys are `String`.
* `Json::Value` is the inductive type `Json`; the jsoncpp reader and writer are
  library code, taken as parameters (`Reader`, `Writer`).
* Sockets are addresses (`Nat`); the null socket pointer is `none`.
* Continuations and method callbacks are foreign closures: a continuation is a
  token whose invocation is recorded in the event trace, a callback is a
  function from its inputs to the values it leaves in `result` and `error`.
* An `int` is an integer kept in the 32-bit range by `wrapInt32`: the request id
  `_currentId` and the nesting counter of the framer in `parseTrace`. The functions
  `parseLoop` and `_parseJsonFromMsgBuffer` count the nesting in the integers;
  `parseTrace_result` shows that this makes no difference below 2^31 bytes.
* Where the code leaves defined behaviour the event trace records
  `Event.undefined`.
-/

namespace faf

/-! ## JSON values -/

/-- The value type of the jsoncpp library, `Json::Value`. An object is the list of
its members ordered by key, as in the `std::map` that backs it. -/
inductive Json where
  | null
  | bool (b : Bool)
  | int (n : Int)
  | str (s : String)
  | arr (xs : List Json)
  | obj (members : List (String × Json))

namespace Json

/-- Model of `Json::Value::isNull`. -/
def isNull : Json → Bool
  | null => true
  | _ => false

/-- Model of `Json::Value::isArray`. -/
def isArray : Json → Bool
  | arr _ => true
  | _ => false

/-- Model of `Json::Value::isString`. -/
def isString : Json → Bool
  | str _ => true
  | _ => false

/-- Model of `Json::Value::isInt`, for integers in the range of `int`. -/
def isInt : Json → Bool
  | int _ => true
  | _ => false

/-- Model of `Json::Value::asInt` on an integer value (0 on null, as in jsoncpp). -/
def asInt : Json → Int
  | int n => n
  | _ => 0

/-- Model of `Json::Value::asString`: a string as it is, null as the empty string, a
boolean as `true` or `false`, an integer in decimal. jsoncpp throws on arrays and
objects; they are given the empty string here and no caller meets them. -/
def asString : Json → String
  | str s => s
  | bool b => if b then "true" else "false"
  | int n => toString n
  | _ => ""

/-- Lookup in a member list. -/
def lookup (key : String) : List (String × Json) → Option Json
  | [] => none
  | (k, v) :: rest => if k = key then some v else lookup key rest

/-- Insert-or-assign in a member list kept in key order (`std::map::operator[]`
followed by assignment). -/
def assign (key : String) (v : Json) : List (String × Json) → List (String × Json)
  | [] => [(key, v)]
  | (k, w) :: rest =>
    if k = key then (key, v) :: rest
    else if key.toList < k.toList then (key, v) :: (k, w) :: rest
    else (k, w) :: assign key v rest

/-- The member list of a value: that of an object, none for any other value. -/
def members : Json → List (String × Json)
  | obj ms => ms
  | _ => []

/-- Model of `Json::Value::isMember(key)`: the key is present (whatever its value).
jsoncpp wants an object or null here; the values the server looks at come from
documents that begin with `{`. -/
def isMember (j : Json) (key : String) : Bool :=
  (lookup key j.members).isSome

/-- Model of `Json::Value::operator[](key) const`: the member, or null when absent. -/
def get (j : Json) (key : String) : Json :=
  (lookup key j.members).getD null

/-- The statement `j[key] = v`: a null value becomes an object first. -/
def set (j : Json) (key : String) (v : Json) : Json :=
  obj (assign key v j.members)

end Json

/-- The jsoncpp reader, `bool Json::Reader::parse(document, root)` started on a
null root: whether the document parsed, and the value left in the root. -/
abbrev Reader := List Char → Bool × Json

/-- The jsoncpp writer, `Json::FastWriter().write(value)`. -/
abbrev Writer := Json → List Char

/-- A reader given by a finite table of documents, each with its value; any other
document fails and leaves the root null. -/
def tableReader (table : List (List Char × Json)) : Reader :=
  fun document =>
    match table.find? (fun entry => entry.1 = document) with
    | some entry => (true, entry.2)
    | none => (false, Json.null)

/-! ## The byte-stream framer -/

/-- The whitespace set of `trim_whitespace`: space, `\t`, `\f`, `\v`, `\n`, `\r`. -/
def whitespace : List Char := [' ', '\t', '\x0c', '\x0b', '\n', '\r']

/-- Model of `std::string::find_first_not_of`: the index of the first character that is not
in `chars`, `none` for `npos`. -/
def find_first_not_of (chars : List Char) : List Char → Option Nat
  | [] => none
  | c :: cs =>
    if c ∈ chars then (find_first_not_of chars cs).map (· + 1) else some 0

/-- Model of `std::string::find_last_not_of`: the index of the last character that is not in
`chars`, `none` for `npos`. -/
def find_last_not_of (chars : List Char) : List Char → Option Nat
  | [] => none
  | c :: cs =>
    match find_last_not_of chars cs with
    | some i => some (i + 1)
    | none => if c ∈ chars then none else some 0

/-- Model of `std::string::substr(pos, count)` for `pos` within the string: at most `count`
characters from `pos` on. -/
def substr (s : List Char) (pos count : Nat) : List Char :=
  (s.drop pos).take count

/-- Model of `trim_whitespace`: `in.substr(start, end + 1)`, or the empty string when the
input has no non-whitespace character. -/
def trim_whitespace (s : List Char) : List Char :=
  match find_first_not_of whitespace s, find_last_not_of whitespace s with
  | some start, some last => substr s start (last + 1)
  | _, _ => []

/-- The `for` loop of `_parseJsonFromMsgBuffer` from position `msgPos` on, `rest`
being the bytes of `msgBuffer` from `msgPos`. Returns the function's result and
the buffer it leaves. The nesting level is counted here in the integers; the loop
with the 32-bit `int` of the source is `parseLoopTrace`, and the two agree on
every buffer shorter than 2^31 bytes (`parseTrace_result`). -/
def parseLoop (reader : Reader) (msgBuffer : List Char) :
    List Char → Nat → Bool → Int → Json × List Char
  | [], _, _, _ => (Json.null, msgBuffer)
  | c :: rest, msgPos, inString, braceNestingLevel =>
    let inString := if c = '"' then !inString else inString
    if !inString then
      let braceNestingLevel := if c = '{' then braceNestingLevel + 1 else braceNestingLevel
      if c = '}' then
        let braceNestingLevel := braceNestingLevel - 1
        if braceNestingLevel < 0 then (Json.null, [])
        else if braceNestingLevel = 0 then
          let parsed := reader (msgBuffer.take (msgPos + 1))
          if !parsed.1 then (parsed.2, [])
          else if msgPos + 1 ≥ msgBuffer.length then (parsed.2, [])
          else (parsed.2, msgBuffer.drop (msgPos + 1))
        else parseLoop reader msgBuffer rest (msgPos + 1) inString braceNestingLevel
      else parseLoop reader msgBuffer rest (msgPos + 1) inString braceNestingLevel
    else parseLoop reader msgBuffer rest (msgPos + 1) inString braceNestingLevel

/-- Model of `JsonRpcServer::_parseJsonFromMsgBuffer`: the returned value and the buffer
afterwards. -/
def _parseJsonFromMsgBuffer (reader : Reader) (msgBuffer : List Char) : Json × List Char :=
  match msgBuffer with
  | [] => (Json.null, [])
  | c :: _ =>
    if c ≠ '{' then (Json.null, [])
    else parseLoop reader msgBuffer msgBuffer 0 false 0

/-- The `while (true)` loop of `_onRead` on a state `σ`: trim, stop on an empty
buffer, extract, stop on a null value, else hand the value to `process` and go
round again. `none` when the fuel runs out. -/
def readLoop {σ : Type} (reader : Reader) (process : σ → Json → σ) :
    Nat → σ → List Char → Option (σ × List Char)
  | 0, _, _ => none
  | fuel + 1, st, msgBuffer =>
    let msgBuffer := trim_whitespace msgBuffer
    if msgBuffer = [] then some (st, msgBuffer)
    else
      let r := _parseJsonFromMsgBuffer reader msgBuffer
      if r.1.isNull then some (st, r.2)
      else readLoop reader process fuel (process st r.1) r.2

/-- The loop of `_onRead` run on a buffer. The fuel given is never exhausted
(`readLoop_enough_fuel`). -/
def runLoop {σ : Type} (reader : Reader) (process : σ → Json → σ)
    (st : σ) (msgBuffer : List Char) : σ × List Char :=
  (readLoop reader process (msgBuffer.length + 1) st msgBuffer).getD (st, msgBuffer)

/-- One read event on a client whose receive buffer is `msgBuffer`: the bytes
`data` that `Recv` delivers are appended, then the loop runs. -/
def onReadBuffer {σ : Type} (reader : Reader) (process : σ → Json → σ)
    (st : σ) (msgBuffer data : List Char) : σ × List Char :=
  runLoop reader process st (msgBuffer ++ data)

/-- A sequence of read events on one client, each delivering one chunk. -/
def onReads {σ : Type} (reader : Reader) (process : σ → Json → σ) :
    σ → List Char → List (List Char) → σ × List Char
  | st, msgBuffer, [] => (st, msgBuffer)
  | st, msgBuffer, data :: more =>
    let r := onReadBuffer reader process st msgBuffer data
    onReads reader process r.1 r.2 more

/-- The processing step that only records the value handed on. -/
def logValue (log : List Json) (j : Json) : List Json := log ++ [j]

/-- The values the read loop of a fresh client hands on, in order, over a sequence of
reads: the loop run with a log as state. -/
def dispatched (reader : Reader) (chunks : List (List Char)) : List Json :=
  (onReads reader logValue [] [] chunks).1

/-! ## Machine integers -/

/-- The value that a 32-bit `int` holds after an operation whose mathematical result
is `x`: the representative of `x` modulo 2^32 in the range from -2^31 to 2^31 - 1.
(Overflow of a signed `++` or `--` is undefined in C++; the compiled code wraps.) -/
def wrapInt32 (x : Int) : Int :=
  (x + 2147483648) % 4294967296 - 2147483648

/-! ## The server state -/

/-- A client socket, identified by its address; the null pointer is `none` in an
`Option Socket`. -/
abbrev Socket := Nat

/-- Model of `std::map::find` on a map kept as a list of entries in key order. -/
def mapFind {α β : Type} [DecidableEq α] (key : α) : List (α × β) → Option β
  | [] => none
  | (k, v) :: rest => if k = key then some v else mapFind key rest

/-- The statement `map[key] = v` (insert or assign) on a map kept in key order. -/
def mapAssign {α β : Type} [DecidableEq α] [LT α] [DecidableRel (fun (a b : α) => a < b)]
    (key : α) (v : β) : List (α × β) → List (α × β)
  | [] => [(key, v)]
  | (k, w) :: rest =>
    if k = key then (key, v) :: rest
    else if key < k then (key, v) :: (k, w) :: rest
    else (k, w) :: mapAssign key v rest

/-- Model of `std::map::erase(key)`: no entry with the key remains. -/
def mapErase {α β : Type} [DecidableEq α] (key : α) (m : List (α × β)) : List (α × β) :=
  m.filter (fun e => e.1 ≠ key)

/-- Model of `std::map::insert` of a key into the set of connected sockets, kept in address
order; a key already present is left alone. -/
def insertSocket (socket : Socket) : List Socket → List Socket
  | [] => [socket]
  | x :: rest =>
    if x = socket then x :: rest
    else if socket < x then socket :: x :: rest
    else x :: insertSocket socket rest

/-- A method callback, `RpcCallback`: from the params array and the originating
socket to the values it leaves in its `result` and `error` out-parameters (both
start null; a callback that throws leaves what it had set). -/
abbrev RpcCallback := Json → Socket → Json × Json

/-- What the server does to the outside world, in order. `κ` names continuations
(`RpcRequestResult` closures). -/
inductive Event (κ : Type) where
  /-- The call `socket->Send(message)`. -/
  | send (socket : Socket) (message : List Char)
  /-- The continuation `cont` invoked with `(result, error)`. -/
  | invoke (cont : κ) (result error : Json)
  /-- The callback registered for `method` invoked with `params` for `socket`. -/
  | call (method : String) (params : Json) (socket : Socket)
  /-- The program has left defined behaviour (an increment of an `end()` iterator):
  what the model says from here on is not a statement about the program. -/
  | undefined

/-- The members of `JsonRpcServer` the RPC layer works on. The id counter
`_currentId` is an `int` (declared in `JsonRpcServer.h`, written into the frame as
a JSON integer and looked up with `asInt()`): `sendRequest` keeps it in the 32-bit
range with `wrapInt32`. -/
structure JsonRpcServer (κ : Type) where
  _connectedSockets : List Socket
  _currentMsgs : List (Socket × List Char)
  _callbacks : List (String × RpcCallback)
  _currentRequests : List (Int × κ)
  _currentId : Int

/-- The server as constructed: no client, no callback, no pending request,
`_currentId(0)`. -/
def JsonRpcServer.fresh (κ : Type) : JsonRpcServer κ :=
  { _connectedSockets := [], _currentMsgs := [], _callbacks := [],
    _currentRequests := [], _currentId := 0 }

/-- Model of `JsonRpcServer::setRpcCallback`. -/
def setRpcCallback {κ : Type} (s : JsonRpcServer κ) (method : String) (cb : RpcCallback) :
    JsonRpcServer κ :=
  { s with _callbacks :=
      if (mapFind method s._callbacks).isSome
      then s._callbacks.map (fun e => if e.1 = method then (method, cb) else e)
      else s._callbacks ++ [(method, cb)] }

/-- Model of `JsonRpcServer::_onNewClient` for the accepted socket `newConnectedSocket`. -/
def _onNewClient {κ : Type} (s : JsonRpcServer κ) (newConnectedSocket : Socket) :
    JsonRpcServer κ :=
  { s with _connectedSockets := insertSocket newConnectedSocket s._connectedSockets }

/-- Model of `JsonRpcServer::_onClientDisconnect`. -/
def _onClientDisconnect {κ : Type} (s : JsonRpcServer κ) (socket : Socket) : JsonRpcServer κ :=
  { s with _currentMsgs := mapErase socket s._currentMsgs,
           _connectedSockets := s._connectedSockets.erase socket }

/-- The `for` loop of `_sendJson` over the clients still to visit, in address
order. `sendOk x` tells whether `Send` on `x` returns non-zero. After a failed
send the client is erased and `it = erase(it)` already stands on the next client,
which the loop header's `++it` then steps over. When the erased client was the
last one of the map, `it` is `end()` and the `++it` of the loop header is
undefined: the model records `Event.undefined` and stops. -/
def sendLoop {κ : Type} (sendOk : Socket → Bool) (message : List Char) (socket : Option Socket) :
    List Socket → JsonRpcServer κ → JsonRpcServer κ × List (Event κ)
  | [], s => (s, [])
  | x :: rest, s =>
    if socket.isSome && socket != some x then sendLoop sendOk message socket rest s
    else if !sendOk x then
      let s1 : JsonRpcServer κ :=
        { s with _currentMsgs := mapErase x s._currentMsgs,
                 _connectedSockets := s._connectedSockets.erase x }
      match rest with
      | [] => (s1, [Event.send x message, Event.undefined])
      | _ :: rest2 =>
        let r := sendLoop sendOk message socket rest2 s1
        (r.1, Event.send x message :: r.2)
    else
      let r := sendLoop sendOk message socket rest s
      (r.1, Event.send x message :: r.2)

/-- Model of `JsonRpcServer::_sendJson`: the returned flag, the server and the sends. -/
def _sendJson {κ : Type} (sendOk : Socket → Bool) (s : JsonRpcServer κ) (message : List Char)
    (socket : Option Socket) : Bool × JsonRpcServer κ × List (Event κ) :=
  if s._connectedSockets = [] then (false, s, [])
  else (true, sendLoop sendOk message socket s._connectedSockets s)

/-- The continuation call `resultCb(Json::Value(), error)` guarded by
`if (resultCb)`. -/
def failWith {κ : Type} (resultCb : Option κ) (error : Json) : List (Event κ) :=
  match resultCb with
  | some cb => [Event.invoke cb Json.null error]
  | none => []

/-- Model of `JsonRpcServer::sendRequest`; `++_currentId` is an increment of an
`int`. -/
def sendRequest {κ : Type} (writer : Writer) (sendOk : Socket → Bool) (s : JsonRpcServer κ)
    (method : String) (paramsArray : Json) (socket : Option Socket) (resultCb : Option κ) :
    JsonRpcServer κ × List (Event κ) :=
  if !paramsArray.isArray then
    (s, failWith resultCb (Json.str "paramsArray MUST be an array"))
  else if method = "" then
    (s, failWith resultCb (Json.str "method MUST not be empty"))
  else
    let request := Json.null
    let request := request.set "jsonrpc" (Json.str "2.0")
    let request := request.set "method" (Json.str method)
    let request := request.set "params" paramsArray
    let (request, s1) : Json × JsonRpcServer κ :=
      match resultCb with
      | some cb =>
        (request.set "id" (Json.int s._currentId),
         { s with _currentRequests := mapAssign s._currentId cb s._currentRequests,
                  _currentId := wrapInt32 (s._currentId + 1) })
      | none => (request, s)
    let requestString := writer request
    let sent := _sendJson sendOk s1 requestString socket
    if !sent.1 then (sent.2.1, sent.2.2 ++ failWith resultCb (Json.str "send failed"))
    else (sent.2.1, sent.2.2)

/-- Model of `JsonRpcServer::_processRequest`: the response and the callback call made. -/
def _processRequest {κ : Type} (s : JsonRpcServer κ) (request : Json) (socket : Socket) :
    Json × List (Event κ) :=
  let response := Json.null
  let response := response.set "jsonrpc" (Json.str "2.0")
  let response := if request.isMember "id" then response.set "id" (request.get "id") else response
  if !request.isMember "method" then
    let error := (response.get "error").set "code" (Json.int (-1))
    let error := error.set "message" (Json.str "missing 'method' parameter")
    (response.set "error" error, [])
  else if !(request.get "method").isString then
    let error := (response.get "error").set "code" (Json.int (-1))
    let error := error.set "message" (Json.str "'method' parameter must be a string")
    (response.set "error" error, [])
  else
    let params :=
      if request.isMember "params" && (request.get "params").isArray
      then request.get "params" else Json.arr []
    let method := (request.get "method").asString
    let outcome : Json × Json × List (Event κ) :=
      match mapFind method s._callbacks with
      | some cb => ((cb params socket).1, (cb params socket).2, [Event.call method params socket])
      | none =>
        (Json.null, Json.str ("RPC callback for method '" ++ method ++ "' not found"), [])
    let result := outcome.1
    let error := outcome.2.1
    if !result.isNull then (response.set "result" result, outcome.2.2)
    else (response.set "error" error, outcome.2.2)

/-- Model of `JsonRpcServer::_processJsonMessage`. -/
def _processJsonMessage {κ : Type} (writer : Writer) (s : JsonRpcServer κ) (jsonMessage : Json)
    (socket : Socket) : JsonRpcServer κ × List (Event κ) :=
  if jsonMessage.isMember "method" then
    let r := _processRequest s jsonMessage socket
    if jsonMessage.isMember "id" then
      let responseString := writer r.1
      if socket ∈ s._connectedSockets then (s, r.2 ++ [Event.send socket responseString])
      else (s, r.2)
    else (s, r.2)
  else if jsonMessage.isMember "error" || jsonMessage.isMember "result" then
    if jsonMessage.isMember "id" then
      if (jsonMessage.get "id").isInt then
        match mapFind (jsonMessage.get "id").asInt s._currentRequests with
        | some cont =>
          ({ s with _currentRequests := mapErase (jsonMessage.get "id").asInt s._currentRequests },
           [Event.invoke cont
              (if jsonMessage.isMember "result" then jsonMessage.get "result" else Json.null)
              (if jsonMessage.isMember "error" then jsonMessage.get "error" else Json.null)])
        | none => (s, [])
      else (s, [])
    else (s, [])
  else (s, [])

/-- Model of `JsonRpcServer::_onRead` when `Recv` delivers `data` in all: the bytes are
appended to the client's buffer and the loop hands each extracted value to
`_processJsonMessage`. -/
def _onRead {κ : Type} (reader : Reader) (writer : Writer) (s : JsonRpcServer κ)
    (socket : Socket) (data : List Char) : JsonRpcServer κ × List (Event κ) :=
  if socket ∈ s._connectedSockets then
    let msgBuffer := (mapFind socket s._currentMsgs).getD []
    let r := onReadBuffer reader
      (fun (st : JsonRpcServer κ × List (Event κ)) json =>
        ((_processJsonMessage writer st.1 json socket).1,
         st.2 ++ (_processJsonMessage writer st.1 json socket).2))
      (s, []) msgBuffer data
    ({ r.1.1 with _currentMsgs := mapAssign socket r.2 r.1.1._currentMsgs }, r.1.2)
  else (s, [])


/-! ## The framer's scan, as the specification words it -/

/-- One byte of the scan: every `"` toggles `in_string`; outside a string `{` raises
the nesting by one and `}` lowers it by one. -/
def scanStep (st : Bool × Int) (c : Char) : Bool × Int :=
  let inString := if c = '"' then !st.1 else st.1
  if inString then (inString, st.2)
  else if c = '{' then (inString, st.2 + 1)
  else if c = '}' then (inString, st.2 - 1)
  else (inString, st.2)

/-- The scan of a byte string from its start: `in_string` and the brace count. -/
def scanState (s : List Char) : Bool × Int :=
  s.foldl scanStep (false, 0)

/-- The quote-toggling brace count of a byte string. -/
def braceCount (s : List Char) : Int :=
  (scanState s).2

/-- Position `p` is the first position of `buf` at which the quote-toggling brace
count returns to zero. -/
def ClosesAt (buf : List Char) (p : Nat) : Prop :=
  p < buf.length ∧ braceCount (buf.take (p + 1)) = 0 ∧
    ∀ q, q < p → braceCount (buf.take (q + 1)) ≠ 0

/-- The scan reaches the end of `buf` without the brace count returning to zero. -/
def NeverCloses (buf : List Char) : Prop :=
  ∀ q, q < buf.length → braceCount (buf.take (q + 1)) ≠ 0

instance (buf : List Char) (p : Nat) : Decidable (ClosesAt buf p) := by
  unfold ClosesAt; infer_instance

instance (buf : List Char) : Decidable (NeverCloses buf) := by
  unfold NeverCloses; infer_instance

/-- The value and buffer that `_parseJsonFromMsgBuffer` leaves when it hands the
bytes `[0, p]` to the reader. -/
def extractAt (reader : Reader) (buf : List Char) (p : Nat) : Json × List Char :=
  if (reader (buf.take (p + 1))).1 then ((reader (buf.take (p + 1))).2, buf.drop (p + 1))
  else ((reader (buf.take (p + 1))).2, [])

/-! ## Sample documents -/

/-- The bytes `{"a":1}`. -/
def textA : List Char := ['{', '"', 'a', '"', ':', '1', '}']

/-- The bytes `{"b":2}`. -/
def textB : List Char := ['{', '"', 'b', '"', ':', '2', '}']

/-- The object `{"a":1}`. -/
def objA : Json := Json.obj [("a", Json.int 1)]

/-- The object `{"b":2}`. -/
def objB : Json := Json.obj [("b", Json.int 2)]

/-- A reader that knows the two sample documents. -/
def sampleReader : Reader := tableReader [(textA, objA), (textB, objB)]


/-- Every byte of `s` is one of the whitespace bytes of `trim_whitespace`. -/
def AllWhitespace (s : List Char) : Prop :=
  ∀ c ∈ s, c ∈ whitespace

instance (s : List Char) : Decidable (AllWhitespace s) := by
  unfold AllWhitespace; infer_instance

/-- A buffer that is empty or ends outside the whitespace set. -/
def NoTrailingWhitespace (b : List Char) : Prop :=
  ∀ c, b.getLast? = some c → c ∉ whitespace

/-- A top-level object text as the framer frames it: it begins with `{`, the
quote-toggling brace count first returns to zero at its last byte, and the reader
parses it to a non-null value. -/
def Framed (reader : Reader) (t : List Char) : Prop :=
  t.head? = some '{' ∧ ClosesAt t (t.length - 1) ∧ (reader t).1 = true ∧
    (reader t).2.isNull = false

instance (reader : Reader) (t : List Char) : Decidable (Framed reader t) := by
  unfold Framed; infer_instance

/-- The bytes of a sequence of object texts, each followed by a run of whitespace. -/
def interleave : List (List Char × List Char) → List Char
  | [] => []
  | it :: rest => it.1 ++ it.2 ++ interleave rest

/-- The bytes a sequence of reads delivers in all. -/
def concatChunks : List (List Char) → List Char
  | [] => []
  | c :: cs => c ++ concatChunks cs

/-- The cut after the first bytes `delivered` of the stream `w0 ++ interleave items`
does not fall behind a whitespace byte inside an object: whenever `delivered` ends
with the first bytes `pre` of the `n`-th object, `pre` does not end in whitespace. -/
def SafeCut (w0 : List Char) (items : List (List Char × List Char))
    (delivered : List Char) : Prop :=
  ∀ (n : Nat) (pre suf w : List Char),
    delivered = w0 ++ interleave (items.take n) ++ pre →
    items[n]? = some (pre ++ suf, w) → NoTrailingWhitespace pre

/-! ## More sample documents -/

/-- The bytes `{"a":"b c"}`, with a space inside the string. -/
def textSpace : List Char := ['{', '"', 'a', '"', ':', '"', 'b', ' ', 'c', '"', '}']

/-- The bytes `{"a":"bc"}`. -/
def textNoSpace : List Char := ['{', '"', 'a', '"', ':', '"', 'b', 'c', '"', '}']

/-- The object `{"a":"b c"}`. -/
def objSpace : Json := Json.obj [("a", Json.str "b c")]

/-- The object `{"a":"bc"}`. -/
def objNoSpace : Json := Json.obj [("a", Json.str "bc")]

/-- A reader that knows the documents `textSpace` and `textNoSpace`. -/
def spaceReader : Reader := tableReader [(textSpace, objSpace), (textNoSpace, objNoSpace)]

/-! ## Runs of the server -/

/-- The request object that `sendRequest` builds for `method` and `paramsArray`,
with the member `id` when an id is given. -/
def requestFrame (method : String) (paramsArray : Json) (id : Option Int) : Json :=
  let request := ((Json.null.set "jsonrpc" (Json.str "2.0")).set "method"
    (Json.str method)).set "params" paramsArray
  match id with
  | some i => request.set "id" (Json.int i)
  | none => request

/-- What can happen to a server: a call of `sendRequest` (with the outcome of the
`Send` calls it makes), a read event on a client, a client accepted or gone, a
callback registered. -/
inductive Op (κ : Type) where
  | request (method : String) (paramsArray : Json) (socket : Option Socket)
      (resultCb : Option κ) (sendOk : Socket → Bool)
  | read (socket : Socket) (data : List Char)
  | newClient (socket : Socket)
  | clientDisconnect (socket : Socket)
  | setCallback (method : String) (cb : RpcCallback)

/-- A call of `sendRequest` that passes validation and carries a continuation. -/
def accepted {κ : Type} : Op κ → Bool
  | Op.request method paramsArray _ (some _) _ => paramsArray.isArray && decide (method ≠ "")
  | _ => false

/-- One operation on the server. -/
def step {κ : Type} (reader : Reader) (writer : Writer) (s : JsonRpcServer κ) :
    Op κ → JsonRpcServer κ × List (Event κ)
  | Op.request method paramsArray socket resultCb sendOk =>
    sendRequest writer sendOk s method paramsArray socket resultCb
  | Op.read socket data => _onRead reader writer s socket data
  | Op.newClient socket => (_onNewClient s socket, [])
  | Op.clientDisconnect socket => (_onClientDisconnect s socket, [])
  | Op.setCallback method cb => (setRpcCallback s method cb, [])

/-- A sequence of operations, with the events in order. -/
def run {κ : Type} (reader : Reader) (writer : Writer) :
    JsonRpcServer κ → List (Op κ) → JsonRpcServer κ × List (Event κ)
  | s, [] => (s, [])
  | s, op :: ops =>
    let r := step reader writer s op
    let r2 := run reader writer r.1 ops
    (r2.1, r.2 ++ r2.2)

/-- The sends among a list of events. -/
def sends {κ : Type} : List (Event κ) → List (Socket × List Char)
  | [] => []
  | Event.send socket message :: rest => (socket, message) :: sends rest
  | _ :: rest => sends rest

/-- A writer for examples: the keys of an object, each followed by `;`. -/
def keyWriter : Writer := fun j =>
  (j.members.map (fun m => m.1.toList ++ [';'])).foldr (fun a b => a ++ b) []

/-- A callback for examples: it answers `"ok"`. -/
def okCallback : RpcCallback := fun _ _ => (Json.str "ok", Json.null)

/-- A server for examples: the client 7 connected, the method `status` registered,
the continuation 100 pending under id 3, the counter at 4. Continuations are
named by numbers. -/
def sampleServer : JsonRpcServer Nat :=
  { _connectedSockets := [7], _currentMsgs := [], _callbacks := [("status", okCallback)],
    _currentRequests := [(3, 100)], _currentId := 4 }

/-- The response message `{"id":3,"result":"ok"}`. -/
def sampleResponse : Json := Json.obj [("id", Json.int 3), ("result", Json.str "ok")]

/-- The request message `{"id":1,"method":"status"}`. -/
def sampleRequest : Json := Json.obj [("id", Json.int 1), ("method", Json.str "status")]

/-- A server for examples with the clients 1, 2 and 3 connected. -/
def threeClients : JsonRpcServer Nat :=
  { _connectedSockets := [1, 2, 3], _currentMsgs := [], _callbacks := [],
    _currentRequests := [], _currentId := 0 }

/-- The request message `{"id":1,"method":"nope"}`. -/
def unknownRequest : Json := Json.obj [("id", Json.int 1), ("method", Json.str "nope")]

/-! ## The adapter (`src/cpp/IceAdapter.cpp`)

The controller is embedded with the members the claims are about: the game state
and task strings, the relay registry, the game-task queue and the options. The
game-control server, the peer relays and the options are classes of the repository
whose files are not among the sources; they are modelled from the specification.
What the adapter does to the outside is recorded as events: a message handed to
the game-control server, or a call of `_jsonRpcServer.sendRequest`. -/

/-- Modelled from the spec: the lobby init mode handed to `sendCreateLobby`, an
enumeration of the absent `GPGNetServer.h` of which the adapter uses `NormalLobby`. -/
inductive InitMode where
  | NormalLobby
  | AutoLobby
  deriving DecidableEq

/-- Modelled from the spec: a message of the absent `GPGNetMessage.h`, a header and
its chunks (section 4.3); on the wire a chunk is an integer or a string. -/
structure GPGNetMessage where
  header : String
  chunks : List Json

/-- Modelled from the spec: what the outbound helpers of the absent game-control
server (`sendCreateLobby`, `sendHostGame`, `sendJoinGame`, `sendConnectToPeer`,
`sendDisconnectFromPeer`, `sendMessage`; section 4.3) hand to the game. -/
inductive GameMessage where
  | CreateLobby (initMode : InitMode) (udpPort : Int) (login : String) (playerId : Int)
      (natTraversalProvider : Int)
  | HostGame (map : String)
  | JoinGame (address : String) (login : String) (playerId : Int)
  | ConnectToPeer (address : String) (login : String) (playerId : Int)
  | DisconnectFromPeer (playerId : Int)
  | Message (message : GPGNetMessage)

/-- The kinds of game task, the anonymous enumeration of `IceAdapterGameTask`. -/
inductive TaskKind where
  | JoinGame
  | HostGame
  | ConnectToPeer
  | DisconnectFromPeer
  deriving DecidableEq

/-- The structure `IceAdapterGameTask` of `IceAdapter.h`. -/
structure IceAdapterGameTask where
  task : TaskKind
  hostMap : String
  remoteLogin : String
  remoteId : Int
  deriving DecidableEq

/-- Modelled from the spec: the options of the absent `IceAdapterOptions.h` that the
adapter reads (section 6). -/
structure IceAdapterOptions where
  localPlayerId : Int
  localPlayerLogin : String
  gameUdpPort : Int

/-- Modelled from the spec: a peer relay of the absent `PeerRelay.h` (section 3): its
identity, its configuration, and the local UDP port the game connects to, which
is fixed when the relay is made. -/
structure PeerRelay where
  remotePlayerId : Int
  remotePlayerLogin : String
  createOffer : Bool
  gameUdpPort : Int
  localUdpSocketPort : Int
  deriving DecidableEq

/-- What the adapter does to the outside: a message sent through the game-control
server, or the call `_jsonRpcServer.sendRequest(method, paramsArray)`. -/
inductive AdapterEvent where
  | toGame (m : GameMessage)
  | rpc (method : String) (paramsArray : Json)

/-- The members of `IceAdapter`. The flag `hasConnectedClient` stands for
`_gpgnetServer.hasConnectedClient()`. -/
structure IceAdapter where
  _options : IceAdapterOptions
  _gpgnetGameState : String
  _lobbyInitMode : String
  _gametaskString : String
  _relays : List (Int × PeerRelay)
  _gameTasks : List IceAdapterGameTask
  hasConnectedClient : Bool

namespace IceAdapter

/-- The adapter as constructed: game state `None`, init mode `normal`, task string
`Idle`, no relay, no task, no game. -/
def init (options : IceAdapterOptions) : IceAdapter :=
  { _options := options, _gpgnetGameState := "None", _lobbyInitMode := "normal",
    _gametaskString := "Idle", _relays := [], _gameTasks := [], hasConnectedClient := false }

/-- The `while` loop of `_tryExecuteGameTasks` on the queue `tasks`: the tasks left
in the queue and the messages sent to the game. -/
def executeTasks (a : IceAdapter) : List IceAdapterGameTask →
    List IceAdapterGameTask × List GameMessage
  | [] => ([], [])
  | task :: rest =>
    match task.task with
    | TaskKind.HostGame =>
      if a._gpgnetGameState ≠ "Lobby" then (task :: rest, [])
      else ((executeTasks a rest).1, GameMessage.HostGame task.hostMap :: (executeTasks a rest).2)
    | TaskKind.JoinGame =>
      if a._gpgnetGameState ≠ "Lobby" then (task :: rest, [])
      else
        match mapFind task.remoteId a._relays with
        | none => executeTasks a rest
        | some relay =>
          ((executeTasks a rest).1,
           GameMessage.JoinGame ("127.0.0.1:" ++ toString relay.localUdpSocketPort)
             task.remoteLogin task.remoteId :: (executeTasks a rest).2)
    | TaskKind.ConnectToPeer =>
      if a._gpgnetGameState ≠ "Lobby" then (task :: rest, [])
      else
        match mapFind task.remoteId a._relays with
        | none => executeTasks a rest
        | some relay =>
          ((executeTasks a rest).1,
           GameMessage.ConnectToPeer ("127.0.0.1:" ++ toString relay.localUdpSocketPort)
             task.remoteLogin task.remoteId :: (executeTasks a rest).2)
    | TaskKind.DisconnectFromPeer =>
      ((executeTasks a rest).1,
       GameMessage.DisconnectFromPeer task.remoteId :: (executeTasks a rest).2)

/-- Model of `IceAdapter::_tryExecuteGameTasks`. -/
def _tryExecuteGameTasks (a : IceAdapter) : IceAdapter × List AdapterEvent :=
  if !a.hasConnectedClient then (a, [])
  else
    ({ a with _gameTasks := (executeTasks a a._gameTasks).1 },
     (executeTasks a a._gameTasks).2.map AdapterEvent.toGame)

/-- Model of `IceAdapter::_queueGameTask`. -/
def _queueGameTask (a : IceAdapter) (t : IceAdapterGameTask) : IceAdapter × List AdapterEvent :=
  _tryExecuteGameTasks { a with _gameTasks := a._gameTasks ++ [t] }

/-- The relay that `_createPeerRelay` makes, `std::make_shared<PeerRelay>(...)`;
`localPort` is the port its UDP socket gets. -/
def newRelay (a : IceAdapter) (remotePlayerId : Int) (remotePlayerLogin : String)
    (createOffer : Bool) (localPort : Int) : PeerRelay :=
  { remotePlayerId := remotePlayerId, remotePlayerLogin := remotePlayerLogin,
    createOffer := createOffer, gameUdpPort := a._options.gameUdpPort,
    localUdpSocketPort := localPort }

/-- Model of `IceAdapter::_createPeerRelay`: the relay is made and takes the place of
any relay held for the id (`_relays[remotePlayerId] = relay`). -/
def _createPeerRelay (a : IceAdapter) (remotePlayerId : Int) (remotePlayerLogin : String)
    (createOffer : Bool) (localPort : Int) : IceAdapter :=
  { a with _relays :=
      (mapAssign remotePlayerId
        (newRelay a remotePlayerId remotePlayerLogin createOffer localPort) a._relays) }

/-- Model of `IceAdapter::hostGame`. -/
def hostGame (a : IceAdapter) (map : String) : IceAdapter × List AdapterEvent :=
  let r := _queueGameTask a
    { task := TaskKind.HostGame, hostMap := map, remoteLogin := "", remoteId := 0 }
  ({ r.1 with _gametaskString := "Hosting map " ++ map ++ "." }, r.2)

/-- Model of `IceAdapter::joinGame`. -/
def joinGame (a : IceAdapter) (remotePlayerLogin : String) (remotePlayerId : Int)
    (localPort : Int) : IceAdapter × List AdapterEvent :=
  let a1 := _createPeerRelay a remotePlayerId remotePlayerLogin false localPort
  let r := _queueGameTask a1
    { task := TaskKind.JoinGame, hostMap := "", remoteLogin := remotePlayerLogin,
      remoteId := remotePlayerId }
  ({ r.1 with _gametaskString := "Joining game from player " ++ remotePlayerLogin ++ "." }, r.2)

/-- Model of `IceAdapter::connectToPeer`. -/
def connectToPeer (a : IceAdapter) (remotePlayerLogin : String) (remotePlayerId : Int)
    (createOffer : Bool) (localPort : Int) : IceAdapter × List AdapterEvent :=
  let a1 := _createPeerRelay a remotePlayerId remotePlayerLogin createOffer localPort
  _queueGameTask a1
    { task := TaskKind.ConnectToPeer, hostMap := "", remoteLogin := remotePlayerLogin,
      remoteId := remotePlayerId }

/-- Model of `IceAdapter::disconnectFromPeer`. -/
def disconnectFromPeer (a : IceAdapter) (remotePlayerId : Int) :
    IceAdapter × List AdapterEvent :=
  match mapFind remotePlayerId a._relays with
  | none => (a, [])
  | some _ =>
    _queueGameTask { a with _relays := mapErase remotePlayerId a._relays }
      { task := TaskKind.DisconnectFromPeer, hostMap := "", remoteLogin := "",
        remoteId := remotePlayerId }

/-- Model of `IceAdapter::setLobbyInitMode`. -/
def setLobbyInitMode (a : IceAdapter) (initMode : String) : IceAdapter :=
  { a with _lobbyInitMode := initMode }

/-- Model of `IceAdapter::sendToGpgNet`. -/
def sendToGpgNet (a : IceAdapter) (message : GPGNetMessage) : IceAdapter × List AdapterEvent :=
  if !a.hasConnectedClient then (a, [])
  else (a, [AdapterEvent.toGame (GameMessage.Message message)])

/-- Model of `IceAdapter::_onGameConnected`. The braced argument `{"Connected"}`
makes the JSON string `"Connected"`. -/
def _onGameConnected (a : IceAdapter) : IceAdapter × List AdapterEvent :=
  (a, [AdapterEvent.rpc "onConnectionStateChanged" (Json.str "Connected")])

/-- Model of `IceAdapter::_onGameDisconnected`. -/
def _onGameDisconnected (a : IceAdapter) : IceAdapter × List AdapterEvent :=
  ({ a with _gametaskString := "Idle", _gpgnetGameState := "None", _relays := [] },
   [AdapterEvent.rpc "onConnectionStateChanged" (Json.str "Disconnected")])

/-- The message `sendCreateLobby(InitMode::NormalLobby, gameUdpPort, localPlayerLogin,
localPlayerId, 1)` of `_onGpgNetMessage`. -/
def createLobbyMessage (a : IceAdapter) : GameMessage :=
  GameMessage.CreateLobby InitMode.NormalLobby a._options.gameUdpPort
    a._options.localPlayerLogin a._options.localPlayerId 1

/-- Model of `IceAdapter::_onGpgNetMessage`. -/
def _onGpgNetMessage (a : IceAdapter) (message : GPGNetMessage) :
    IceAdapter × List AdapterEvent :=
  let r : IceAdapter × List AdapterEvent :=
    if message.header = "GameState" then
      if message.chunks.length = 1 then
        let a1 : IceAdapter :=
          { a with _gpgnetGameState := (message.chunks.headD Json.null).asString }
        let lobby : List AdapterEvent :=
          if a1._gpgnetGameState = "Idle" then [AdapterEvent.toGame (createLobbyMessage a1)]
          else []
        ((_tryExecuteGameTasks a1).1, lobby ++ (_tryExecuteGameTasks a1).2)
      else (a, [])
    else (a, [])
  (r.1, r.2 ++ [AdapterEvent.rpc "onGpgNetMessageReceived"
    (Json.arr [Json.str message.header, Json.arr message.chunks])])

/-- What can happen to an adapter: a call of one of its methods (with the port the
new relay's socket gets, where a relay is made), the game connecting or going,
a message from the game. -/
inductive Op where
  | hostGame (map : String)
  | joinGame (remotePlayerLogin : String) (remotePlayerId : Int) (localPort : Int)
  | connectToPeer (remotePlayerLogin : String) (remotePlayerId : Int) (createOffer : Bool)
      (localPort : Int)
  | disconnectFromPeer (remotePlayerId : Int)
  | setLobbyInitMode (initMode : String)
  | sendToGpgNet (message : GPGNetMessage)
  | gameConnected
  | gameDisconnected
  | gpgNetMessage (message : GPGNetMessage)

/-- One operation on the adapter. Modelled from the spec: the game-control server has
a connected client from the moment the game connects to the moment it goes
(section 4.3), and signals each of the two to the adapter. -/
def step (a : IceAdapter) : Op → IceAdapter × List AdapterEvent
  | Op.hostGame map => a.hostGame map
  | Op.joinGame login id port => a.joinGame login id port
  | Op.connectToPeer login id offer port => a.connectToPeer login id offer port
  | Op.disconnectFromPeer id => a.disconnectFromPeer id
  | Op.setLobbyInitMode mode => (a.setLobbyInitMode mode, [])
  | Op.sendToGpgNet message => a.sendToGpgNet message
  | Op.gameConnected => _onGameConnected { a with hasConnectedClient := true }
  | Op.gameDisconnected => _onGameDisconnected { a with hasConnectedClient := false }
  | Op.gpgNetMessage message => a._onGpgNetMessage message

/-- A sequence of operations, with the events in order. -/
def run : IceAdapter → List Op → IceAdapter × List AdapterEvent
  | a, [] => (a, [])
  | a, op :: ops => ((run (step a op).1 ops).1, (step a op).2 ++ (run (step a op).1 ops).2)

end IceAdapter

/-! ## The RPC methods of the adapter -/

namespace Json

/-- Model of `Json::Value::size`: the number of elements of an array or members of
an object, 0 for any other value. -/
def size : Json → Nat
  | arr xs => xs.length
  | obj ms => ms.length
  | _ => 0

/-- Model of `Json::Value::operator[](ArrayIndex) const` with its exception: the
element of an array, null when the array has none at the index or the value is
null; any other value throws. -/
def index (j : Json) (i : Nat) : Except String Json :=
  match j with
  | arr xs => Except.ok (xs.getD i null)
  | null => Except.ok null
  | _ => Except.error "in Json::Value::operator[](ArrayIndex)const: requires arrayValue"

/-- Model of `Json::Value::asString` with its exception: arrays and objects throw. -/
def asStringOrThrow : Json → Except String String
  | arr _ => Except.error "Type is not convertible to string"
  | obj _ => Except.error "Type is not convertible to string"
  | j => Except.ok j.asString

/-- Model of `Json::Value::asInt` with its exception: null is 0, a boolean 0 or 1, an
integer itself when it is in the range of `int`; an integer out of that range,
strings, arrays and objects throw. -/
def asIntOrThrow : Json → Except String Int
  | null => Except.ok 0
  | bool b => Except.ok (if b then 1 else 0)
  | int n =>
    if -2147483648 ≤ n ∧ n ≤ 2147483647 then Except.ok n
    else Except.error "LargestInt out of Int range"
  | _ => Except.error "Value is not convertible to Int."

/-- Model of `Json::Value::asBool` with its exception: null is false, an integer is
true when it is not 0; strings, arrays and objects throw. -/
def asBoolOrThrow : Json → Except String Bool
  | null => Except.ok false
  | bool b => Except.ok b
  | int n => Except.ok (decide (n ≠ 0))
  | _ => Except.error "Value is not convertible to bool."

end Json

/-- What a method callback of the adapter leaves: the adapter, the events, and the
values of its `result` and `error` out-parameters. -/
structure RpcOutcome where
  adapter : IceAdapter
  events : List AdapterEvent
  result : Json
  error : Json

namespace IceAdapter

/-- The message of a conversion that throws, none for one that returns. -/
def thrown {α : Type} : Except String α → List String
  | Except.ok _ => []
  | Except.error what => [what]

/-- The exception that reaches the `catch` of a callback when conversions of its
arguments throw. C++ leaves the order in which the arguments of a call are
evaluated open, so which of the failing conversions throws first is up to the
compiler: `order` picks it among `errors`, the messages of the failing conversions
from left to right. -/
def firstThrown (order : Nat) (errors : List String) : String :=
  errors.getD (order % errors.length) ""

/-- The argument `paramsArray[0].asString()` of the `hostGame` callback. -/
def hostGameArgs (paramsArray : Json) : Except String String :=
  (paramsArray.index 0).bind fun p0 => p0.asStringOrThrow

/-- The arguments `paramsArray[0].asString(), paramsArray[1].asInt()` of the
`joinGame` callback: the values when both conversions return, else the exception
that `order` picks among those thrown. -/
def joinGameArgs (paramsArray : Json) (order : Nat) : Except String (String × Int) :=
  match (paramsArray.index 0).bind (fun p0 => p0.asStringOrThrow),
    (paramsArray.index 1).bind (fun p1 => p1.asIntOrThrow) with
  | Except.ok login, Except.ok id => Except.ok (login, id)
  | login, id => Except.error (firstThrown order (thrown login ++ thrown id))

/-- The arguments `paramsArray[0].asString(), paramsArray[1].asInt(),
paramsArray[2].asBool()` of the `connectToPeer` callback: the values when the three
conversions return, else the exception that `order` picks among those thrown. -/
def connectToPeerArgs (paramsArray : Json) (order : Nat) :
    Except String (String × Int × Bool) :=
  match (paramsArray.index 0).bind (fun p0 => p0.asStringOrThrow),
    (paramsArray.index 1).bind (fun p1 => p1.asIntOrThrow),
    (paramsArray.index 2).bind (fun p2 => p2.asBoolOrThrow) with
  | Except.ok login, Except.ok id, Except.ok offer => Except.ok (login, id, offer)
  | login, id, offer =>
    Except.error (firstThrown order (thrown login ++ thrown id ++ thrown offer))

/-- The argument `paramsArray[0].asInt()` of the `disconnectFromPeer` callback. -/
def disconnectFromPeerArgs (paramsArray : Json) : Except String Int :=
  (paramsArray.index 0).bind fun p0 => p0.asIntOrThrow

/-- The callback that `_connectRpcMethods` registers for `hostGame`: the `try` block
sets `result` after the call, the `catch` sets `error` to `e.what()`. -/
def rpcHostGame (a : IceAdapter) (paramsArray : Json) : RpcOutcome :=
  if paramsArray.size < 1 then
    { adapter := a, events := [], result := Json.null,
      error := Json.str "Need 1 parameter: mapName (string)" }
  else
    match hostGameArgs paramsArray with
    | Except.ok map =>
      { adapter := (a.hostGame map).1, events := (a.hostGame map).2,
        result := Json.str "ok", error := Json.null }
    | Except.error what =>
      { adapter := a, events := [], result := Json.null, error := Json.str what }

/-- The callback that `_connectRpcMethods` registers for `joinGame`; `order` stands
for the order in which the compiled code converts the arguments. -/
def rpcJoinGame (a : IceAdapter) (paramsArray : Json) (localPort : Int) (order : Nat) :
    RpcOutcome :=
  if paramsArray.size < 2 then
    { adapter := a, events := [], result := Json.null,
      error := Json.str
        "Need 2 parameters: remotePlayerLogin (string), remotePlayerId (int)" }
  else
    match joinGameArgs paramsArray order with
    | Except.ok (login, id) =>
      { adapter := (a.joinGame login id localPort).1,
        events := (a.joinGame login id localPort).2,
        result := Json.str "ok", error := Json.null }
    | Except.error what =>
      { adapter := a, events := [], result := Json.null, error := Json.str what }

/-- The callback that `_connectRpcMethods` registers for `connectToPeer`; `order`
stands for the order in which the compiled code converts the arguments. -/
def rpcConnectToPeer (a : IceAdapter) (paramsArray : Json) (localPort : Int) (order : Nat) :
    RpcOutcome :=
  if paramsArray.size < 3 then
    { adapter := a, events := [], result := Json.null,
      error := Json.str
        "Need 3 parameters: remotePlayerLogin (string), remotePlayerId (int), createOffer (bool)" }
  else
    match connectToPeerArgs paramsArray order with
    | Except.ok (login, id, offer) =>
      { adapter := (a.connectToPeer login id offer localPort).1,
        events := (a.connectToPeer login id offer localPort).2,
        result := Json.str "ok", error := Json.null }
    | Except.error what =>
      { adapter := a, events := [], result := Json.null, error := Json.str what }

/-- The callback that `_connectRpcMethods` registers for `disconnectFromPeer`. -/
def rpcDisconnectFromPeer (a : IceAdapter) (paramsArray : Json) : RpcOutcome :=
  if paramsArray.size < 1 then
    { adapter := a, events := [], result := Json.null,
      error := Json.str "Need 1 parameters: remotePlayerId (int)" }
  else
    match disconnectFromPeerArgs paramsArray with
    | Except.ok id =>
      { adapter := (a.disconnectFromPeer id).1, events := (a.disconnectFromPeer id).2,
        result := Json.str "ok", error := Json.null }
    | Except.error what =>
      { adapter := a, events := [], result := Json.null, error := Json.str what }

/-! ## Tasks and the messages they make -/

/-- What a game task asks for: the kind with the fields that kind reads. -/
inductive TaskKey where
  | host (map : String)
  | join (login : String) (id : Int)
  | connect (login : String) (id : Int)
  | disconnect (id : Int)
  deriving DecidableEq

/-- The request of a task. -/
def taskKey (t : IceAdapterGameTask) : TaskKey :=
  match t.task with
  | TaskKind.HostGame => TaskKey.host t.hostMap
  | TaskKind.JoinGame => TaskKey.join t.remoteLogin t.remoteId
  | TaskKind.ConnectToPeer => TaskKey.connect t.remoteLogin t.remoteId
  | TaskKind.DisconnectFromPeer => TaskKey.disconnect t.remoteId

/-- The request a message to the game answers, for the four task-derived messages. -/
def messageKey : GameMessage → Option TaskKey
  | GameMessage.HostGame map => some (TaskKey.host map)
  | GameMessage.JoinGame _ login id => some (TaskKey.join login id)
  | GameMessage.ConnectToPeer _ login id => some (TaskKey.connect login id)
  | GameMessage.DisconnectFromPeer id => some (TaskKey.disconnect id)
  | _ => none

/-- The task-derived messages among a list of events, as requests, in order. -/
def eventKeys : List AdapterEvent → List TaskKey
  | [] => []
  | AdapterEvent.toGame m :: rest =>
    match messageKey m with
    | some k => k :: eventKeys rest
    | none => eventKeys rest
  | _ :: rest => eventKeys rest

/-- The maps of the `HostGame` messages among a list of events, in order. -/
def hostGameMaps : List AdapterEvent → List String
  | [] => []
  | AdapterEvent.toGame (GameMessage.HostGame map) :: rest => map :: hostGameMaps rest
  | _ :: rest => hostGameMaps rest

/-- The maps of the `HostGame` tasks in a queue, in order. -/
def queuedHostMaps : List IceAdapterGameTask → List String
  | [] => []
  | t :: rest =>
    if t.task = TaskKind.HostGame then t.hostMap :: queuedHostMaps rest
    else queuedHostMaps rest

/-- The tasks an operation puts in the queue. -/
def queuedBy (a : IceAdapter) : Op → List IceAdapterGameTask
  | Op.hostGame map =>
    [{ task := TaskKind.HostGame, hostMap := map, remoteLogin := "", remoteId := 0 }]
  | Op.joinGame login id _ =>
    [{ task := TaskKind.JoinGame, hostMap := "", remoteLogin := login, remoteId := id }]
  | Op.connectToPeer login id _ _ =>
    [{ task := TaskKind.ConnectToPeer, hostMap := "", remoteLogin := login, remoteId := id }]
  | Op.disconnectFromPeer id =>
    if (mapFind id a._relays).isSome then
      [{ task := TaskKind.DisconnectFromPeer, hostMap := "", remoteLogin := "", remoteId := id }]
    else []
  | _ => []

/-- The tasks a sequence of operations puts in the queue, in order. -/
def enqueued : IceAdapter → List Op → List IceAdapterGameTask
  | _, [] => []
  | a, op :: ops => queuedBy a op ++ enqueued (step a op).1 ops

/-- The `CreateLobby` messages among a list of events, in order. -/
def createLobbies : List AdapterEvent → List GameMessage
  | [] => []
  | AdapterEvent.toGame (GameMessage.CreateLobby mode port login id n) :: rest =>
    GameMessage.CreateLobby mode port login id n :: createLobbies rest
  | _ :: rest => createLobbies rest

/-- A `GameState` message with the single chunk `Lobby`. -/
def isLobbyMessage : Op → Bool
  | Op.gpgNetMessage message =>
    decide (message.header = "GameState") && decide (message.chunks.length = 1) &&
      decide ((message.chunks.headD Json.null).asString = "Lobby")
  | _ => false

/-- The message `GameState` with the one chunk `state`. -/
def gameState (state : String) : GPGNetMessage :=
  { header := "GameState", chunks := [Json.str state] }

end IceAdapter

/-- Options for examples: player 1, `alice`, game port 6112. -/
def sampleOptions : IceAdapterOptions :=
  { localPlayerId := 1, localPlayerLogin := "alice", gameUdpPort := 6112 }

/-- The keys of a map kept as a list stand in strictly ascending order, so no key
stands twice. -/
def KeysAscending {β : Type} (m : List (Int × β)) : Prop :=
  List.Pairwise (fun x y => x < y) (m.map Prod.fst)

namespace IceAdapter

/-- The operation makes or removes the relay of `id`: a `joinGame` or `connectToPeer`
for `id`, a `disconnectFromPeer` of `id`, or the game going. -/
def touches (id : Int) : Op → Bool
  | Op.joinGame _ j _ => decide (j = id)
  | Op.connectToPeer _ j _ _ => decide (j = id)
  | Op.disconnectFromPeer j => decide (j = id)
  | Op.gameDisconnected => true
  | _ => false

/-- The relay an operation makes for `id`, when it is a `joinGame` or `connectToPeer`
for `id`. -/
def creates (options : IceAdapterOptions) (id : Int) : Op → Option PeerRelay
  | Op.joinGame login j port =>
    if j = id then
      some { remotePlayerId := j, remotePlayerLogin := login, createOffer := false,
             gameUdpPort := options.gameUdpPort, localUdpSocketPort := port }
    else none
  | Op.connectToPeer login j offer port =>
    if j = id then
      some { remotePlayerId := j, remotePlayerLogin := login, createOffer := offer,
             gameUdpPort := options.gameUdpPort, localUdpSocketPort := port }
    else none
  | _ => none

/-- The task `DisconnectFromPeer(id)` as `disconnectFromPeer` makes it. -/
def disconnectTask (id : Int) : IceAdapterGameTask :=
  { task := TaskKind.DisconnectFromPeer, hostMap := "", remoteLogin := "", remoteId := id }

/-- An adapter for examples: the game has connected and reported `Idle`, then
`hostGame("SCMP_009")` was called; the `HostGame` task waits for the lobby. -/
def waitingForLobby : IceAdapter :=
  ((init sampleOptions).run
    [Op.gameConnected, Op.gpgNetMessage (gameState "Idle"), Op.hostGame "SCMP_009"]).1

end IceAdapter

namespace IceAdapter

/-- Modelled from the spec: a message from the game comes over the game's
connection, so in a run every `gpgNetMessage` finds the game connected. -/
def MessagesWhileConnected : IceAdapter → List Op → Prop
  | _, [] => True
  | a, Op.gpgNetMessage message :: ops =>
    a.hasConnectedClient = true ∧
      MessagesWhileConnected (a.step (Op.gpgNetMessage message)).1 ops
  | a, op :: ops => MessagesWhileConnected (a.step op).1 ops

end IceAdapter


/-! ## The trim and the scan, instrumented -/

/-- A byte string with its leading run of whitespace removed, as the specification
words the trim of the receive buffer. -/
def leftTrimSpec (s : List Char) : List Char :=
  s.dropWhile (fun c => decide (c ∈ whitespace))

/-- The ways out of `_parseJsonFromMsgBuffer`, one for each `return`: the buffer is
empty; its first byte is not `{`; `braceNestingLevel < 0`; the reader rejects the
bytes; the reader accepts them; the `for` loop reaches the end of the buffer. -/
inductive ParseExit where
  | emptyBuffer
  | notAnObject
  | negativeNesting
  | readerFailed
  | extracted
  | endOfBuffer
  deriving DecidableEq

/-- What a call of `_parseJsonFromMsgBuffer` does: the value it returns with the
buffer it leaves, the `return` it leaves through, and the values that
`braceNestingLevel` has at the end of each round of the `for` loop, in order. -/
structure ParseTrace where
  result : Json × List Char
  exit : ParseExit
  levels : List Int

/-- The `for` loop of `_parseJsonFromMsgBuffer` with `braceNestingLevel` as the
source has it, a 32-bit `int` (`++` and `--` through `wrapInt32`), and with the
`return` taken and the values of `braceNestingLevel` recorded. -/
def parseLoopTrace (reader : Reader) (msgBuffer : List Char) :
    List Char → Nat → Bool → Int → ParseTrace
  | [], _, _, _ =>
    { result := (Json.null, msgBuffer), exit := ParseExit.endOfBuffer, levels := [] }
  | c :: rest, msgPos, inString, braceNestingLevel =>
    let inString := if c = '"' then !inString else inString
    if !inString then
      let braceNestingLevel :=
        if c = '{' then wrapInt32 (braceNestingLevel + 1) else braceNestingLevel
      if c = '}' then
        let braceNestingLevel := wrapInt32 (braceNestingLevel - 1)
        if braceNestingLevel < 0 then
          { result := (Json.null, []), exit := ParseExit.negativeNesting,
            levels := [braceNestingLevel] }
        else if braceNestingLevel = 0 then
          let parsed := reader (msgBuffer.take (msgPos + 1))
          if !parsed.1 then
            { result := (parsed.2, []), exit := ParseExit.readerFailed,
              levels := [braceNestingLevel] }
          else if msgPos + 1 ≥ msgBuffer.length then
            { result := (parsed.2, []), exit := ParseExit.extracted,
              levels := [braceNestingLevel] }
          else
            { result := (parsed.2, msgBuffer.drop (msgPos + 1)), exit := ParseExit.extracted,
              levels := [braceNestingLevel] }
        else
          let t := parseLoopTrace reader msgBuffer rest (msgPos + 1) inString braceNestingLevel
          { t with levels := braceNestingLevel :: t.levels }
      else
        let t := parseLoopTrace reader msgBuffer rest (msgPos + 1) inString braceNestingLevel
        { t with levels := braceNestingLevel :: t.levels }
    else
      let t := parseLoopTrace reader msgBuffer rest (msgPos + 1) inString braceNestingLevel
      { t with levels := braceNestingLevel :: t.levels }

/-- The function `_parseJsonFromMsgBuffer` with the 32-bit counter of the source,
the `return` taken and the values of `braceNestingLevel` recorded. -/
def parseTrace (reader : Reader) (msgBuffer : List Char) : ParseTrace :=
  match msgBuffer with
  | [] => { result := (Json.null, []), exit := ParseExit.emptyBuffer, levels := [] }
  | c :: _ =>
    if c ≠ '{' then
      { result := (Json.null, []), exit := ParseExit.notAnObject, levels := [] }
    else parseLoopTrace reader msgBuffer msgBuffer 0 false 0

/-- A buffer of 2^31 + 1 opening braces and one closing brace. -/
def deepBuffer : List Char := List.replicate 2147483649 '{' ++ ['}']

/-! ## Defined behaviour, and a server at the last id -/

/-- No event of the list is `Event.undefined`: the program stayed within defined
behaviour. -/
def defined {κ : Type} : List (Event κ) → Bool
  | [] => true
  | Event.undefined :: _ => false
  | _ :: rest => defined rest

/-- A writer for examples: the `id` of a frame in decimal. -/
def idWriter : Writer := fun j => (toString (j.get "id").asInt).toList

/-- A server for examples: the client 7 connected and the counter at 2147483647, the
largest `int`. -/
def lastIdServer : JsonRpcServer Nat :=
  { _connectedSockets := [7], _currentMsgs := [], _callbacks := [],
    _currentRequests := [], _currentId := 2147483647 }

/-! ## A response for examples -/

/-- The bytes of the response `{"id":0,"result":1}`. -/
def textReply : List Char :=
  ['{', '"', 'i', 'd', '"', ':', '0', ',', '"', 'r', 'e', 's', 'u', 'l', 't', '"', ':', '1', '}']

/-- The response message with `id` 0 and `result` 1. -/
def objReply : Json := Json.obj [("id", Json.int 0), ("result", Json.int 1)]

/-- A reader for examples that knows the response. -/
def replyReader : Reader := tableReader [(textReply, objReply)]

/-! ## The queue in the lobby -/

namespace IceAdapter

/-- The message that a task makes when it is executed with the game in the lobby,
as the specification words it: `HostGame(map)`; for `JoinGame` and `ConnectToPeer`
the message with the address `127.0.0.1:<relay.local_udp_port>` when the remote id
has a relay and none when it has not; `DisconnectFromPeer(id)`. -/
def lobbyMessage (relays : List (Int × PeerRelay)) (t : IceAdapterGameTask) :
    Option GameMessage :=
  match t.task with
  | TaskKind.HostGame => some (GameMessage.HostGame t.hostMap)
  | TaskKind.JoinGame =>
    (mapFind t.remoteId relays).map fun relay =>
      GameMessage.JoinGame ("127.0.0.1:" ++ toString relay.localUdpSocketPort)
        t.remoteLogin t.remoteId
  | TaskKind.ConnectToPeer =>
    (mapFind t.remoteId relays).map fun relay =>
      GameMessage.ConnectToPeer ("127.0.0.1:" ++ toString relay.localUdpSocketPort)
        t.remoteLogin t.remoteId
  | TaskKind.DisconnectFromPeer => some (GameMessage.DisconnectFromPeer t.remoteId)

/-- A `JoinGame` or `ConnectToPeer` task whose remote id has no relay. -/
def relayMissing (relays : List (Int × PeerRelay)) (t : IceAdapterGameTask) : Bool :=
  (decide (t.task = TaskKind.JoinGame) || decide (t.task = TaskKind.ConnectToPeer)) &&
    (mapFind t.remoteId relays).isNone

/-- The relay that `joinGame("bob", 2)` makes on the sample adapter, with port 7000. -/
def relayOfBob : PeerRelay :=
  { remotePlayerId := 2, remotePlayerLogin := "bob", createOffer := false,
    gameUdpPort := 6112, localUdpSocketPort := 7000 }

/-- The task that `joinGame("bob", 2)` enqueues. -/
def joinTaskOfBob : IceAdapterGameTask :=
  { task := TaskKind.JoinGame, hostMap := "", remoteLogin := "bob", remoteId := 2 }

/-- The task that `connectToPeer("carol", 3, true)` enqueues. -/
def connectTaskOfCarol : IceAdapterGameTask :=
  { task := TaskKind.ConnectToPeer, hostMap := "", remoteLogin := "carol", remoteId := 3 }

/-- An adapter for examples, as `_onGpgNetMessage` has it when the game reports
`Lobby`, before it calls `_tryExecuteGameTasks`: `joinGame("bob", 2)`,
`connectToPeer("carol", 3, true)` and `disconnectFromPeer(3)` were called with no
game, then the game connected. The relay of 2 has port 7000; 3 has no relay. -/
def lobbyWithPeers : IceAdapter :=
  { ((init sampleOptions).run
      [Op.joinGame "bob" 2 7000, Op.connectToPeer "carol" 3 true 7001,
       Op.disconnectFromPeer 3, Op.gameConnected]).1 with _gpgnetGameState := "Lobby" }

end IceAdapter


/-! ## Lemmas on the scan -/

theorem scanState_snoc (pre : List Char) (c : Char) :
    scanState (pre ++ [c]) = scanStep (scanState pre) c := by
  simp [scanState, List.foldl_append]

theorem take_succ_of_append (pre rest : List Char) (c : Char) :
    (pre ++ c :: rest).take (pre.length + 1) = pre ++ [c] := by
  rw [List.take_append_eq_append_take]
  simp

theorem parseLoop_cons (reader : Reader) (buf rest : List Char) (c : Char) (pos : Nat)
    (inS : Bool) (lvl : Int) :
    parseLoop reader buf (c :: rest) pos inS lvl =
      if c = '}' ∧ (scanStep (inS, lvl) c).1 = false then
        if (scanStep (inS, lvl) c).2 < 0 then (Json.null, [])
        else if (scanStep (inS, lvl) c).2 = 0 then
          if !(reader (buf.take (pos + 1))).1 then ((reader (buf.take (pos + 1))).2, [])
          else if pos + 1 ≥ buf.length then ((reader (buf.take (pos + 1))).2, [])
          else ((reader (buf.take (pos + 1))).2, buf.drop (pos + 1))
        else parseLoop reader buf rest (pos + 1) (scanStep (inS, lvl) c).1 (scanStep (inS, lvl) c).2
      else parseLoop reader buf rest (pos + 1) (scanStep (inS, lvl) c).1 (scanStep (inS, lvl) c).2 := by
  by_cases h1 : c = '"'
  · subst h1
    cases inS <;> simp [parseLoop, scanStep]
  · by_cases h2 : c = '{'
    · subst h2
      cases inS <;> simp [parseLoop, scanStep]
    · by_cases h3 : c = '}'
      · subst h3
        cases inS <;> simp [parseLoop, scanStep]
      · cases inS <;> simp [parseLoop, scanStep, h1, h2, h3]

theorem scanStep_snd_ge (st : Bool × Int) (c : Char) : st.2 - 1 ≤ (scanStep st c).2 := by
  unfold scanStep
  simp only
  split_ifs <;> simp only [] <;> omega

theorem scanStep_zero (st : Bool × Int) (c : Char) (h1 : 1 ≤ st.2)
    (h0 : (scanStep st c).2 = 0) : c = '}' ∧ (scanStep st c).1 = false := by
  unfold scanStep at h0 ⊢
  simp only at h0 ⊢
  split_ifs at h0 ⊢ <;> simp_all
  all_goals omega


theorem parseLoop_closes (reader : Reader) (buf : List Char) (p : Nat) (hp : p < buf.length)
    (hzero : braceCount (buf.take (p + 1)) = 0) :
    ∀ (rest pre : List Char) (inS : Bool) (lvl : Int), buf = pre ++ rest →
      scanState pre = (inS, lvl) → 1 ≤ lvl → pre.length ≤ p →
      (∀ q, pre.length ≤ q → q < p → braceCount (buf.take (q + 1)) ≠ 0) →
      parseLoop reader buf rest pre.length inS lvl = extractAt reader buf p := by
  intro rest
  induction rest with
  | nil =>
    intro pre inS lvl hbuf _ _ hle _
    subst hbuf
    simp at hp
    omega
  | cons c rest ih =>
    intro pre inS lvl hbuf hst hlvl hle hne
    have htake : buf.take (pre.length + 1) = pre ++ [c] := by
      rw [hbuf]; exact take_succ_of_append pre rest c
    have hstep : scanState (pre ++ [c]) = scanStep (inS, lvl) c := by
      rw [scanState_snoc, hst]
    rw [parseLoop_cons]
    rcases Nat.eq_or_lt_of_le hle with heq | hlt
    · -- the closing position
      have h0 : (scanStep (inS, lvl) c).2 = 0 := by
        rw [← hstep, ← htake, heq]; exact hzero
      obtain ⟨hc, hs⟩ := scanStep_zero (inS, lvl) c hlvl h0
      have hlen : buf.drop (p + 1) = [] ↔ p + 1 ≥ buf.length := by
        simp [List.drop_eq_nil_iff]
      rw [if_pos ⟨hc, hs⟩, h0]
      simp only [lt_self_iff_false, if_false, if_true, heq, extractAt]
      by_cases hr : (reader (buf.take (p + 1))).1
      · by_cases hl : p + 1 ≥ buf.length
        · simp [hr, hl, hlen.mpr hl]
        · simp [hr, hl]
      · simp [hr]
    · -- an earlier position: the count is not zero, the loop goes on
      have hnz : (scanStep (inS, lvl) c).2 ≠ 0 := by
        rw [← hstep, ← htake]; exact hne pre.length le_rfl hlt
      have hge := scanStep_snd_ge (inS, lvl) c
      simp only at hge
      have hpos : 1 ≤ (scanStep (inS, lvl) c).2 := by omega
      have hrec := ih (pre ++ [c]) (scanStep (inS, lvl) c).1 (scanStep (inS, lvl) c).2
        (by rw [hbuf]; simp) (by rw [hstep]) hpos (by simp; omega)
        (by intro q hq1 hq2; exact hne q (by simp at hq1; omega) hq2)
      simp only [List.length_append, List.length_singleton] at hrec
      rw [hrec]
      split_ifs <;> first | rfl | omega

theorem parseLoop_needMore (reader : Reader) (buf : List Char) :
    ∀ (rest pre : List Char) (inS : Bool) (lvl : Int), buf = pre ++ rest →
      scanState pre = (inS, lvl) → 1 ≤ lvl →
      (∀ q, pre.length ≤ q → q < buf.length → braceCount (buf.take (q + 1)) ≠ 0) →
      parseLoop reader buf rest pre.length inS lvl = (Json.null, buf) := by
  intro rest
  induction rest with
  | nil =>
    intro pre inS lvl _ _ _ _
    simp [parseLoop]
  | cons c rest ih =>
    intro pre inS lvl hbuf hst hlvl hne
    have htake : buf.take (pre.length + 1) = pre ++ [c] := by
      rw [hbuf]; exact take_succ_of_append pre rest c
    have hstep : scanState (pre ++ [c]) = scanStep (inS, lvl) c := by
      rw [scanState_snoc, hst]
    have hnz : (scanStep (inS, lvl) c).2 ≠ 0 := by
      rw [← hstep, ← htake]
      exact hne pre.length le_rfl (by rw [hbuf]; simp)
    have hge := scanStep_snd_ge (inS, lvl) c
    simp only at hge
    have hpos : 1 ≤ (scanStep (inS, lvl) c).2 := by omega
    have hrec := ih (pre ++ [c]) (scanStep (inS, lvl) c).1 (scanStep (inS, lvl) c).2
      (by rw [hbuf]; simp) (by rw [hstep]) hpos
      (by intro q hq1 hq2; exact hne q (by simp at hq1; omega) hq2)
    simp only [List.length_append, List.length_singleton] at hrec
    rw [parseLoop_cons, hrec]
    split_ifs <;> first | rfl | omega

theorem scanState_brace : scanState ['{'] = (false, 1) := by decide

theorem parse_closes (reader : Reader) (tl : List Char) (p : Nat)
    (hp : ClosesAt ('{' :: tl) p) :
    _parseJsonFromMsgBuffer reader ('{' :: tl) = extractAt reader ('{' :: tl) p := by
  obtain ⟨hlen, hzero, hne⟩ := hp
  have hp1 : 1 ≤ p := by
    rcases Nat.eq_zero_or_pos p with h | h
    · subst h
      simp [braceCount] at hzero
      rw [scanState_brace] at hzero
      simp at hzero
    · exact h
  have h := parseLoop_closes reader ('{' :: tl) p hlen hzero tl ['{'] false 1 rfl
    scanState_brace le_rfl (by simpa using hp1) (by intro q _ hq; exact hne q hq)
  simp only [_parseJsonFromMsgBuffer, ne_eq, not_true_eq_false, if_false]
  rw [parseLoop_cons]
  simpa [scanStep] using h

theorem parse_needMore (reader : Reader) (tl : List Char) (h : NeverCloses ('{' :: tl)) :
    _parseJsonFromMsgBuffer reader ('{' :: tl) = (Json.null, '{' :: tl) := by
  have h1 := parseLoop_needMore reader ('{' :: tl) tl ['{'] false 1 rfl
    scanState_brace le_rfl (by intro q _ hq; exact h q hq)
  simp only [_parseJsonFromMsgBuffer, ne_eq, not_true_eq_false, if_false]
  rw [parseLoop_cons]
  simpa [scanStep] using h1


/-! ## Single extraction and need-more -/

theorem trim_length_le (s : List Char) : (trim_whitespace s).length ≤ s.length := by
  unfold trim_whitespace
  split
  · simp only [substr, List.length_take, List.length_drop]
    omega
  · simp

theorem parseLoop_shrinks (reader : Reader) (buf : List Char) (hbuf : buf ≠ []) :
    ∀ (rest : List Char) (pos : Nat) (inS : Bool) (lvl : Int),
      (parseLoop reader buf rest pos inS lvl).1.isNull = false →
      (parseLoop reader buf rest pos inS lvl).2.length < buf.length := by
  have hpos : 0 < buf.length := List.length_pos.mpr hbuf
  intro rest
  induction rest with
  | nil =>
    intro pos inS lvl h
    simp [parseLoop, Json.isNull] at h
  | cons c rest ih =>
    intro pos inS lvl h
    rw [parseLoop_cons] at h ⊢
    split_ifs at h ⊢
    all_goals first
      | exact ih _ _ _ h
      | (simp [Json.isNull] at h; done)
      | (simp only [List.length_nil]; exact hpos)
      | (simp only [List.length_drop]; omega)

theorem parse_shrinks (reader : Reader) (buf : List Char)
    (h : (_parseJsonFromMsgBuffer reader buf).1.isNull = false) :
    (_parseJsonFromMsgBuffer reader buf).2.length < buf.length := by
  cases buf with
  | nil => simp [_parseJsonFromMsgBuffer, Json.isNull] at h
  | cons c tl =>
    unfold _parseJsonFromMsgBuffer at h ⊢
    simp only at h ⊢
    split_ifs at h ⊢
    · simp [Json.isNull] at h
    · exact parseLoop_shrinks reader (c :: tl) (by simp) _ _ _ _ h

theorem readLoop_fuel {σ : Type} (reader : Reader) (process : σ → Json → σ) :
    ∀ (f1 f2 : Nat) (st : σ) (buf : List Char), buf.length < f1 → buf.length < f2 →
      readLoop reader process f1 st buf = readLoop reader process f2 st buf ∧
      (readLoop reader process f1 st buf).isSome = true := by
  intro f1
  induction f1 with
  | zero => intro f2 st buf h; omega
  | succ f1 ih =>
    intro f2 st buf h1 h2
    cases f2 with
    | zero => omega
    | succ f2 =>
      simp only [readLoop]
      have ht := trim_length_le buf
      split_ifs with he hn
      · simp
      · simp
      · have hs := parse_shrinks reader (trim_whitespace buf) (by simpa using hn)
        exact ih f2 _ _ (by omega) (by omega)

theorem readLoop_succ {σ : Type} (reader : Reader) (process : σ → Json → σ) (fuel : Nat)
    (st : σ) (buf : List Char) :
    readLoop reader process (fuel + 1) st buf =
      if trim_whitespace buf = [] then some (st, trim_whitespace buf)
      else if (_parseJsonFromMsgBuffer reader (trim_whitespace buf)).1.isNull then
        some (st, (_parseJsonFromMsgBuffer reader (trim_whitespace buf)).2)
      else readLoop reader process fuel
        (process st (_parseJsonFromMsgBuffer reader (trim_whitespace buf)).1)
        (_parseJsonFromMsgBuffer reader (trim_whitespace buf)).2 := rfl

/-- The loop of `_onRead`, freed of its fuel. -/
theorem runLoop_eq {σ : Type} (reader : Reader) (process : σ → Json → σ) (st : σ)
    (buf : List Char) :
    runLoop reader process st buf =
      if trim_whitespace buf = [] then (st, [])
      else if (_parseJsonFromMsgBuffer reader (trim_whitespace buf)).1.isNull then
        (st, (_parseJsonFromMsgBuffer reader (trim_whitespace buf)).2)
      else runLoop reader process
        (process st (_parseJsonFromMsgBuffer reader (trim_whitespace buf)).1)
        (_parseJsonFromMsgBuffer reader (trim_whitespace buf)).2 := by
  conv_lhs => rw [runLoop, readLoop_succ]
  split_ifs with he hn
  · simp [he]
  · simp
  · have ht := trim_length_le buf
    have hs := parse_shrinks reader (trim_whitespace buf) (by simpa using hn)
    have h1 := readLoop_fuel reader process buf.length
      ((_parseJsonFromMsgBuffer reader (trim_whitespace buf)).2.length + 1)
      (process st (_parseJsonFromMsgBuffer reader (trim_whitespace buf)).1)
      (_parseJsonFromMsgBuffer reader (trim_whitespace buf)).2 (by omega) (by omega)
    obtain ⟨r, hr⟩ := Option.isSome_iff_exists.mp h1.2
    rw [runLoop, ← h1.1, hr]
    simp

/-- The loop of `_onRead` ends for every buffer: the fuel `runLoop` gives suffices. -/
theorem readLoop_enough_fuel {σ : Type} (reader : Reader) (process : σ → Json → σ) (st : σ)
    (buf : List Char) :
    readLoop reader process (buf.length + 1) st buf = some (runLoop reader process st buf) := by
  have h := (readLoop_fuel reader process (buf.length + 1) (buf.length + 1) st buf
    (by omega) (by omega)).2
  obtain ⟨r, hr⟩ := Option.isSome_iff_exists.mp h
  simp [runLoop, hr]


/-! ## Lemmas on `trim_whitespace` -/

theorem find_first_not_of_append (chars w l : List Char) (hw : ∀ c ∈ w, c ∈ chars) :
    find_first_not_of chars (w ++ l) = (find_first_not_of chars l).map (· + w.length) := by
  induction w with
  | nil => simp
  | cons x w ih =>
    have hx : x ∈ chars := hw x (by simp)
    have ih2 := ih (fun c hc => hw c (by simp [hc]))
    show find_first_not_of chars (x :: (w ++ l)) = _
    rw [find_first_not_of, if_pos hx, ih2]
    cases find_first_not_of chars l with
    | none => rfl
    | some i => simp only [Option.map_some', List.length_cons, Option.some.injEq]; omega

theorem find_last_not_of_all (chars u : List Char) (hu : ∀ c ∈ u, c ∈ chars) :
    find_last_not_of chars u = none := by
  induction u with
  | nil => rfl
  | cons x u ih =>
    have hx : x ∈ chars := hu x (by simp)
    simp [find_last_not_of, ih (fun c hc => hu c (by simp [hc])), hx]

theorem find_last_not_of_snoc (chars a u : List Char) (x : Char) (hx : x ∉ chars)
    (hu : ∀ c ∈ u, c ∈ chars) :
    find_last_not_of chars (a ++ x :: u) = some a.length := by
  induction a with
  | nil => simp [find_last_not_of, find_last_not_of_all chars u hu, hx]
  | cons y a ih => simp [find_last_not_of, ih]

theorem trim_all_whitespace (s : List Char) (hs : AllWhitespace s) : trim_whitespace s = [] := by
  unfold trim_whitespace
  rw [find_last_not_of_all whitespace s hs]
  split <;> simp_all

/-- The trim of leading whitespace `w`, a core `y :: (mid ++ [x])` or `[y]` that starts
and ends outside the whitespace set, and trailing whitespace `u`: the core, and as
many trailing bytes as there were leading ones. -/
theorem trim_core (w z u : List Char) (hw : AllWhitespace w) (hu : AllWhitespace u)
    (hz : z ≠ []) (hhead : ∀ c, z.head? = some c → c ∉ whitespace)
    (hlast : ∀ c, z.getLast? = some c → c ∉ whitespace) :
    trim_whitespace (w ++ z ++ u) = z ++ u.take w.length := by
  obtain ⟨y, r, rfl⟩ := List.exists_cons_of_ne_nil hz
  have hy : y ∉ whitespace := hhead y (by simp)
  obtain ⟨a, x, hax⟩ : ∃ a x, y :: r = a ++ [x] := by
    rcases List.eq_nil_or_concat (y :: r) with h | ⟨a, x, h⟩
    · simp at h
    · exact ⟨a, x, by simpa using h⟩
  have hx : x ∉ whitespace := hlast x (by rw [hax]; simp)
  have hfirst : find_first_not_of whitespace (w ++ (y :: r) ++ u) = some w.length := by
    rw [List.append_assoc, find_first_not_of_append whitespace w _ hw]
    simp [find_first_not_of, hy]
  have hlastIdx : find_last_not_of whitespace (w ++ (y :: r) ++ u) =
      some (w.length + a.length) := by
    rw [hax]
    have e : w ++ (a ++ [x]) ++ u = (w ++ a) ++ x :: u := by simp
    rw [e, find_last_not_of_snoc whitespace (w ++ a) u x hx hu]
    simp
  unfold trim_whitespace
  rw [hfirst, hlastIdx]
  simp only [substr]
  have e1 : (w ++ (y :: r) ++ u).drop w.length = (y :: r) ++ u := by
    rw [List.append_assoc, List.drop_left]
  rw [e1]
  have e2 : w.length + a.length + 1 = (y :: r).length + w.length := by
    rw [hax]; simp; omega
  rw [e2, List.take_append]

theorem trim_core_exact (w z : List Char) (hw : AllWhitespace w)
    (hz : z ≠ []) (hhead : ∀ c, z.head? = some c → c ∉ whitespace)
    (hlast : ∀ c, z.getLast? = some c → c ∉ whitespace) :
    trim_whitespace (w ++ z) = z := by
  have h := trim_core w z [] hw (by intro c hc; simp at hc) hz hhead hlast
  simpa using h

/-- Every byte string is a core that is empty or ends outside the whitespace set,
followed by whitespace. -/
theorem split_trailing_whitespace (l : List Char) :
    ∃ z u, l = z ++ u ∧ AllWhitespace u ∧ ∀ c, z.getLast? = some c → c ∉ whitespace := by
  induction l using List.reverseRecOn with
  | nil => exact ⟨[], [], rfl, by intro c hc; simp at hc, by simp⟩
  | append_singleton l x ih =>
    by_cases hx : x ∈ whitespace
    · obtain ⟨z, u, hl, hu, hz⟩ := ih
      refine ⟨z, u ++ [x], by rw [hl]; simp, ?_, hz⟩
      intro c hc
      rcases List.mem_append.mp hc with h | h
      · exact hu c h
      · simp at h; rw [h]; exact hx
    · refine ⟨l ++ [x], [], by simp, by intro c hc; simp at hc, ?_⟩
      intro c hc
      simp at hc
      rw [← hc]; exact hx

/-- Every byte string is whitespace followed by a rest that is empty or starts
outside the whitespace set. -/
theorem split_leading_whitespace (l : List Char) :
    ∃ w z, l = w ++ z ∧ AllWhitespace w ∧ ∀ c, z.head? = some c → c ∉ whitespace := by
  induction l with
  | nil => exact ⟨[], [], rfl, by intro c hc; simp at hc, by simp⟩
  | cons x l ih =>
    by_cases hx : x ∈ whitespace
    · obtain ⟨w, z, hl, hw, hz⟩ := ih
      refine ⟨x :: w, z, by rw [hl]; simp, ?_, hz⟩
      intro c hc
      rcases List.mem_cons.mp hc with h | h
      · rw [h]; exact hx
      · exact hw c h
    · refine ⟨[], x :: l, by simp, by intro c hc; simp at hc, ?_⟩
      intro c hc
      simp at hc
      rw [← hc]; exact hx


/-! ## The scan and trailing whitespace -/

theorem scanStep_whitespace (st : Bool × Int) (c : Char) (hc : c ∈ whitespace) :
    scanStep st c = st := by
  have h1 : c ≠ '"' := by rintro rfl; revert hc; decide
  have h2 : c ≠ '{' := by rintro rfl; revert hc; decide
  have h3 : c ≠ '}' := by rintro rfl; revert hc; decide
  unfold scanStep
  simp only [h1, h2, h3, if_false]
  split_ifs <;> rfl

theorem scanState_append_whitespace (t e : List Char) (he : AllWhitespace e) :
    scanState (t ++ e) = scanState t := by
  induction e using List.reverseRecOn with
  | nil => simp
  | append_singleton e x ih =>
    rw [← List.append_assoc, scanState_snoc, ih (fun c hc => he c (by simp [hc])),
      scanStep_whitespace _ x (he x (by simp))]

theorem closesAt_append (t e : List Char) (p : Nat) (h : ClosesAt t p) : ClosesAt (t ++ e) p := by
  obtain ⟨hlen, hzero, hne⟩ := h
  refine ⟨by simp; omega, ?_, ?_⟩
  · rw [List.take_append_of_le_length (by omega)]; exact hzero
  · intro q hq
    rw [List.take_append_of_le_length (by omega)]; exact hne q hq

theorem neverCloses_append_whitespace (t e : List Char) (ht : t ≠ []) (h : NeverCloses t)
    (he : AllWhitespace e) : NeverCloses (t ++ e) := by
  intro q hq
  by_cases hlt : q < t.length
  · rw [List.take_append_of_le_length (by omega)]; exact h q hlt
  · have hpos : 0 < t.length := List.length_pos.mpr ht
    have e1 : (t ++ e).take (q + 1) = t ++ e.take (q + 1 - t.length) := by
      rw [List.take_append_eq_append_take, List.take_of_length_le (by omega)]
    have hsub : AllWhitespace (e.take (q + 1 - t.length)) :=
      fun c hc => he c (List.mem_of_mem_take hc)
    have hlast := h (t.length - 1) (by omega)
    rw [show t.length - 1 + 1 = t.length by omega, List.take_length] at hlast
    rw [e1, braceCount, scanState_append_whitespace t _ hsub]
    exact hlast

theorem closes_or_never (t : List Char) : (∃ p, ClosesAt t p) ∨ NeverCloses t := by
  by_cases h : ∃ q, q < t.length ∧ braceCount (t.take (q + 1)) = 0
  · left
    classical
    refine ⟨Nat.find h, (Nat.find_spec h).1, (Nat.find_spec h).2, ?_⟩
    intro q hq hz
    exact Nat.find_min h hq ⟨lt_trans hq (Nat.find_spec h).1, hz⟩
  · right
    intro q hq hz
    exact h ⟨q, hq, hz⟩

/-- Whitespace appended to a buffer does not change what `_parseJsonFromMsgBuffer`
returns; it stays behind the buffer left, unless the buffer is cleared. -/
theorem parse_append_whitespace (reader : Reader) (t e : List Char) (ht : t ≠ [])
    (he : AllWhitespace e) :
    (_parseJsonFromMsgBuffer reader (t ++ e)).1 = (_parseJsonFromMsgBuffer reader t).1 ∧
    ((_parseJsonFromMsgBuffer reader (t ++ e)).2 = (_parseJsonFromMsgBuffer reader t).2 ++ e ∨
     ((_parseJsonFromMsgBuffer reader (t ++ e)).2 = [] ∧
      (_parseJsonFromMsgBuffer reader t).2 = [])) := by
  obtain ⟨c, tl, rfl⟩ := List.exists_cons_of_ne_nil ht
  by_cases hc : c = '{'
  · subst hc
    rcases closes_or_never ('{' :: tl) with ⟨p, hp⟩ | hn
    · have h1 := parse_closes reader tl p hp
      have h2 := parse_closes reader (tl ++ e) p (closesAt_append _ e p hp)
      rw [List.cons_append, h2, h1]
      have hlen := hp.1
      have e1 : ('{' :: (tl ++ e)).take (p + 1) = ('{' :: tl).take (p + 1) := by
        rw [← List.cons_append, List.take_append_of_le_length (by omega)]
      have e2 : ('{' :: (tl ++ e)).drop (p + 1) = ('{' :: tl).drop (p + 1) ++ e := by
        rw [← List.cons_append, List.drop_append_of_le_length (by omega)]
      simp only [extractAt, e1, e2]
      split_ifs <;> simp
    · have h1 := parse_needMore reader tl hn
      have h2 := parse_needMore reader (tl ++ e)
        (neverCloses_append_whitespace ('{' :: tl) e (by simp) hn he)
      rw [List.cons_append, h2, h1]
      simp
  · simp [_parseJsonFromMsgBuffer, hc]

theorem getLast?_append_whitespace (b e : List Char) (he : AllWhitespace e)
    (h : NoTrailingWhitespace (b ++ e)) : e = [] := by
  rcases List.eq_nil_or_concat e with h0 | ⟨a, x, hx⟩
  · exact h0
  · exfalso
    have hx' : e = a ++ [x] := by simpa using hx
    have := h x (by rw [hx', ← List.append_assoc]; simp)
    exact this (he x (by rw [hx']; simp))

/-- Whitespace at the end of the buffer does not change the run of the loop, as long
as the buffer the run leaves does not end in whitespace. -/
theorem runLoop_trailing_whitespace {σ : Type} (reader : Reader) (process : σ → Json → σ) :
    ∀ (n : Nat) (y u : List Char) (st : σ), y.length ≤ n → AllWhitespace u →
      NoTrailingWhitespace (runLoop reader process st (y ++ u)).2 →
      runLoop reader process st y = runLoop reader process st (y ++ u) := by
  intro n
  induction n with
  | zero =>
    intro y u st hy hu _
    have hy0 : y = [] := List.length_eq_zero.mp (by omega)
    subst hy0
    rw [runLoop_eq reader process st [], runLoop_eq reader process st ([] ++ u)]
    rw [trim_all_whitespace ([] ++ u) (by simpa using hu)]
    simp [trim_whitespace, find_first_not_of]
  | succ n ih =>
    intro y u st hy hu hfin
    obtain ⟨w, z, hyz, hw, hzhead⟩ := split_leading_whitespace y
    by_cases hz : z = []
    · subst hz
      have hyws : AllWhitespace y := by rw [hyz]; simpa using hw
      have hyu : AllWhitespace (y ++ u) := by
        intro c hc
        rcases List.mem_append.mp hc with h | h
        · exact hyws c h
        · exact hu c h
      rw [runLoop_eq reader process st y, runLoop_eq reader process st (y ++ u),
        trim_all_whitespace y hyws, trim_all_whitespace _ hyu]
    · obtain ⟨z1, u0, hz1, hu0, hz1last⟩ := split_trailing_whitespace z
      have hz1ne : z1 ≠ [] := by
        rintro rfl
        obtain ⟨c, r, hcr⟩ := List.exists_cons_of_ne_nil hz
        have := hzhead c (by rw [hcr]; simp)
        apply this
        apply hu0
        have : c ∈ z := by rw [hcr]; simp
        simpa [hz1] using this
      have hz1head : ∀ c, z1.head? = some c → c ∉ whitespace := by
        intro c hc
        apply hzhead
        obtain ⟨d, r, hdr⟩ := List.exists_cons_of_ne_nil hz1ne
        rw [hdr] at hc
        rw [hz1, hdr]
        simpa using hc
      have hu0u : AllWhitespace (u0 ++ u) := by
        intro c hc
        rcases List.mem_append.mp hc with h | h
        · exact hu0 c h
        · exact hu c h
      have ht1 : trim_whitespace y = z1 ++ u0.take w.length := by
        rw [hyz, hz1, ← List.append_assoc]
        exact trim_core w z1 u0 hw hu0 hz1ne hz1head hz1last
      have ht2 : trim_whitespace (y ++ u) =
          (z1 ++ u0.take w.length) ++ u.take (w.length - u0.length) := by
        rw [hyz, hz1]
        have e : w ++ (z1 ++ u0) ++ u = w ++ z1 ++ (u0 ++ u) := by simp
        rw [e, trim_core w z1 (u0 ++ u) hw hu0u hz1ne hz1head hz1last,
          List.take_append_eq_append_take]
        simp
      have he3 : AllWhitespace (u.take (w.length - u0.length)) :=
        fun c hc => hu c (List.mem_of_mem_take hc)
      have hT1 : z1 ++ u0.take w.length ≠ [] := by simp [hz1ne]
      have hlenT1 : (z1 ++ u0.take w.length).length ≤ y.length := by
        rw [← ht1]; exact trim_length_le y
      generalize z1 ++ u0.take w.length = t1 at ht1 ht2 hT1 hlenT1
      generalize u.take (w.length - u0.length) = e3 at ht2 he3
      obtain ⟨hp1, hp2⟩ := parse_append_whitespace reader t1 e3 hT1 he3
      have hL : runLoop reader process st y =
          if (_parseJsonFromMsgBuffer reader t1).1.isNull then
            (st, (_parseJsonFromMsgBuffer reader t1).2)
          else runLoop reader process (process st (_parseJsonFromMsgBuffer reader t1).1)
            (_parseJsonFromMsgBuffer reader t1).2 := by
        rw [runLoop_eq, ht1, if_neg hT1]
      have hR : runLoop reader process st (y ++ u) =
          if (_parseJsonFromMsgBuffer reader t1).1.isNull then
            (st, (_parseJsonFromMsgBuffer reader (t1 ++ e3)).2)
          else runLoop reader process (process st (_parseJsonFromMsgBuffer reader t1).1)
            (_parseJsonFromMsgBuffer reader (t1 ++ e3)).2 := by
        rw [runLoop_eq, ht2, if_neg (by simp [hT1]), hp1]
      rw [hR] at hfin
      rw [hL, hR]
      by_cases hnull : (_parseJsonFromMsgBuffer reader t1).1.isNull = true
      · rw [if_pos hnull] at hfin ⊢
        rw [if_pos hnull]
        rcases hp2 with h | ⟨h, h'⟩
        · rw [h] at hfin ⊢
          have := getLast?_append_whitespace _ _ he3 hfin
          rw [this]; simp
        · rw [h, h']
      · rw [if_neg hnull] at hfin ⊢
        rw [if_neg hnull]
        have hs := parse_shrinks reader t1 (by simpa using hnull)
        rcases hp2 with h | ⟨h, h'⟩
        · rw [h] at hfin ⊢
          exact ih _ _ _ (by omega) he3 hfin
        · rw [h, h']

/-! ## The read loop on a stream of framed objects -/

theorem interleave_append (a b : List (List Char × List Char)) :
    interleave (a ++ b) = interleave a ++ interleave b := by
  induction a with
  | nil => rfl
  | cons it a ih => simp [interleave, ih]

theorem framed_ne_nil (reader : Reader) (t : List Char) (h : Framed reader t) : t ≠ [] := by
  rintro rfl
  simp [Framed] at h

theorem framed_head (reader : Reader) (t : List Char) (h : Framed reader t) :
    ∀ c, t.head? = some c → c ∉ whitespace := by
  intro c hc
  rw [h.1] at hc
  simp only [Option.some.injEq] at hc
  rw [← hc]; decide

theorem framed_last (reader : Reader) (t : List Char) (h : Framed reader t) :
    NoTrailingWhitespace t := by
  intro c hc hws
  obtain ⟨hhead, ⟨hlen, hzero, hne⟩, _, _⟩ := h
  rcases List.eq_nil_or_concat t with h0 | ⟨a, x, hx⟩
  · subst h0; simp at hc
  · have hx' : t = a ++ [x] := by simpa using hx
    subst hx'
    have hc2 : x = c := by simpa using hc
    subst hc2
    simp only [List.length_append, List.length_singleton, Nat.add_sub_cancel] at hzero hne
    rw [List.take_of_length_le (by simp)] at hzero
    rw [braceCount, scanState_snoc, scanStep_whitespace _ _ hws] at hzero
    rcases List.eq_nil_or_concat a with ha | ⟨a2, y, hy⟩
    · subst ha
      simp at hhead
      subst hhead
      revert hws; decide
    · have hy' : a = a2 ++ [y] := by simpa using hy
      have := hne a2.length (by rw [hy']; simp)
      apply this
      rw [List.take_append_of_le_length (by rw [hy']; simp)]
      rw [List.take_of_length_le (by rw [hy']; simp)]
      exact hzero

theorem framed_extract (reader : Reader) (t a : List Char) (h : Framed reader t) :
    _parseJsonFromMsgBuffer reader (t ++ a) = ((reader t).2, a) := by
  obtain ⟨hhead, hclose, hok, _⟩ := h
  obtain ⟨c, tl, rfl⟩ := List.exists_cons_of_ne_nil (framed_ne_nil reader t ⟨hhead, hclose, hok, ‹_›⟩)
  simp only [List.head?_cons, Option.some.injEq] at hhead
  subst hhead
  have h1 := parse_closes reader (tl ++ a) _ (closesAt_append _ a _ hclose)
  rw [List.cons_append, h1, extractAt]
  have e1 : ('{' :: (tl ++ a)).take (('{' :: tl).length - 1 + 1) = '{' :: tl := by
    rw [← List.cons_append]
    simp
  have e2 : ('{' :: (tl ++ a)).drop (('{' :: tl).length - 1 + 1) = a := by
    rw [← List.cons_append]
    simp
  rw [e1, e2, if_pos hok]

theorem framed_partial (reader : Reader) (pre suf : List Char) (h : Framed reader (pre ++ suf))
    (hpre : pre ≠ []) (hsuf : suf ≠ []) :
    _parseJsonFromMsgBuffer reader pre = (Json.null, pre) := by
  obtain ⟨hhead, ⟨_, _, hne⟩, _, _⟩ := h
  obtain ⟨c, tl, rfl⟩ := List.exists_cons_of_ne_nil hpre
  simp only [List.cons_append, List.head?_cons, Option.some.injEq] at hhead
  subst hhead
  apply parse_needMore
  intro q hq
  have hsl : 0 < suf.length := List.length_pos.mpr hsuf
  have := hne q (by simp at hq ⊢; omega)
  rwa [List.take_append_of_le_length (by simp at hq ⊢; omega)] at this

/-- One round of the loop on leading whitespace, a framed object and more bytes: the
object is handed on and the loop goes on with the bytes behind it, less some
trailing whitespace. -/
theorem runLoop_framed_step {σ : Type} (reader : Reader) (process : σ → Json → σ) (st : σ)
    (w0 t rest : List Char) (hw0 : AllWhitespace w0) (ht : Framed reader t) :
    ∃ a u, rest = a ++ u ∧ AllWhitespace u ∧
      runLoop reader process st (w0 ++ t ++ rest) =
        runLoop reader process (process st (reader t).2) a := by
  obtain ⟨z, u, hzu, hu, hzlast⟩ := split_trailing_whitespace (t ++ rest)
  have htne := framed_ne_nil reader t ht
  obtain ⟨a1, hz, hrest⟩ : ∃ a1, z = t ++ a1 ∧ rest = a1 ++ u := by
    rcases List.append_eq_append_iff.mp hzu with ⟨a', h1, h2⟩ | ⟨c', h1, h2⟩
    · exact ⟨a', h1, h2⟩
    · have hc : c' = [] := by
        apply getLast?_append_whitespace z c'
        · intro c hc; exact hu c (by rw [h2]; simp [hc])
        · rw [← h1]; exact framed_last reader t ht
      subst hc
      exact ⟨[], by simpa using h1.symm, by simpa using h2.symm⟩
  have hzne : z ≠ [] := by rw [hz]; simp [htne]
  have hzhead : ∀ c, z.head? = some c → c ∉ whitespace := by
    intro c hc
    apply framed_head reader t ht
    obtain ⟨d, r, hdr⟩ := List.exists_cons_of_ne_nil htne
    rw [hz, hdr] at hc
    rw [hdr]
    simpa using hc
  have htrim : trim_whitespace (w0 ++ t ++ rest) = t ++ (a1 ++ u.take w0.length) := by
    have e : w0 ++ t ++ rest = w0 ++ z ++ u := by
      rw [List.append_assoc, hzu, List.append_assoc]
    rw [e, trim_core w0 z u hw0 hu hzne hzhead hzlast, hz, List.append_assoc]
  refine ⟨a1 ++ u.take w0.length, u.drop w0.length, ?_, ?_, ?_⟩
  · rw [hrest, List.append_assoc, List.take_append_drop]
  · intro c hc; exact hu c (List.mem_of_mem_drop hc)
  · rw [runLoop_eq, htrim, framed_extract reader t _ ht]
    rw [if_neg (by simp [htne]), if_neg (by simp [ht.2.2.2])]


theorem runLoop_whitespace {σ : Type} (reader : Reader) (process : σ → Json → σ) (st : σ)
    (x : List Char) (hx : AllWhitespace x) : runLoop reader process st x = (st, []) := by
  rw [runLoop_eq, trim_all_whitespace x hx]
  simp

/-- The run of the loop on the first bytes `x` of a stream of framed objects: the
objects wholly delivered are handed on in order, and the buffer keeps the bytes of
the object begun, none of them lost. -/
theorem runLoop_stream_prefix {σ : Type} (reader : Reader) (process : σ → Json → σ) :
    ∀ (items : List (List Char × List Char)) (w0 x r : List Char) (st : σ),
      AllWhitespace w0 → (∀ it ∈ items, Framed reader it.1 ∧ AllWhitespace it.2) →
      x ++ r = w0 ++ interleave items → SafeCut w0 items x →
      ∃ (n : Nat) (b w1 : List Char),
        runLoop reader process st x =
          (((items.take n).map (fun it => (reader it.1).2)).foldl process st, b) ∧
        AllWhitespace w1 ∧
        x ++ w1 = w0 ++ interleave (items.take n) ++ b ∧
        b ++ r = w1 ++ interleave (items.drop n) ∧
        NoTrailingWhitespace b ∧
        (b = [] ∨ (w1 = [] ∧ ∃ suf w tl, items.drop n = (b ++ suf, w) :: tl ∧ suf ≠ [])) := by
  intro items
  induction items with
  | nil =>
    intro w0 x r st hw0 _ hxr _
    simp only [interleave, List.append_nil] at hxr
    have hx : AllWhitespace x := fun c hc => hw0 c (by rw [← hxr]; simp [hc])
    have hr : AllWhitespace r := fun c hc => hw0 c (by rw [← hxr]; simp [hc])
    refine ⟨0, [], r, ?_, hr, ?_, ?_, ?_, Or.inl rfl⟩
    · rw [runLoop_whitespace reader process st x hx]; rfl
    · simpa [interleave] using hxr
    · simp [interleave]
    · intro c hc; simp at hc
  | cons it rest ih =>
    intro w0 x r st hw0 hitems hxr hsafe
    have wsCase : ∀ a1 : List Char, w0 = x ++ a1 → r = a1 ++ interleave (it :: rest) →
        ∃ (n : Nat) (b w1 : List Char),
          runLoop reader process st x =
            ((((it :: rest).take n).map (fun it => (reader it.1).2)).foldl process st, b) ∧
          AllWhitespace w1 ∧
          x ++ w1 = w0 ++ interleave ((it :: rest).take n) ++ b ∧
          b ++ r = w1 ++ interleave ((it :: rest).drop n) ∧
          NoTrailingWhitespace b ∧
          (b = [] ∨ (w1 = [] ∧ ∃ suf w tl, (it :: rest).drop n = (b ++ suf, w) :: tl ∧
            suf ≠ [])) := by
      intro a1 h1 h2
      have hx : AllWhitespace x := fun c hc => hw0 c (by rw [h1]; simp [hc])
      have ha : AllWhitespace a1 := fun c hc => hw0 c (by rw [h1]; simp [hc])
      refine ⟨0, [], a1, ?_, ha, ?_, ?_, ?_, Or.inl rfl⟩
      · rw [runLoop_whitespace reader process st x hx]; rfl
      · simp [interleave, h1]
      · simp [h2]
      · intro c hc; simp at hc
    have hF : Framed reader it.1 := (hitems it (by simp)).1
    have hw1 : AllWhitespace it.2 := (hitems it (by simp)).2
    rcases List.append_eq_append_iff.mp hxr with ⟨a1, h1, h2⟩ | ⟨c1, h1, h2⟩
    · exact wsCase a1 h1 h2
    · by_cases hc1 : c1 = []
      · subst hc1
        exact wsCase [] (by simpa using h1.symm) (by simpa using h2.symm)
      · have h2' : c1 ++ r = it.1 ++ (it.2 ++ interleave rest) := by
          rw [← h2]; simp [interleave]
        have split : (∃ a2, a2 ≠ [] ∧ it.1 = c1 ++ a2 ∧ r = a2 ++ (it.2 ++ interleave rest)) ∨
            (∃ c2, c1 = it.1 ++ c2 ∧ it.2 ++ interleave rest = c2 ++ r) := by
          rcases List.append_eq_append_iff.mp h2' with ⟨a2, e1, e2⟩ | ⟨c2, e1, e2⟩
          · by_cases ha2 : a2 = []
            · subst ha2
              exact Or.inr ⟨[], by simpa using e1.symm, by simpa using e2.symm⟩
            · exact Or.inl ⟨a2, ha2, e1, e2⟩
          · exact Or.inr ⟨c2, e1, e2⟩
        rcases split with ⟨a2, ha2, e1, e2⟩ | ⟨c2, e1, e2⟩
        · -- the read ends inside the first object
          have hit : it = (c1 ++ a2, it.2) := by rw [← e1]
          have hnt : NoTrailingWhitespace c1 :=
            hsafe 0 c1 a2 it.2 (by simp [interleave, h1]) (by rw [hit]; simp)
          have hF2 : Framed reader (c1 ++ a2) := by rw [← e1]; exact hF
          have hhead : ∀ c, c1.head? = some c → c ∉ whitespace := by
            intro c hc
            apply framed_head reader _ hF2
            obtain ⟨d, q, hdq⟩ := List.exists_cons_of_ne_nil hc1
            rw [hdq] at hc ⊢
            simpa using hc
          have htrim : trim_whitespace x = c1 := by
            rw [h1]; exact trim_core_exact w0 c1 hw0 hc1 hhead hnt
          have hparse := framed_partial reader c1 a2 hF2 hc1 ha2
          refine ⟨0, c1, [], ?_, by intro c hc; simp at hc, ?_, ?_, hnt,
            Or.inr ⟨rfl, a2, it.2, rest, by rw [List.drop_zero]; rw [hit], ha2⟩⟩
          · rw [runLoop_eq, htrim, if_neg hc1, hparse]
            simp [Json.isNull]
          · simp [interleave, h1]
          · rw [e2]; simp [interleave, e1]
        · -- the first object is delivered whole
          have hx : x = w0 ++ it.1 ++ c2 := by rw [h1, e1, List.append_assoc]
          obtain ⟨a, u, hau, hu, hstep⟩ :=
            runLoop_framed_step reader process st w0 it.1 c2 hw0 hF
          have hsafe2 : SafeCut it.2 rest c2 := by
            intro m pre suf w hpre hget
            apply hsafe (m + 1) pre suf w
            · rw [hx, hpre]; simp [interleave]
            · simpa using hget
          obtain ⟨n, b, w1, hrun, hw1', hxw, hbr, hnt, hpart⟩ :=
            ih it.2 c2 r (process st (reader it.1).2) hw1
              (fun it2 h => hitems it2 (by simp [h])) e2.symm hsafe2
          have htw : runLoop reader process (process st (reader it.1).2) a =
              runLoop reader process (process st (reader it.1).2) (a ++ u) := by
            apply runLoop_trailing_whitespace reader process a.length a u _ le_rfl hu
            rw [← hau, hrun]; exact hnt
          refine ⟨n + 1, b, w1, ?_, hw1', ?_, ?_, hnt, ?_⟩
          · rw [hx, hstep, htw, ← hau, hrun]
            simp
          · rw [hx]
            simp only [List.take_succ_cons, interleave, List.append_assoc]
            rw [← List.append_assoc it.2, ← hxw]
          · simpa using hbr
          · simpa using hpart

theorem concatChunks_take_succ (c : List Char) (cs : List (List Char)) (k : Nat) :
    concatChunks ((c :: cs).take (k + 1)) = c ++ concatChunks (cs.take k) := rfl

/-- The reads of a client whose buffer holds `b`, the stream still to come being
framed objects interleaved with whitespace and every read ending at a safe cut. -/
theorem onReads_stream {σ : Type} (reader : Reader) (process : σ → Json → σ) :
    ∀ (chunks : List (List Char)) (b w0 : List Char) (items : List (List Char × List Char))
      (st : σ), AllWhitespace w0 → (∀ it ∈ items, Framed reader it.1 ∧ AllWhitespace it.2) →
      b ++ concatChunks chunks = w0 ++ interleave items →
      (b = [] ∨ (w0 = [] ∧ ∃ suf w tl, items = (b ++ suf, w) :: tl ∧ suf ≠ [])) →
      (∀ k, SafeCut w0 items (b ++ concatChunks (chunks.take k))) →
      onReads reader process st b chunks =
        ((items.map (fun it => (reader it.1).2)).foldl process st, []) := by
  intro chunks
  induction chunks with
  | nil =>
    intro b w0 items st _ hitems hstream hpart _
    simp only [concatChunks, List.append_nil] at hstream
    rcases hpart with hb | ⟨hw, suf, w, tl, hit, hsuf⟩
    · subst hb
      have hnil : items = [] := by
        cases items with
        | nil => rfl
        | cons it rest =>
          exfalso
          have h1 := framed_ne_nil reader it.1 (hitems it (by simp)).1
          have h2 : w0 ++ interleave (it :: rest) = [] := hstream.symm
          simp [interleave] at h2
          exact h1 h2.2.1
      subst hnil
      simp [onReads]
    · exfalso
      subst hw
      rw [hit] at hstream
      simp only [interleave, List.nil_append, List.append_assoc] at hstream
      have h3 : suf = [] ∧ w = [] ∧ interleave tl = [] := by simpa using hstream
      exact hsuf h3.1
  | cons c cs ih =>
    intro b w0 items st hw0 hitems hstream hpart hsafe
    have hxr : (b ++ c) ++ concatChunks cs = w0 ++ interleave items := by
      rw [← hstream]; simp [concatChunks]
    have hs1 : SafeCut w0 items (b ++ c) := by
      have := hsafe 1
      simpa [concatChunks] using this
    obtain ⟨n, b1, w1, hrun, hw1, hxw, hbr, _, hpart1⟩ :=
      runLoop_stream_prefix reader process items w0 (b ++ c) (concatChunks cs) st hw0 hitems
        hxr hs1
    have hitems1 : ∀ it ∈ items.drop n, Framed reader it.1 ∧ AllWhitespace it.2 :=
      fun it h => hitems it (List.mem_of_mem_drop h)
    have hsafe1 : ∀ k, SafeCut w1 (items.drop n) (b1 ++ concatChunks (cs.take k)) := by
      intro k m pre suf w hpre hget
      apply hsafe (k + 1) (n + m) pre suf w
      · rw [concatChunks_take_succ, List.take_add, interleave_append]
        rcases hpart1 with hb | ⟨hw, _⟩
        · subst hb
          simp only [List.nil_append] at hpre
          simp only [List.append_nil] at hxw
          rw [← List.append_assoc b c, hpre]
          simp only [← List.append_assoc]
          rw [hxw]
        · subst hw
          simp only [List.nil_append, List.append_nil] at hpre hxw
          rw [← List.append_assoc b c, hxw]
          simp only [List.append_assoc]
          rw [hpre]
      · rw [← hget, List.getElem?_drop]
    have hrec := ih b1 w1 (items.drop n)
      (((items.take n).map (fun it => (reader it.1).2)).foldl process st) hw1 hitems1 hbr
      hpart1 hsafe1
    simp only [onReads, onReadBuffer]
    rw [hrun, hrec, ← List.foldl_append, ← List.map_append, List.take_append_drop]


/-! ## The framer round trip -/

theorem safeCut_nil (w0 : List Char) (items : List (List Char × List Char)) :
    SafeCut w0 items [] := by
  intro n pre suf w h _
  have hp : pre = [] := by
    have := congrArg List.length h
    simp at this
    exact List.length_eq_zero.mp (by omega)
  rw [hp]
  intro c hc
  simp at hc

theorem safeCut_whole (reader : Reader) (w0 : List Char) (items : List (List Char × List Char))
    (hitems : ∀ it ∈ items, Framed reader it.1 ∧ AllWhitespace it.2) :
    SafeCut w0 items (w0 ++ interleave items) := by
  intro n pre suf w h hget
  have hsplit : interleave items = interleave (items.take n) ++ interleave (items.drop n) := by
    rw [← interleave_append, List.take_append_drop]
  have hlt : n < items.length := by
    by_contra hge
    rw [List.getElem?_eq_none (by omega)] at hget
    simp at hget
  have hdrop : items.drop n = (pre ++ suf, w) :: items.drop (n + 1) := by
    rw [List.drop_eq_getElem_cons hlt]
    congr 1
    rw [List.getElem?_eq_getElem hlt] at hget
    simpa using hget
  rw [hsplit, hdrop] at h
  simp only [interleave, List.append_assoc, List.append_cancel_left_eq] at h
  have hs : suf = [] := by
    have := congrArg List.length h
    simp only [List.length_append] at this
    exact List.length_eq_zero.mp (by omega)
  have hF : Framed reader (pre ++ suf) := by
    have hm : (pre ++ suf, w) ∈ items := by
      have : (pre ++ suf, w) ∈ items.drop n := by rw [hdrop]; simp
      exact List.mem_of_mem_drop this
    exact (hitems _ hm).1
  rw [hs, List.append_nil] at hF
  exact framed_last reader pre hF

/-- The whole stream delivered by one read is handed on object by object. -/
theorem single_read_round_trip {σ : Type} (reader : Reader) (process : σ → Json → σ) (st : σ)
    (w0 : List Char) (items : List (List Char × List Char)) (hw0 : AllWhitespace w0)
    (hitems : ∀ it ∈ items, Framed reader it.1 ∧ AllWhitespace it.2) :
    onReads reader process st [] [w0 ++ interleave items] =
      ((items.map (fun it => (reader it.1).2)).foldl process st, []) := by
  apply onReads_stream reader process _ [] w0 items st hw0 hitems
    (by simp [concatChunks]) (Or.inl rfl)
  intro k
  cases k with
  | zero => simpa [concatChunks] using safeCut_nil w0 items
  | succ k => simpa [concatChunks] using safeCut_whole reader w0 items hitems

/-- A read that ends behind a whitespace byte inside an object: `{"a":"b c"}` cut
behind the space. Delivered whole it is handed on as it is; cut there, the space is
trimmed off the buffer and the object handed on is `{"a":"bc"}`. -/
theorem split_behind_whitespace_example :
    concatChunks [['{', '"', 'a', '"', ':', '"', 'b', ' '], ['c', '"', '}']] = textSpace ∧
    dispatched spaceReader [textSpace] = [objSpace] ∧
    dispatched spaceReader [['{', '"', 'a', '"', ':', '"', 'b', ' '], ['c', '"', '}']] =
      [objNoSpace] :=
  ⟨rfl, rfl, rfl⟩

/-! ## Malformed input -/

theorem lookup_assign_self (key : String) (v : Json) (ms : List (String × Json)) :
    Json.lookup key (Json.assign key v ms) = some v := by
  induction ms with
  | nil => simp [Json.assign, Json.lookup]
  | cons m ms ih =>
    obtain ⟨k, w⟩ := m
    unfold Json.assign
    split_ifs with h1 h2
    · simp [Json.lookup]
    · simp [Json.lookup]
    · simp [Json.lookup, h1, ih]

theorem lookup_assign_other (key other : String) (v : Json) (ms : List (String × Json))
    (h : other ≠ key) : Json.lookup other (Json.assign key v ms) = Json.lookup other ms := by
  induction ms with
  | nil => simp [Json.assign, Json.lookup, Ne.symm h]
  | cons m ms ih =>
    obtain ⟨k, w⟩ := m
    unfold Json.assign
    split_ifs with h1 h2
    · subst h1
      simp [Json.lookup, Ne.symm h]
    · simp [Json.lookup, Ne.symm h]
    · by_cases hk : k = other
      · simp [Json.lookup, hk]
      · simp [Json.lookup, hk, ih]

theorem get_set_self (j : Json) (key : String) (v : Json) : (j.set key v).get key = v := by
  simp [Json.set, Json.get, Json.members, lookup_assign_self]

theorem get_set_other (j : Json) (key other : String) (v : Json) (h : other ≠ key) :
    (j.set key v).get other = j.get other := by
  simp [Json.set, Json.get, Json.members, lookup_assign_other key other v _ h]

theorem isMember_set_self (j : Json) (key : String) (v : Json) :
    (j.set key v).isMember key = true := by
  simp [Json.set, Json.isMember, Json.members, lookup_assign_self]

theorem isMember_set_other (j : Json) (key other : String) (v : Json) (h : other ≠ key) :
    (j.set key v).isMember other = j.isMember other := by
  simp [Json.set, Json.isMember, Json.members, lookup_assign_other key other v _ h]

theorem isMember_null (key : String) : Json.null.isMember key = false := rfl

theorem mapFind_mapAssign_self {α β : Type} [DecidableEq α] [LT α]
    [DecidableRel (fun (a b : α) => a < b)] (key : α) (v : β) (m : List (α × β)) :
    mapFind key (mapAssign key v m) = some v := by
  induction m with
  | nil => simp [mapAssign, mapFind]
  | cons e m ih =>
    obtain ⟨k, w⟩ := e
    unfold mapAssign
    split_ifs with h1 h2
    · simp [mapFind]
    · simp [mapFind]
    · simp [mapFind, h1, ih]

theorem mapFind_mapAssign_other {α β : Type} [DecidableEq α] [LT α]
    [DecidableRel (fun (a b : α) => a < b)] (key other : α) (v : β) (m : List (α × β))
    (h : other ≠ key) : mapFind other (mapAssign key v m) = mapFind other m := by
  induction m with
  | nil => simp [mapAssign, mapFind, Ne.symm h]
  | cons e m ih =>
    obtain ⟨k, w⟩ := e
    unfold mapAssign
    split_ifs with h1 h2
    · subst h1
      simp [mapFind, Ne.symm h]
    · simp [mapFind, Ne.symm h]
    · by_cases hk : k = other
      · simp [mapFind, hk]
      · simp [mapFind, hk, ih]

theorem mapFind_mapErase_self {α β : Type} [DecidableEq α] (key : α) (m : List (α × β)) :
    mapFind key (mapErase key m) = none := by
  induction m with
  | nil => rfl
  | cons e m ih =>
    obtain ⟨k, w⟩ := e
    by_cases hk : k = key
    · simpa [mapErase, List.filter_cons, hk] using ih
    · have : mapErase key ((k, w) :: m) = (k, w) :: mapErase key m := by
        simp [mapErase, List.filter_cons, hk]
      rw [this]
      simp [mapFind, hk, ih]

theorem mapFind_mapErase_other {α β : Type} [DecidableEq α] (key other : α) (m : List (α × β))
    (h : other ≠ key) : mapFind other (mapErase key m) = mapFind other m := by
  induction m with
  | nil => rfl
  | cons e m ih =>
    obtain ⟨k, w⟩ := e
    by_cases hk : k = key
    · have : mapErase key ((k, w) :: m) = mapErase key m := by
        simp [mapErase, List.filter_cons, hk]
      rw [this, ih]
      have hne : k ≠ other := by rw [hk]; exact Ne.symm h
      simp [mapFind, hne]
    · have : mapErase key ((k, w) :: m) = (k, w) :: mapErase key m := by
        simp [mapErase, List.filter_cons, hk]
      rw [this]
      by_cases hko : k = other
      · simp [mapFind, hko]
      · simp [mapFind, hko, ih]


/-! ## What the sends and the read loop leave alone -/

theorem sends_append {κ : Type} (a b : List (Event κ)) : sends (a ++ b) = sends a ++ sends b := by
  induction a with
  | nil => rfl
  | cons e a ih => cases e <;> simp [sends, ih]

theorem sendLoop_spec {κ : Type} (sendOk : Socket → Bool) (message : List Char)
    (socket : Option Socket) :
    ∀ (n : Nat) (l : List Socket) (s : JsonRpcServer κ), l.length ≤ n →
      (sendLoop sendOk message socket l s).1._currentId = s._currentId ∧
      (sendLoop sendOk message socket l s).1._currentRequests = s._currentRequests ∧
      (sendLoop sendOk message socket l s).1._callbacks = s._callbacks ∧
      ∀ e ∈ (sendLoop sendOk message socket l s).2,
        (∃ x, e = Event.send x message) ∨ e = Event.undefined := by
  intro n
  induction n with
  | zero =>
    intro l s hl
    have : l = [] := List.length_eq_zero.mp (by omega)
    subst this
    simp [sendLoop]
  | succ n ih =>
    intro l s hl
    cases l with
    | nil => simp [sendLoop]
    | cons x rest =>
      simp only [List.length_cons] at hl
      unfold sendLoop
      split_ifs with h1 h2
      · exact ih rest s (by omega)
      · cases rest with
        | nil =>
          refine ⟨rfl, rfl, rfl, ?_⟩
          intro e he
          simp only [List.mem_cons, List.mem_singleton, List.not_mem_nil, or_false] at he
          rcases he with he | he
          · exact Or.inl ⟨x, he⟩
          · exact Or.inr he
        | cons y rest2 =>
          simp only [List.length_cons] at hl
          obtain ⟨a, b, c, d⟩ := ih rest2
            { s with _currentMsgs := mapErase x s._currentMsgs,
                     _connectedSockets := s._connectedSockets.erase x } (by omega)
          refine ⟨a, b, c, ?_⟩
          intro e he
          simp only [List.mem_cons] at he
          rcases he with he | he
          · exact Or.inl ⟨x, he⟩
          · exact d e he
      · obtain ⟨a, b, c, d⟩ := ih rest s (by omega)
        refine ⟨a, b, c, ?_⟩
        intro e he
        simp only [List.mem_cons] at he
        rcases he with he | he
        · exact Or.inl ⟨x, he⟩
        · exact d e he

theorem sendLoop_sends_state {κ : Type} (sendOk : Socket → Bool) (message : List Char)
    (socket : Option Socket) :
    ∀ (n : Nat) (l : List Socket) (s t : JsonRpcServer κ), l.length ≤ n →
      sends (sendLoop sendOk message socket l s).2 =
        sends (sendLoop sendOk message socket l t).2 := by
  intro n
  induction n with
  | zero =>
    intro l s t hl
    have : l = [] := List.length_eq_zero.mp (by omega)
    subst this
    simp [sendLoop]
  | succ n ih =>
    intro l s t hl
    cases l with
    | nil => simp [sendLoop]
    | cons x rest =>
      simp only [List.length_cons] at hl
      unfold sendLoop
      split_ifs with h1 h2
      · exact ih rest s t (by omega)
      · cases rest with
        | nil => simp [sends]
        | cons y rest2 =>
          simp only [List.length_cons] at hl
          simp only [sends]
          exact congrArg _ (ih rest2 _ _ (by omega))
      · simp only [sends]
        exact congrArg _ (ih rest s t (by omega))

theorem sendJson_spec {κ : Type} (sendOk : Socket → Bool) (s : JsonRpcServer κ)
    (message : List Char) (socket : Option Socket) :
    (_sendJson sendOk s message socket).2.1._currentId = s._currentId ∧
    (_sendJson sendOk s message socket).2.1._currentRequests = s._currentRequests ∧
    (_sendJson sendOk s message socket).2.1._callbacks = s._callbacks ∧
    ∀ e ∈ (_sendJson sendOk s message socket).2.2,
      (∃ x, e = Event.send x message) ∨ e = Event.undefined := by
  unfold _sendJson
  split_ifs
  · simp
  · exact sendLoop_spec sendOk message socket _ _ s le_rfl

theorem processJsonMessage_currentId {κ : Type} (writer : Writer) (s : JsonRpcServer κ)
    (json : Json) (socket : Socket) :
    (_processJsonMessage writer s json socket).1._currentId = s._currentId := by
  unfold _processJsonMessage
  split_ifs <;> try rfl
  all_goals (cases mapFind (json.get "id").asInt s._currentRequests <;> rfl)

theorem readLoop_preserves {σ : Type} (reader : Reader) (process : σ → Json → σ)
    (P : σ → Prop) (hproc : ∀ st j, P st → P (process st j)) :
    ∀ (fuel : Nat) (st : σ) (buf : List Char) (r : σ × List Char),
      readLoop reader process fuel st buf = some r → P st → P r.1 := by
  intro fuel
  induction fuel with
  | zero => intro st buf r h; simp [readLoop] at h
  | succ fuel ih =>
    intro st buf r h hP
    rw [readLoop_succ] at h
    split_ifs at h
    · simp only [Option.some.injEq] at h; rw [← h]; exact hP
    · simp only [Option.some.injEq] at h; rw [← h]; exact hP
    · exact ih _ _ r h (hproc _ _ hP)

theorem runLoop_preserves {σ : Type} (reader : Reader) (process : σ → Json → σ)
    (P : σ → Prop) (hproc : ∀ st j, P st → P (process st j)) (st : σ) (buf : List Char)
    (hP : P st) : P (runLoop reader process st buf).1 :=
  readLoop_preserves reader process P hproc _ st buf _
    (readLoop_enough_fuel reader process st buf) hP

theorem onRead_currentId {κ : Type} (reader : Reader) (writer : Writer) (s : JsonRpcServer κ)
    (socket : Socket) (data : List Char) :
    (_onRead reader writer s socket data).1._currentId = s._currentId := by
  unfold _onRead
  split_ifs
  · simp only [onReadBuffer]
    exact runLoop_preserves reader
      (fun (st : JsonRpcServer κ × List (Event κ)) json =>
        ((_processJsonMessage writer st.1 json socket).1,
         st.2 ++ (_processJsonMessage writer st.1 json socket).2))
      (fun st => st.1._currentId = s._currentId)
      (fun st j h => by
        show (_processJsonMessage writer st.1 j socket).1._currentId = s._currentId
        rw [processJsonMessage_currentId]; exact h) (s, []) _ rfl
  · rfl

theorem sendRequest_rejected {κ : Type} (writer : Writer) (sendOk : Socket → Bool)
    (s : JsonRpcServer κ) (method : String) (params : Json) (socket : Option Socket)
    (resultCb : Option κ) (h : params.isArray = false ∨ method = "") :
    (sendRequest writer sendOk s method params socket resultCb).1 = s := by
  unfold sendRequest
  rcases h with h | h
  · simp [h]
  · by_cases ha : params.isArray = true
    · simp [ha, h]
    · simp [ha]

theorem requestFrame_some (method : String) (params : Json) (i : Int) :
    requestFrame method params (some i) =
      (((Json.null.set "jsonrpc" (Json.str "2.0")).set "method" (Json.str method)).set
        "params" params).set "id" (Json.int i) := rfl

theorem requestFrame_none (method : String) (params : Json) :
    requestFrame method params none =
      ((Json.null.set "jsonrpc" (Json.str "2.0")).set "method" (Json.str method)).set
        "params" params := rfl

/-- An accepted call with a continuation: the frame carries the counter as `id`, the
continuation is registered under it, the counter moves on by one as an `int`
does; the events are sends of that frame, the call of the continuation with
`send failed` when there is no client, and nothing else while the behaviour is
defined. -/
theorem sendRequest_accepted {κ : Type} (writer : Writer) (sendOk : Socket → Bool)
    (s : JsonRpcServer κ) (method : String) (params : Json) (socket : Option Socket)
    (cb : κ) (ha : params.isArray = true) (hm : method ≠ "") :
    (sendRequest writer sendOk s method params socket (some cb)).1._currentId =
      wrapInt32 (s._currentId + 1) ∧
    (sendRequest writer sendOk s method params socket (some cb)).1._currentRequests =
      mapAssign s._currentId cb s._currentRequests ∧
    (∀ sock msg, Event.send sock msg ∈
        (sendRequest writer sendOk s method params socket (some cb)).2 →
      msg = writer (requestFrame method params (some s._currentId))) ∧
    (∀ e ∈ (sendRequest writer sendOk s method params socket (some cb)).2,
      (∃ sock, e = Event.send sock (writer (requestFrame method params (some s._currentId)))) ∨
      e = Event.invoke cb Json.null (Json.str "send failed") ∨ e = Event.undefined) ∧
    sends (sendRequest writer sendOk s method params socket (some cb)).2 =
      sends (_sendJson sendOk s (writer (requestFrame method params (some s._currentId)))
        socket).2.2 := by
  have hs := sendJson_spec sendOk
    { s with _currentRequests := mapAssign s._currentId cb s._currentRequests,
             _currentId := wrapInt32 (s._currentId + 1) }
    (writer (requestFrame method params (some s._currentId))) socket
  obtain ⟨h1, h2, _, h4⟩ := hs
  have hall : ∀ e ∈ (sendRequest writer sendOk s method params socket (some cb)).2,
      (∃ sock, e = Event.send sock (writer (requestFrame method params (some s._currentId)))) ∨
      e = Event.invoke cb Json.null (Json.str "send failed") ∨ e = Event.undefined := by
    unfold sendRequest
    simp only [ha, hm, Bool.not_true, Bool.false_eq_true, if_false]
    rw [← requestFrame_some]
    split_ifs with hsent
    · intro e hmem
      simp only [List.mem_append, failWith, List.mem_singleton] at hmem
      rcases hmem with hmem | hmem
      · rcases h4 _ hmem with h | h
        · exact Or.inl h
        · exact Or.inr (Or.inr h)
      · exact Or.inr (Or.inl hmem)
    · intro e hmem
      rcases h4 _ hmem with h | h
      · exact Or.inl h
      · exact Or.inr (Or.inr h)
  have hsends : sends (sendRequest writer sendOk s method params socket (some cb)).2 =
      sends (_sendJson sendOk s (writer (requestFrame method params (some s._currentId)))
        socket).2.2 := by
    have hsame : ∀ (t : JsonRpcServer κ), t._connectedSockets = s._connectedSockets →
        sends (_sendJson sendOk t (writer (requestFrame method params (some s._currentId)))
          socket).2.2 =
        sends (_sendJson sendOk s (writer (requestFrame method params (some s._currentId)))
          socket).2.2 := by
      intro t ht
      unfold _sendJson
      rw [ht]
      split_ifs
      · rfl
      · exact sendLoop_sends_state sendOk _ socket _ _ t s le_rfl
    unfold sendRequest
    simp only [ha, hm, Bool.not_true, Bool.false_eq_true, if_false]
    rw [← requestFrame_some]
    split_ifs with hsent
    · rw [sends_append]
      simp only [failWith, sends, List.append_nil]
      exact hsame _ rfl
    · exact hsame _ rfl
  refine ⟨?_, ?_, ?_, hall, hsends⟩
  · unfold sendRequest
    simp only [ha, hm, Bool.not_true, Bool.false_eq_true, if_false]
    rw [← requestFrame_some]
    split_ifs <;> exact h1
  · unfold sendRequest
    simp only [ha, hm, Bool.not_true, Bool.false_eq_true, if_false]
    rw [← requestFrame_some]
    split_ifs <;> exact h2
  · intro sock msg hmem
    rcases hall _ hmem with ⟨x, hx⟩ | hx | hx
    · simp only [Event.send.injEq] at hx
      exact hx.2
    · exact Event.noConfusion hx
    · exact Event.noConfusion hx

theorem sendRequest_notification_state {κ : Type} (writer : Writer) (sendOk : Socket → Bool)
    (s : JsonRpcServer κ) (method : String) (params : Json) (socket : Option Socket) :
    (sendRequest writer sendOk s method params socket none).1._currentId = s._currentId ∧
    (sendRequest writer sendOk s method params socket none).1._currentRequests =
      s._currentRequests := by
  by_cases ha : params.isArray = true
  · by_cases hm : method = ""
    · rw [sendRequest_rejected writer sendOk s method params socket none (Or.inr hm)]
      exact ⟨rfl, rfl⟩
    · obtain ⟨h1, h2, _, _⟩ := sendJson_spec sendOk s
        (writer (requestFrame method params none)) socket
      unfold sendRequest
      simp only [ha, hm, Bool.not_true, Bool.false_eq_true, if_false]
      rw [← requestFrame_none]
      split_ifs <;> exact ⟨h1, h2⟩
  · rw [sendRequest_rejected writer sendOk s method params socket none
      (Or.inl (by simpa using ha))]
    exact ⟨rfl, rfl⟩

theorem wrapInt32_id (x : Int) (h1 : -2147483648 ≤ x) (h2 : x ≤ 2147483647) :
    wrapInt32 x = x := by
  unfold wrapInt32
  omega

theorem wrapInt32_range (x : Int) : -2147483648 ≤ wrapInt32 x ∧ wrapInt32 x ≤ 2147483647 := by
  unfold wrapInt32
  omega

theorem wrapInt32_add (x y : Int) : wrapInt32 (wrapInt32 x + y) = wrapInt32 (x + y) := by
  unfold wrapInt32
  omega

theorem step_currentId {κ : Type} (reader : Reader) (writer : Writer) (s : JsonRpcServer κ)
    (op : Op κ) :
    (step reader writer s op).1._currentId =
      if accepted op = true then wrapInt32 (s._currentId + 1) else s._currentId := by
  cases op with
  | request method params socket resultCb sendOk =>
    cases resultCb with
    | none =>
      simp only [step, accepted]
      rw [(sendRequest_notification_state writer sendOk s method params socket).1]
      simp
    | some cb =>
      by_cases ha : params.isArray = true
      · by_cases hm : method = ""
        · simp only [step, accepted]
          rw [sendRequest_rejected writer sendOk s method params socket _ (Or.inr hm)]
          simp [hm]
        · simp only [step, accepted]
          rw [(sendRequest_accepted writer sendOk s method params socket cb ha hm).1]
          simp [ha, hm]
      · simp only [step, accepted]
        rw [sendRequest_rejected writer sendOk s method params socket _
          (Or.inl (by simpa using ha))]
        simp [ha]
  | read socket data => simp [step, accepted, onRead_currentId]
  | newClient socket => simp [step, accepted, _onNewClient]
  | clientDisconnect socket => simp [step, accepted, _onClientDisconnect]
  | setCallback method cb => simp [step, accepted, setRpcCallback]

/-- Over a run the counter moves on by the number of accepted calls that carry a
continuation, as an `int` does. -/
theorem run_currentId {κ : Type} (reader : Reader) (writer : Writer) :
    ∀ (ops : List (Op κ)) (s : JsonRpcServer κ),
      -2147483648 ≤ s._currentId → s._currentId ≤ 2147483647 →
      (run reader writer s ops).1._currentId =
        wrapInt32 (s._currentId + ((ops.filter (fun op => accepted op)).length : Int)) := by
  intro ops
  induction ops with
  | nil =>
    intro s h1 h2
    simp only [run, List.filter_nil, List.length_nil, Nat.cast_zero, add_zero]
    exact (wrapInt32_id _ h1 h2).symm
  | cons op ops ih =>
    intro s h1 h2
    simp only [run]
    have hstep := step_currentId reader writer s op
    by_cases h : accepted op = true
    · rw [if_pos h] at hstep
      have hr := wrapInt32_range (s._currentId + 1)
      rw [ih _ (by rw [hstep]; exact hr.1) (by rw [hstep]; exact hr.2), hstep, wrapInt32_add]
      simp only [List.filter_cons, h, if_true, List.length_cons]
      congr 1
      push_cast
      omega
    · rw [if_neg h] at hstep
      rw [ih _ (by rw [hstep]; exact h1) (by rw [hstep]; exact h2), hstep]
      simp [List.filter_cons, h]

/-! ## The RPC layer -/

theorem run_append {κ : Type} (reader : Reader) (writer : Writer) :
    ∀ (pre post : List (Op κ)) (s : JsonRpcServer κ),
      run reader writer s (pre ++ post) =
        ((run reader writer (run reader writer s pre).1 post).1,
         (run reader writer s pre).2 ++ (run reader writer (run reader writer s pre).1 post).2) := by
  intro pre
  induction pre with
  | nil => intro post s; simp [run]
  | cons op pre ih =>
    intro post s
    show run reader writer s (op :: (pre ++ post)) = _
    rw [run, ih]
    simp [run]


/-- C8. Request/response correlation: on a message without `method` that has
`result` or `error` and whose `id` is the integer `i`, registered in the pending
table for the continuation `cont`, `_processJsonMessage` invokes `cont`, once and
nothing else, with the result (or null) and the error (or null); afterwards `i` is
no longer in the table and every other entry is as before. -/
theorem response_correlation {κ : Type} (writer : Writer) (s : JsonRpcServer κ) (json : Json)
    (socket : Socket) (i : Int) (cont : κ)
    (hmethod : json.isMember "method" = false)
    (hresp : json.isMember "result" = true ∨ json.isMember "error" = true)
    (hid : json.get "id" = Json.int i)
    (hpending : mapFind i s._currentRequests = some cont) :
    _processJsonMessage writer s json socket =
      ({ s with _currentRequests := mapErase i s._currentRequests },
       [Event.invoke cont
          (if json.isMember "result" then json.get "result" else Json.null)
          (if json.isMember "error" then json.get "error" else Json.null)]) ∧
    mapFind i (mapErase i s._currentRequests) = none ∧
    (∀ j, j ≠ i → mapFind j (mapErase i s._currentRequests) = mapFind j s._currentRequests) := by
  refine ⟨?_, mapFind_mapErase_self i _, fun j hj => mapFind_mapErase_other i j _ hj⟩
  have hmem : json.isMember "id" = true := by
    unfold Json.get at hid
    unfold Json.isMember
    cases h : Json.lookup "id" json.members with
    | none => rw [h] at hid; simp at hid
    | some v => rfl
  have hor : (json.isMember "error" || json.isMember "result") = true := by
    rcases hresp with h | h <;> simp [h]
  unfold _processJsonMessage
  simp only [hmethod, Bool.false_eq_true, if_false, hor, if_true, hmem, hid, Json.isInt,
    Json.asInt, hpending]


/-- C9. Validation is atomic: when `params` is not an array or `method` is empty,
`sendRequest` leaves the server as it was (counter, pending table, clients) and
sends nothing; its only effect is one synchronous call of the continuation, when
there is one, with a null result and a non-null error. -/
theorem validation_atomic {κ : Type} (writer : Writer) (sendOk : Socket → Bool)
    (s : JsonRpcServer κ) (method : String) (params : Json) (socket : Option Socket)
    (resultCb : Option κ) (h : params.isArray = false ∨ method = "") :
    ∃ error : Json, error.isNull = false ∧
      sendRequest writer sendOk s method params socket resultCb =
        (s, match resultCb with
            | some cb => [Event.invoke cb Json.null error]
            | none => []) := by
  by_cases ha : params.isArray = true
  · have hm : method = "" := by
      rcases h with h | h
      · rw [ha] at h; simp at h
      · exact h
    refine ⟨Json.str "method MUST not be empty", rfl, ?_⟩
    unfold sendRequest
    simp only [ha, hm, Bool.not_true, Bool.false_eq_true, if_false, if_true, failWith]
  · refine ⟨Json.str "paramsArray MUST be an array", rfl, ?_⟩
    unfold sendRequest
    simp only [ha, Bool.not_false, Bool.not_eq_true, if_true, failWith]



theorem processRequest_sends {κ : Type} (s : JsonRpcServer κ) (request : Json) (socket : Socket) :
    sends (_processRequest s request socket).2 = [] := by
  unfold _processRequest
  simp only
  split_ifs <;> try rfl
  all_goals (cases mapFind (request.get "method").asString s._callbacks <;> rfl)

/-- The response of `_processRequest`: `jsonrpc` is `"2.0"`, `id` is the request's
when it has one, and exactly one of `result` and `error` is a member. -/
theorem processRequest_response {κ : Type} (s : JsonRpcServer κ) (request : Json)
    (socket : Socket) :
    (_processRequest s request socket).1.get "jsonrpc" = Json.str "2.0" ∧
    (request.isMember "id" = true →
      (_processRequest s request socket).1.get "id" = request.get "id") ∧
    (((_processRequest s request socket).1.isMember "result" = true ∧
      (_processRequest s request socket).1.isMember "error" = false) ∨
     ((_processRequest s request socket).1.isMember "result" = false ∧
      (_processRequest s request socket).1.isMember "error" = true)) := by
  have e1 : ("jsonrpc" : String) ≠ "id" := by decide
  have e2 : ("jsonrpc" : String) ≠ "error" := by decide
  have e3 : ("jsonrpc" : String) ≠ "result" := by decide
  have e4 : ("id" : String) ≠ "error" := by decide
  have e5 : ("id" : String) ≠ "result" := by decide
  have e6 : ("result" : String) ≠ "error" := by decide
  have e7 : ("error" : String) ≠ "result" := by decide
  have e8 : ("result" : String) ≠ "jsonrpc" := by decide
  have e9 : ("error" : String) ≠ "jsonrpc" := by decide
  have e10 : ("result" : String) ≠ "id" := by decide
  have e11 : ("error" : String) ≠ "id" := by decide
  unfold _processRequest
  simp only
  by_cases hid : request.isMember "id" = true <;>
  split_ifs <;>
  simp [get_set_self, get_set_other, isMember_set_self, isMember_set_other, isMember_null,
    e1, e2, e3, e4, e5, e6, e7, e8, e9, e10, e11, hid]

/-- The response of `_processRequest` when a callback is registered for the method:
the callback's result when that is non-null, else the callback's error. -/
theorem processRequest_callback {κ : Type} (s : JsonRpcServer κ) (request : Json)
    (socket : Socket) (method : String) (cb : RpcCallback)
    (hm : request.get "method" = Json.str method) (hmem : request.isMember "method" = true)
    (hcb : mapFind method s._callbacks = some cb) :
    ((cb (if request.isMember "params" && (request.get "params").isArray
            then request.get "params" else Json.arr []) socket).1.isNull = false →
      (_processRequest s request socket).1.get "result" =
        (cb (if request.isMember "params" && (request.get "params").isArray
            then request.get "params" else Json.arr []) socket).1) ∧
    ((cb (if request.isMember "params" && (request.get "params").isArray
            then request.get "params" else Json.arr []) socket).1.isNull = true →
      (_processRequest s request socket).1.get "error" =
        (cb (if request.isMember "params" && (request.get "params").isArray
            then request.get "params" else Json.arr []) socket).2) := by
  unfold _processRequest
  simp only [hmem, hm, Json.isString, Json.asString, hcb, Bool.not_true, Bool.false_eq_true,
    if_false]
  constructor
  · intro h
    simp only [Bool.and_eq_true] at h ⊢
    simp [h, get_set_self]
  · intro h
    simp only [Bool.and_eq_true] at h ⊢
    simp [h, get_set_self]

/-- C10. Response synthesis: for a message with a `method` member arriving from a
connected socket, a response is written exactly when the message has an `id`
member, once and to that socket only; it has `jsonrpc` `"2.0"`, the request's `id`,
and exactly one of `result` (the callback's result when that is non-null) and
`error` (otherwise); the server state is untouched. A read that delivers such a
message whole does exactly this. -/
theorem response_synthesis {κ : Type} (writer : Writer) (s : JsonRpcServer κ) (json : Json)
    (socket : Socket) (hmethod : json.isMember "method" = true)
    (hconn : socket ∈ s._connectedSockets) :
    (_processJsonMessage writer s json socket).1 = s ∧
    (json.isMember "id" = false → sends (_processJsonMessage writer s json socket).2 = []) ∧
    (json.isMember "id" = true →
      sends (_processJsonMessage writer s json socket).2 =
        [(socket, writer (_processRequest s json socket).1)]) ∧
    (_processRequest s json socket).1.get "jsonrpc" = Json.str "2.0" ∧
    (json.isMember "id" = true → (_processRequest s json socket).1.get "id" = json.get "id") ∧
    (((_processRequest s json socket).1.isMember "result" = true ∧
      (_processRequest s json socket).1.isMember "error" = false) ∨
     ((_processRequest s json socket).1.isMember "result" = false ∧
      (_processRequest s json socket).1.isMember "error" = true)) ∧
    (∀ (method : String) (cb : RpcCallback), json.get "method" = Json.str method →
      mapFind method s._callbacks = some cb →
      ((cb (if json.isMember "params" && (json.get "params").isArray
              then json.get "params" else Json.arr []) socket).1.isNull = false →
        (_processRequest s json socket).1.get "result" =
          (cb (if json.isMember "params" && (json.get "params").isArray
              then json.get "params" else Json.arr []) socket).1) ∧
      ((cb (if json.isMember "params" && (json.get "params").isArray
              then json.get "params" else Json.arr []) socket).1.isNull = true →
        (_processRequest s json socket).1.get "error" =
          (cb (if json.isMember "params" && (json.get "params").isArray
              then json.get "params" else Json.arr []) socket).2)) ∧
    (∀ (reader : Reader) (t : List Char), Framed reader t → (reader t).2 = json →
      mapFind socket s._currentMsgs = none →
      (_onRead reader writer s socket t).2 = (_processJsonMessage writer s json socket).2) := by
  obtain ⟨r1, r2, r3⟩ := processRequest_response s json socket
  refine ⟨?_, ?_, ?_, r1, r2, r3, ?_, ?_⟩
  · unfold _processJsonMessage
    simp only [hmethod, if_true, hconn]
    split_ifs <;> rfl
  · intro hid
    unfold _processJsonMessage
    simp only [hmethod, if_true, hid, Bool.false_eq_true, if_false]
    exact processRequest_sends s json socket
  · intro hid
    unfold _processJsonMessage
    simp only [hmethod, if_true, hid, hconn]
    rw [sends_append, processRequest_sends]
    rfl
  · intro method cb hm hcb
    exact processRequest_callback s json socket method cb hm hmethod hcb
  · intro reader t hF hval hbuf
    have h := single_read_round_trip reader
      (fun (st : JsonRpcServer κ × List (Event κ)) j =>
        ((_processJsonMessage writer st.1 j socket).1,
         st.2 ++ (_processJsonMessage writer st.1 j socket).2))
      (s, []) [] [(t, [])] (by intro c hc; simp at hc)
      (by intro it hit; simp at hit; subst hit; exact ⟨hF, by intro c hc; simp at hc⟩)
    simp only [onReads, interleave, List.append_nil, List.nil_append, List.map_cons,
      List.map_nil, List.foldl_cons, List.foldl_nil, hval] at h
    unfold _onRead
    simp only [hconn, if_true, hbuf, Option.getD_none]
    have h1 := congrArg (fun p => p.1.2) h
    simpa using h1


/-! ## The RPC layer at concrete inputs -/

/-- Witness for C8: the response `{"id":3,"result":"ok"}` on the sample server invokes
continuation 100 with `("ok", null)` and empties the pending table. -/
theorem response_correlation_witness :
    _processJsonMessage keyWriter sampleServer sampleResponse 7 =
      ({ sampleServer with _currentRequests := [] },
       [Event.invoke 100 (Json.str "ok") Json.null]) :=
  (response_correlation keyWriter sampleServer sampleResponse 7 3 100 rfl (Or.inl rfl)
    rfl rfl).1

/-- Witness for C9: an empty method name with continuation 5. -/
theorem validation_atomic_witness :
    ∃ error : Json, error.isNull = false ∧
      sendRequest keyWriter (fun _ => true) sampleServer "" (Json.arr []) none (some 5) =
        (sampleServer, [Event.invoke 5 Json.null error]) :=
  validation_atomic keyWriter (fun _ => true) sampleServer "" (Json.arr []) none (some 5)
    (Or.inr rfl)

/-- Witness for C10: the request `{"id":1,"method":"status"}` from client 7 is answered
on socket 7 with the object of members `id`, `jsonrpc`, `result`. -/
theorem response_synthesis_witness :
    sends (_processJsonMessage keyWriter sampleServer sampleRequest 7).2 =
      [(7, keyWriter (Json.obj [("id", Json.int 1), ("jsonrpc", Json.str "2.0"),
        ("result", Json.str "ok")]))] :=
  (response_synthesis keyWriter sampleServer sampleRequest 7 rfl (by decide)).2.2.1 rfl

/-- A run on a fresh server: a client connects, then a request with continuation 10, a
notification, a rejected call with continuation 11, a request with continuation
12. The two accepted requests are written with ids 0 and 1. -/
theorem rpc_id_example :
    sends (run sampleReader keyWriter (JsonRpcServer.fresh Nat)
      [Op.newClient 7,
       Op.request "a" (Json.arr []) none (some 10) (fun _ => true),
       Op.request "b" (Json.arr []) none none (fun _ => true),
       Op.request "" (Json.arr []) none (some 11) (fun _ => true),
       Op.request "c" (Json.arr []) none (some 12) (fun _ => true)]).2 =
      [(7, keyWriter (requestFrame "a" (Json.arr []) (some 0))),
       (7, keyWriter (requestFrame "b" (Json.arr []) none)),
       (7, keyWriter (requestFrame "c" (Json.arr []) (some 1)))] ∧
    keyWriter (requestFrame "a" (Json.arr []) (some 0)) =
      ['i', 'd', ';', 'j', 's', 'o', 'n', 'r', 'p', 'c', ';', 'm', 'e', 't', 'h', 'o', 'd', ';',
       'p', 'a', 'r', 'a', 'm', 's', ';'] :=
  ⟨rfl, rfl⟩


/-! ## Unknown methods; targeted and broadcast sends -/

/-- C11. Unknown method: for a request whose `method` is a string with no registered
callback, `_processRequest` invokes no callback, and the response has no `result`
member and the error string `RPC callback for method '<method>' not found`. -/
theorem unknown_method {κ : Type} (s : JsonRpcServer κ) (request : Json) (socket : Socket)
    (method : String) (hm : request.get "method" = Json.str method)
    (hnone : mapFind method s._callbacks = none) :
    (_processRequest s request socket).2 = [] ∧
    (_processRequest s request socket).1.isMember "result" = false ∧
    (_processRequest s request socket).1.get "error" =
      Json.str ("RPC callback for method '" ++ method ++ "' not found") := by
  have hmem : request.isMember "method" = true := by
    unfold Json.get at hm
    unfold Json.isMember
    cases h : Json.lookup "method" request.members with
    | none => rw [h] at hm; simp at hm
    | some v => rfl
  have e1 : ("result" : String) ≠ "error" := by decide
  have e2 : ("result" : String) ≠ "id" := by decide
  have e3 : ("result" : String) ≠ "jsonrpc" := by decide
  unfold _processRequest
  simp only [hmem, hm, Json.isString, Json.asString, hnone, Bool.not_true, Bool.false_eq_true,
    if_false, Json.isNull, Bool.not_true, get_set_self]
  refine ⟨trivial, ?_, trivial⟩
  split_ifs <;>
  simp [isMember_set_other, isMember_null, e1, e2, e3]

/-- Witness for C11: the method `nope` on the sample server. -/
theorem unknown_method_witness :
    (_processRequest sampleServer unknownRequest 7).1.get "error" =
      Json.str "RPC callback for method 'nope' not found" :=
  (unknown_method sampleServer unknownRequest 7 "nope" rfl rfl).2.2

theorem sendLoop_targeted {κ : Type} (sendOk : Socket → Bool) (message : List Char)
    (x : Socket) :
    ∀ (n : Nat) (l : List Socket) (s : JsonRpcServer κ), l.length ≤ n → l.Nodup →
      sends (sendLoop sendOk message (some x) l s).2 =
        if x ∈ l then [(x, message)] else [] := by
  intro n
  induction n with
  | zero =>
    intro l s hl _
    have : l = [] := List.length_eq_zero.mp (by omega)
    subst this
    simp [sendLoop, sends]
  | succ n ih =>
    intro l s hl hnd
    cases l with
    | nil => simp [sendLoop, sends]
    | cons y rest =>
      simp only [List.length_cons] at hl
      have hy : y ∉ rest := (List.nodup_cons.mp hnd).1
      have hrest : rest.Nodup := (List.nodup_cons.mp hnd).2
      unfold sendLoop
      by_cases hxy : x = y
      · subst hxy
        simp only [Option.isSome_some, bne_self_eq_false, Bool.and_false, Bool.false_eq_true,
          if_false, List.mem_cons, true_or, if_true]
        split_ifs
        · cases rest with
          | nil => simp [sends]
          | cons z rest2 =>
            simp only [List.length_cons] at hl
            have hx2 : x ∉ rest2 := fun h => hy (by simp [h])
            simp only [sends]
            rw [ih rest2 _ (by omega) (List.nodup_cons.mp hrest).2, if_neg hx2]
        · simp only [sends]
          rw [ih rest s (by omega) hrest, if_neg hy]
      · have hne : (some x != some y) = true := by simp [hxy]
        simp only [Option.isSome_some, hne, Bool.and_self, if_true]
        rw [ih rest s (by omega) hrest]
        simp [hxy]

theorem sendLoop_broadcast {κ : Type} (sendOk : Socket → Bool) (message : List Char) :
    ∀ (l : List Socket) (s : JsonRpcServer κ), (∀ y ∈ l, sendOk y = true) →
      sendLoop sendOk message none l s = (s, l.map (fun y => Event.send y message)) := by
  intro l
  induction l with
  | nil => intro s _; simp [sendLoop]
  | cons y rest ih =>
    intro s h
    have hy : sendOk y = true := h y (by simp)
    unfold sendLoop
    simp only [Option.isSome_none, Bool.false_and, Bool.false_eq_true, if_false, hy,
      Bool.not_true]
    rw [ih s (fun z hz => h z (by simp [hz]))]
    simp

theorem sends_map_send {κ : Type} (l : List Socket) (message : List Char) :
    sends (l.map (fun y => (Event.send y message : Event κ))) = l.map (fun y => (y, message)) := by
  induction l with
  | nil => rfl
  | cons y l ih => simp [sends, ih]

/-- The sends of `_sendJson` where the claim of C12 holds: a target gets the frame
alone, and nobody gets it when the target is not connected; without a target every
connected client gets it, as long as no `Send` fails. -/
theorem sendJson_targets {κ : Type} (sendOk : Socket → Bool) (s : JsonRpcServer κ)
    (message : List Char) (hne : s._connectedSockets ≠ []) (hnd : s._connectedSockets.Nodup) :
    (∀ x : Socket, sends (_sendJson sendOk s message (some x)).2.2 =
      if x ∈ s._connectedSockets then [(x, message)] else []) ∧
    ((∀ y ∈ s._connectedSockets, sendOk y = true) →
      sends (_sendJson sendOk s message none).2.2 =
        s._connectedSockets.map (fun y => (y, message))) := by
  constructor
  · intro x
    unfold _sendJson
    rw [if_neg hne]
    exact sendLoop_targeted sendOk message x _ _ s le_rfl hnd
  · intro hok
    unfold _sendJson
    rw [if_neg hne, sendLoop_broadcast sendOk message _ s hok]
    exact sends_map_send _ _

/-- C12 at a failing input: the clients 1, 2 and 3 are connected and `Send` fails on
client 1. The broadcast erases client 1 and steps over client 2: the frame is
written to 1 and 3 only, and client 2, still connected, gets nothing. -/
theorem broadcast_skips_client :
    sends (sendRequest keyWriter (fun x => decide (x ≠ 1)) threeClients "m" (Json.arr [])
      none none).2 =
      [(1, keyWriter (requestFrame "m" (Json.arr []) none)),
       (3, keyWriter (requestFrame "m" (Json.arr []) none))] ∧
    (sendRequest keyWriter (fun x => decide (x ≠ 1)) threeClients "m" (Json.arr [])
      none none).1._connectedSockets = [2, 3] :=
  ⟨rfl, rfl⟩


/-! ## Lemmas on the game-task queue -/

theorem eventKeys_append (xs ys : List AdapterEvent) :
    IceAdapter.eventKeys (xs ++ ys) = IceAdapter.eventKeys xs ++ IceAdapter.eventKeys ys := by
  induction xs with
  | nil => rfl
  | cons e xs ih =>
    cases e with
    | toGame m =>
      cases h : IceAdapter.messageKey m <;> simp [IceAdapter.eventKeys, h, ih]
    | rpc method params => simp [IceAdapter.eventKeys, ih]

theorem hostGameMaps_append (xs ys : List AdapterEvent) :
    IceAdapter.hostGameMaps (xs ++ ys) =
      IceAdapter.hostGameMaps xs ++ IceAdapter.hostGameMaps ys := by
  induction xs with
  | nil => rfl
  | cons e xs ih =>
    cases e with
    | toGame m => cases m <;> simp [IceAdapter.hostGameMaps, ih]
    | rpc method params => simp [IceAdapter.hostGameMaps, ih]

theorem queuedHostMaps_append (xs ys : List IceAdapterGameTask) :
    IceAdapter.queuedHostMaps (xs ++ ys) =
      IceAdapter.queuedHostMaps xs ++ IceAdapter.queuedHostMaps ys := by
  induction xs with
  | nil => rfl
  | cons t xs ih =>
    by_cases h : t.task = TaskKind.HostGame <;> simp [IceAdapter.queuedHostMaps, h, ih]

/-- The loop of `_tryExecuteGameTasks` takes a first part of the queue, in order: the
task-derived messages are a sublist of the tasks taken, every `HostGame` task taken
is sent, and the rest of the queue stays as it was. -/
theorem executeTasks_spec (a : IceAdapter) :
    ∀ q : List IceAdapterGameTask, ∃ processed : List IceAdapterGameTask,
      q = processed ++ (a.executeTasks q).1 ∧
      List.Sublist (IceAdapter.eventKeys ((a.executeTasks q).2.map AdapterEvent.toGame))
        (processed.map IceAdapter.taskKey) ∧
      IceAdapter.hostGameMaps ((a.executeTasks q).2.map AdapterEvent.toGame) =
        IceAdapter.queuedHostMaps processed := by
  intro q
  induction q with
  | nil => exact ⟨[], rfl, by simp [IceAdapter.executeTasks, IceAdapter.eventKeys],
      by simp [IceAdapter.executeTasks, IceAdapter.hostGameMaps, IceAdapter.queuedHostMaps]⟩
  | cons t rest ih =>
    obtain ⟨p, hp, hsub, hmaps⟩ := ih
    cases hk : t.task with
    | HostGame =>
      by_cases hl : a._gpgnetGameState = "Lobby"
      · refine ⟨t :: p, ?_, ?_, ?_⟩
        · simp only [IceAdapter.executeTasks, hk, hl, ne_eq, not_true_eq_false, if_false,
            List.cons_append]
          rw [← hp]
        · simp only [IceAdapter.executeTasks, hk, hl, ne_eq, not_true_eq_false, if_false,
            List.map_cons, IceAdapter.eventKeys, IceAdapter.messageKey, IceAdapter.taskKey]
          exact List.Sublist.cons₂ _ hsub
        · simp only [IceAdapter.executeTasks, hk, hl, ne_eq, not_true_eq_false, if_false,
            List.map_cons, IceAdapter.hostGameMaps, IceAdapter.queuedHostMaps, if_true, hmaps]
      · refine ⟨[], ?_, ?_, ?_⟩ <;>
          simp [IceAdapter.executeTasks, hk, hl, IceAdapter.eventKeys, IceAdapter.hostGameMaps,
            IceAdapter.queuedHostMaps]
    | JoinGame =>
      by_cases hl : a._gpgnetGameState = "Lobby"
      · refine ⟨t :: p, ?_, ?_, ?_⟩
        · cases hr : mapFind t.remoteId a._relays <;>
            simp only [IceAdapter.executeTasks, hk, hl, hr, ne_eq, not_true_eq_false, if_false,
              List.cons_append] <;> rw [← hp]
        · cases hr : mapFind t.remoteId a._relays
          · simp only [IceAdapter.executeTasks, hk, hl, hr, ne_eq, not_true_eq_false, if_false,
              List.map_cons]
            exact List.Sublist.cons _ hsub
          · simp only [IceAdapter.executeTasks, hk, hl, hr, ne_eq, not_true_eq_false, if_false,
              List.map_cons, IceAdapter.eventKeys, IceAdapter.messageKey, IceAdapter.taskKey]
            exact List.Sublist.cons₂ _ hsub
        · cases hr : mapFind t.remoteId a._relays <;>
            simp [IceAdapter.executeTasks, hk, hl, hr, IceAdapter.hostGameMaps,
              IceAdapter.queuedHostMaps, hmaps]
      · refine ⟨[], ?_, ?_, ?_⟩ <;>
          simp [IceAdapter.executeTasks, hk, hl, IceAdapter.eventKeys, IceAdapter.hostGameMaps,
            IceAdapter.queuedHostMaps]
    | ConnectToPeer =>
      by_cases hl : a._gpgnetGameState = "Lobby"
      · refine ⟨t :: p, ?_, ?_, ?_⟩
        · cases hr : mapFind t.remoteId a._relays <;>
            simp only [IceAdapter.executeTasks, hk, hl, hr, ne_eq, not_true_eq_false, if_false,
              List.cons_append] <;> rw [← hp]
        · cases hr : mapFind t.remoteId a._relays
          · simp only [IceAdapter.executeTasks, hk, hl, hr, ne_eq, not_true_eq_false, if_false,
              List.map_cons]
            exact List.Sublist.cons _ hsub
          · simp only [IceAdapter.executeTasks, hk, hl, hr, ne_eq, not_true_eq_false, if_false,
              List.map_cons, IceAdapter.eventKeys, IceAdapter.messageKey, IceAdapter.taskKey]
            exact List.Sublist.cons₂ _ hsub
        · cases hr : mapFind t.remoteId a._relays <;>
            simp [IceAdapter.executeTasks, hk, hl, hr, IceAdapter.hostGameMaps,
              IceAdapter.queuedHostMaps, hmaps]
      · refine ⟨[], ?_, ?_, ?_⟩ <;>
          simp [IceAdapter.executeTasks, hk, hl, IceAdapter.eventKeys, IceAdapter.hostGameMaps,
            IceAdapter.queuedHostMaps]
    | DisconnectFromPeer =>
      refine ⟨t :: p, ?_, ?_, ?_⟩
      · simp only [IceAdapter.executeTasks, hk, List.cons_append]
        rw [← hp]
      · simp only [IceAdapter.executeTasks, hk, List.map_cons, IceAdapter.eventKeys,
          IceAdapter.messageKey, IceAdapter.taskKey]
        exact List.Sublist.cons₂ _ hsub
      · simp [IceAdapter.executeTasks, hk, IceAdapter.hostGameMaps, IceAdapter.queuedHostMaps,
          hmaps]


theorem executeTasks_lobby (a : IceAdapter) (hl : a._gpgnetGameState = "Lobby") :
    ∀ q : List IceAdapterGameTask, (a.executeTasks q).1 = [] := by
  intro q
  induction q with
  | nil => rfl
  | cons t rest ih =>
    cases hk : t.task
    · cases hr : mapFind t.remoteId a._relays <;> simp [IceAdapter.executeTasks, hk, hl, hr, ih]
    · simp [IceAdapter.executeTasks, hk, hl, ih]
    · cases hr : mapFind t.remoteId a._relays <;> simp [IceAdapter.executeTasks, hk, hl, hr, ih]
    · simp [IceAdapter.executeTasks, hk, ih]

theorem executeTasks_disconnects (a : IceAdapter) :
    ∀ q : List IceAdapterGameTask, (∀ t ∈ q, t.task = TaskKind.DisconnectFromPeer) →
      (a.executeTasks q).1 = [] := by
  intro q
  induction q with
  | nil => intro _; rfl
  | cons t rest ih =>
    intro h
    have hk : t.task = TaskKind.DisconnectFromPeer := h t (by simp)
    simp [IceAdapter.executeTasks, hk, ih (fun u hu => h u (by simp [hu]))]

theorem executeTasks_append (a : IceAdapter) (q2 : List IceAdapterGameTask) :
    ∀ q : List IceAdapterGameTask, (a.executeTasks q).1 = [] →
      a.executeTasks (q ++ q2) =
        ((a.executeTasks q2).1, (a.executeTasks q).2 ++ (a.executeTasks q2).2) := by
  intro q
  induction q with
  | nil => intro _; simp [IceAdapter.executeTasks]
  | cons t rest ih =>
    intro h
    cases hk : t.task
    · by_cases hl : a._gpgnetGameState = "Lobby"
      · cases hr : mapFind t.remoteId a._relays
        · simp only [IceAdapter.executeTasks, hk, hl, hr, ne_eq, not_true_eq_false, if_false]
            at h ⊢
          simpa [IceAdapter.executeTasks, hk, hl, hr] using ih h
        · simp only [IceAdapter.executeTasks, hk, hl, hr, ne_eq, not_true_eq_false, if_false]
            at h ⊢
          simp [IceAdapter.executeTasks, hk, hl, hr, ih h]
      · simp [IceAdapter.executeTasks, hk, hl] at h
    · by_cases hl : a._gpgnetGameState = "Lobby"
      · simp only [IceAdapter.executeTasks, hk, hl, ne_eq, not_true_eq_false, if_false] at h ⊢
        simp [IceAdapter.executeTasks, hk, hl, ih h]
      · simp [IceAdapter.executeTasks, hk, hl] at h
    · by_cases hl : a._gpgnetGameState = "Lobby"
      · cases hr : mapFind t.remoteId a._relays
        · simp only [IceAdapter.executeTasks, hk, hl, hr, ne_eq, not_true_eq_false, if_false]
            at h ⊢
          simpa [IceAdapter.executeTasks, hk, hl, hr] using ih h
        · simp only [IceAdapter.executeTasks, hk, hl, hr, ne_eq, not_true_eq_false, if_false]
            at h ⊢
          simp [IceAdapter.executeTasks, hk, hl, hr, ih h]
      · simp [IceAdapter.executeTasks, hk, hl] at h
    · simp only [IceAdapter.executeTasks, hk] at h ⊢
      simp [IceAdapter.executeTasks, hk, ih h]

theorem executeTasks_not_lobby (a : IceAdapter) (hl : a._gpgnetGameState ≠ "Lobby") :
    ∀ q : List IceAdapterGameTask,
      IceAdapter.hostGameMaps ((a.executeTasks q).2.map AdapterEvent.toGame) = [] := by
  intro q
  induction q with
  | nil => rfl
  | cons t rest ih =>
    cases hk : t.task <;>
      simp [IceAdapter.executeTasks, hk, hl, IceAdapter.hostGameMaps, ih]

theorem executeTasks_keys (a : IceAdapter) :
    ∀ (q : List IceAdapterGameTask) (m : GameMessage), m ∈ (a.executeTasks q).2 →
      (IceAdapter.messageKey m).isSome = true := by
  intro q
  induction q with
  | nil => intro m hm; simp [IceAdapter.executeTasks] at hm
  | cons t rest ih =>
    intro m hm
    cases hk : t.task
    · by_cases hl : a._gpgnetGameState = "Lobby"
      · cases hr : mapFind t.remoteId a._relays
        · simp only [IceAdapter.executeTasks, hk, hl, hr, ne_eq, not_true_eq_false, if_false]
            at hm
          exact ih m hm
        · simp only [IceAdapter.executeTasks, hk, hl, hr, ne_eq, not_true_eq_false, if_false,
            List.mem_cons] at hm
          rcases hm with h | h
          · rw [h]; rfl
          · exact ih m h
      · simp [IceAdapter.executeTasks, hk, hl] at hm
    · by_cases hl : a._gpgnetGameState = "Lobby"
      · simp only [IceAdapter.executeTasks, hk, hl, ne_eq, not_true_eq_false, if_false,
          List.mem_cons] at hm
        rcases hm with h | h
        · rw [h]; rfl
        · exact ih m h
      · simp [IceAdapter.executeTasks, hk, hl] at hm
    · by_cases hl : a._gpgnetGameState = "Lobby"
      · cases hr : mapFind t.remoteId a._relays
        · simp only [IceAdapter.executeTasks, hk, hl, hr, ne_eq, not_true_eq_false, if_false]
            at hm
          exact ih m hm
        · simp only [IceAdapter.executeTasks, hk, hl, hr, ne_eq, not_true_eq_false, if_false,
            List.mem_cons] at hm
          rcases hm with h | h
          · rw [h]; rfl
          · exact ih m h
      · simp [IceAdapter.executeTasks, hk, hl] at hm
    · simp only [IceAdapter.executeTasks, hk, List.mem_cons] at hm
      rcases hm with h | h
      · rw [h]; rfl
      · exact ih m h

/-- What `_tryExecuteGameTasks` changes: the queue loses a first part, nothing else
moves; the task-derived messages are a sublist of the part taken, and every
`HostGame` task taken is sent. -/
theorem tryExecute_spec (a : IceAdapter) :
    (∃ processed : List IceAdapterGameTask,
      a._gameTasks = processed ++ a._tryExecuteGameTasks.1._gameTasks ∧
      List.Sublist (IceAdapter.eventKeys a._tryExecuteGameTasks.2)
        (processed.map IceAdapter.taskKey) ∧
      IceAdapter.hostGameMaps a._tryExecuteGameTasks.2 = IceAdapter.queuedHostMaps processed) ∧
    a._tryExecuteGameTasks.1 =
      { a with _gameTasks := a._tryExecuteGameTasks.1._gameTasks } := by
  unfold IceAdapter._tryExecuteGameTasks
  by_cases hc : a.hasConnectedClient = true
  · simp only [hc, Bool.not_true, Bool.false_eq_true, if_false]
    exact ⟨executeTasks_spec a a._gameTasks, trivial⟩
  · have hc2 : a.hasConnectedClient = false := by simpa using hc
    simp only [hc2, Bool.not_false, if_true]
    exact ⟨⟨[], by simp, by simp [IceAdapter.eventKeys],
      by simp [IceAdapter.hostGameMaps, IceAdapter.queuedHostMaps]⟩,
      by cases a; simp_all⟩


theorem queueGameTask_spec (a : IceAdapter) (t : IceAdapterGameTask) :
    ∃ processed : List IceAdapterGameTask,
      a._gameTasks ++ [t] = processed ++ (a._queueGameTask t).1._gameTasks ∧
      List.Sublist (IceAdapter.eventKeys (a._queueGameTask t).2)
        (processed.map IceAdapter.taskKey) ∧
      IceAdapter.hostGameMaps (a._queueGameTask t).2 = IceAdapter.queuedHostMaps processed :=
  (tryExecute_spec { a with _gameTasks := a._gameTasks ++ [t] }).1

/-- One operation: the queue with the tasks the operation adds loses a first part,
in order; the task-derived messages sent are a sublist of that part, and every
`HostGame` task in it is sent. -/
theorem step_spec (a : IceAdapter) (op : IceAdapter.Op) :
    ∃ processed : List IceAdapterGameTask,
      a._gameTasks ++ a.queuedBy op = processed ++ (a.step op).1._gameTasks ∧
      List.Sublist (IceAdapter.eventKeys (a.step op).2) (processed.map IceAdapter.taskKey) ∧
      IceAdapter.hostGameMaps (a.step op).2 = IceAdapter.queuedHostMaps processed := by
  have idle : ∀ (b : IceAdapter) (evs : List AdapterEvent), b._gameTasks = a._gameTasks →
      a.queuedBy op = [] → IceAdapter.eventKeys evs = [] → IceAdapter.hostGameMaps evs = [] →
      (a.step op) = (b, evs) →
      ∃ processed : List IceAdapterGameTask,
        a._gameTasks ++ a.queuedBy op = processed ++ (a.step op).1._gameTasks ∧
        List.Sublist (IceAdapter.eventKeys (a.step op).2) (processed.map IceAdapter.taskKey) ∧
        IceAdapter.hostGameMaps (a.step op).2 = IceAdapter.queuedHostMaps processed := by
    intro b evs hb hq hk hh he
    refine ⟨[], ?_, ?_, ?_⟩
    · rw [he, hq]; simp [hb]
    · rw [he]; simp [hk]
    · rw [he]; simp [hh, IceAdapter.queuedHostMaps]
  cases op with
  | hostGame map =>
    obtain ⟨p, h1, h2, h3⟩ := queueGameTask_spec a
      { task := TaskKind.HostGame, hostMap := map, remoteLogin := "", remoteId := 0 }
    exact ⟨p, h1, h2, h3⟩
  | joinGame login id port =>
    obtain ⟨p, h1, h2, h3⟩ := queueGameTask_spec (a._createPeerRelay id login false port)
      { task := TaskKind.JoinGame, hostMap := "", remoteLogin := login, remoteId := id }
    exact ⟨p, h1, h2, h3⟩
  | connectToPeer login id offer port =>
    obtain ⟨p, h1, h2, h3⟩ := queueGameTask_spec (a._createPeerRelay id login offer port)
      { task := TaskKind.ConnectToPeer, hostMap := "", remoteLogin := login, remoteId := id }
    exact ⟨p, h1, h2, h3⟩
  | disconnectFromPeer id =>
    cases hr : mapFind id a._relays with
    | none =>
      exact idle a [] rfl (by simp [IceAdapter.queuedBy, hr]) rfl rfl
        (by simp [IceAdapter.step, IceAdapter.disconnectFromPeer, hr])
    | some relay =>
      obtain ⟨p, h1, h2, h3⟩ := queueGameTask_spec
        { a with _relays := mapErase id a._relays }
        { task := TaskKind.DisconnectFromPeer, hostMap := "", remoteLogin := "", remoteId := id }
      refine ⟨p, ?_, ?_, ?_⟩
      · simpa [IceAdapter.step, IceAdapter.disconnectFromPeer, hr, IceAdapter.queuedBy] using h1
      · simpa [IceAdapter.step, IceAdapter.disconnectFromPeer, hr] using h2
      · simpa [IceAdapter.step, IceAdapter.disconnectFromPeer, hr] using h3
  | setLobbyInitMode mode => exact idle (a.setLobbyInitMode mode) [] rfl rfl rfl rfl rfl
  | sendToGpgNet message =>
    by_cases hc : a.hasConnectedClient = true
    · exact idle a [AdapterEvent.toGame (GameMessage.Message message)] rfl rfl rfl rfl
        (by simp [IceAdapter.step, IceAdapter.sendToGpgNet, hc])
    · exact idle a [] rfl rfl rfl rfl
        (by simp [IceAdapter.step, IceAdapter.sendToGpgNet, hc])
  | gameConnected =>
    exact idle { a with hasConnectedClient := true }
      [AdapterEvent.rpc "onConnectionStateChanged" (Json.str "Connected")] rfl rfl rfl rfl rfl
  | gameDisconnected =>
    exact idle (IceAdapter._onGameDisconnected { a with hasConnectedClient := false }).1
      [AdapterEvent.rpc "onConnectionStateChanged" (Json.str "Disconnected")] rfl rfl rfl rfl rfl
  | gpgNetMessage message =>
    by_cases hh : message.header = "GameState"
    · by_cases hl : message.chunks.length = 1
      · obtain ⟨⟨p, h1, h2, h3⟩, _⟩ := tryExecute_spec
          { a with _gpgnetGameState := (message.chunks.headD Json.null).asString }
        refine ⟨p, ?_, ?_, ?_⟩
        · simpa [IceAdapter.step, IceAdapter._onGpgNetMessage, hh, hl, IceAdapter.queuedBy]
            using h1
        · simp only [IceAdapter.step, IceAdapter._onGpgNetMessage, hh, hl, if_true,
            eventKeys_append]
          split_ifs <;>
            simpa [IceAdapter.eventKeys, IceAdapter.createLobbyMessage, IceAdapter.messageKey]
              using h2
        · simp only [IceAdapter.step, IceAdapter._onGpgNetMessage, hh, hl, if_true,
            hostGameMaps_append]
          split_ifs <;>
            simpa [IceAdapter.hostGameMaps, IceAdapter.createLobbyMessage] using h3
      · exact idle a [AdapterEvent.rpc "onGpgNetMessageReceived"
            (Json.arr [Json.str message.header, Json.arr message.chunks])] rfl rfl rfl rfl
          (by simp [IceAdapter.step, IceAdapter._onGpgNetMessage, hh, hl])
    · exact idle a [AdapterEvent.rpc "onGpgNetMessageReceived"
          (Json.arr [Json.str message.header, Json.arr message.chunks])] rfl rfl rfl rfl
        (by simp [IceAdapter.step, IceAdapter._onGpgNetMessage, hh])

/-- A run: the queue at the start followed by the tasks the run adds is the tasks
taken, in order, followed by the queue at the end; the task-derived messages
sent are a sublist of the tasks taken, and the `HostGame` messages are exactly the
`HostGame` tasks taken. -/
theorem run_spec : ∀ (ops : List IceAdapter.Op) (a : IceAdapter),
    ∃ processed : List IceAdapterGameTask,
      a._gameTasks ++ a.enqueued ops = processed ++ (a.run ops).1._gameTasks ∧
      List.Sublist (IceAdapter.eventKeys (a.run ops).2) (processed.map IceAdapter.taskKey) ∧
      IceAdapter.hostGameMaps (a.run ops).2 = IceAdapter.queuedHostMaps processed := by
  intro ops
  induction ops with
  | nil => intro a; exact ⟨[], by simp [IceAdapter.enqueued, IceAdapter.run],
      by simp [IceAdapter.run, IceAdapter.eventKeys],
      by simp [IceAdapter.run, IceAdapter.hostGameMaps, IceAdapter.queuedHostMaps]⟩
  | cons op ops ih =>
    intro a
    obtain ⟨p1, h1, h2, h3⟩ := step_spec a op
    obtain ⟨p2, k1, k2, k3⟩ := ih (a.step op).1
    refine ⟨p1 ++ p2, ?_, ?_, ?_⟩
    · simp only [IceAdapter.enqueued, IceAdapter.run]
      rw [← List.append_assoc, h1, List.append_assoc, k1, List.append_assoc]
    · simp only [IceAdapter.run, eventKeys_append, List.map_append]
      exact List.Sublist.append h2 k2
    · simp only [IceAdapter.run, hostGameMaps_append, queuedHostMaps_append, h3, k3]


/-! ## Claims on the game-task queue -/

theorem mem_hostGameMaps (map : String) :
    ∀ evs : List AdapterEvent, map ∈ IceAdapter.hostGameMaps evs →
      AdapterEvent.toGame (GameMessage.HostGame map) ∈ evs := by
  intro evs
  induction evs with
  | nil => intro h; simp [IceAdapter.hostGameMaps] at h
  | cons e evs ih =>
    intro h
    cases e with
    | toGame m =>
      cases m with
      | HostGame map2 =>
        simp only [IceAdapter.hostGameMaps, List.mem_cons] at h
        rcases h with h | h
        · subst h; simp
        · exact List.mem_cons_of_mem _ (ih h)
      | _ =>
        simp only [IceAdapter.hostGameMaps] at h
        exact List.mem_cons_of_mem _ (ih h)
    | rpc method params =>
      simp only [IceAdapter.hostGameMaps] at h
      exact List.mem_cons_of_mem _ (ih h)

theorem tryExecute_state (a : IceAdapter) :
    a._tryExecuteGameTasks.1._gpgnetGameState = a._gpgnetGameState ∧
    a._tryExecuteGameTasks.1._relays = a._relays ∧
    a._tryExecuteGameTasks.1._options = a._options ∧
    a._tryExecuteGameTasks.1.hasConnectedClient = a.hasConnectedClient ∧
    a._tryExecuteGameTasks.1._gametaskString = a._gametaskString := by
  have h := (tryExecute_spec a).2
  rw [h]
  exact ⟨rfl, rfl, rfl, rfl, rfl⟩

theorem tryExecute_not_lobby (a : IceAdapter) (hl : a._gpgnetGameState ≠ "Lobby") :
    IceAdapter.hostGameMaps a._tryExecuteGameTasks.2 = [] := by
  unfold IceAdapter._tryExecuteGameTasks
  split_ifs
  · rfl
  · exact executeTasks_not_lobby a hl _

/-- While the game state is not `Lobby` and no `GameState` message with the chunk
`Lobby` comes, an operation sends no `HostGame` message and the state stays other
than `Lobby`. -/
theorem step_not_lobby (a : IceAdapter) (op : IceAdapter.Op)
    (hl : a._gpgnetGameState ≠ "Lobby") (hop : IceAdapter.isLobbyMessage op = false) :
    (a.step op).1._gpgnetGameState ≠ "Lobby" ∧ IceAdapter.hostGameMaps (a.step op).2 = [] := by
  cases op with
  | hostGame map =>
    simp only [IceAdapter.step, IceAdapter.hostGame, IceAdapter._queueGameTask]
    exact ⟨by rw [(tryExecute_state _).1]; exact hl, tryExecute_not_lobby _ hl⟩
  | joinGame login id port =>
    simp only [IceAdapter.step, IceAdapter.joinGame, IceAdapter._queueGameTask]
    exact ⟨by rw [(tryExecute_state _).1]; exact hl, tryExecute_not_lobby _ hl⟩
  | connectToPeer login id offer port =>
    simp only [IceAdapter.step, IceAdapter.connectToPeer, IceAdapter._queueGameTask]
    exact ⟨by rw [(tryExecute_state _).1]; exact hl, tryExecute_not_lobby _ hl⟩
  | disconnectFromPeer id =>
    simp only [IceAdapter.step, IceAdapter.disconnectFromPeer, IceAdapter._queueGameTask]
    cases mapFind id a._relays with
    | none => exact ⟨hl, rfl⟩
    | some relay =>
      exact ⟨by rw [(tryExecute_state _).1]; exact hl, tryExecute_not_lobby _ hl⟩
  | setLobbyInitMode mode => exact ⟨hl, rfl⟩
  | sendToGpgNet message =>
    simp only [IceAdapter.step, IceAdapter.sendToGpgNet]
    split_ifs
    · exact ⟨hl, rfl⟩
    · exact ⟨hl, rfl⟩
  | gameConnected => exact ⟨hl, rfl⟩
  | gameDisconnected => exact ⟨by simp [IceAdapter.step, IceAdapter._onGameDisconnected], rfl⟩
  | gpgNetMessage message =>
    simp only [IceAdapter.step, IceAdapter._onGpgNetMessage]
    by_cases hh : message.header = "GameState"
    · by_cases hn : message.chunks.length = 1
      · have hs : (message.chunks.headD Json.null).asString ≠ "Lobby" := by
          intro h
          revert hop
          simp only [IceAdapter.isLobbyMessage, hh, hn, h]
          decide
        simp only [hh, hn, if_true, hostGameMaps_append]
        refine ⟨by rw [(tryExecute_state _).1]; exact hs, ?_⟩
        rw [tryExecute_not_lobby _ hs]
        split_ifs <;> rfl
      · simp only [hh, hn, if_true, if_false]
        exact ⟨hl, rfl⟩
    · simp only [hh, if_false]
      exact ⟨hl, rfl⟩

theorem run_not_lobby : ∀ (ops : List IceAdapter.Op) (a : IceAdapter),
    a._gpgnetGameState ≠ "Lobby" → (∀ op ∈ ops, IceAdapter.isLobbyMessage op = false) →
    (a.run ops).1._gpgnetGameState ≠ "Lobby" ∧ IceAdapter.hostGameMaps (a.run ops).2 = [] := by
  intro ops
  induction ops with
  | nil => intro a hl _; exact ⟨hl, rfl⟩
  | cons op ops ih =>
    intro a hl hops
    obtain ⟨h1, h2⟩ := step_not_lobby a op hl (hops op (by simp))
    obtain ⟨k1, k2⟩ := ih (a.step op).1 h1 (fun o ho => hops o (by simp [ho]))
    simp only [IceAdapter.run, hostGameMaps_append, h2, k2]
    exact ⟨k1, rfl⟩

theorem tryExecute_lobby (a : IceAdapter) (hc : a.hasConnectedClient = true)
    (hl : a._gpgnetGameState = "Lobby") :
    a._tryExecuteGameTasks.1._gameTasks = [] ∧
    IceAdapter.hostGameMaps a._tryExecuteGameTasks.2 = IceAdapter.queuedHostMaps a._gameTasks := by
  have hrem := executeTasks_lobby a hl a._gameTasks
  obtain ⟨p, hp, _, hmaps⟩ := executeTasks_spec a a._gameTasks
  rw [hrem, List.append_nil] at hp
  unfold IceAdapter._tryExecuteGameTasks
  simp only [hc, Bool.not_true, Bool.false_eq_true, if_false]
  exact ⟨hrem, by rw [hmaps, ← hp]⟩

/-- A `GameState` message with the chunk `Lobby`, the game connected: the queue is
emptied, and the `HostGame` messages sent are the `HostGame` tasks that waited. -/
theorem lobby_message_drains (a : IceAdapter) (message : GPGNetMessage)
    (hc : a.hasConnectedClient = true)
    (hm : IceAdapter.isLobbyMessage (IceAdapter.Op.gpgNetMessage message) = true) :
    (a._onGpgNetMessage message).1._gameTasks = [] ∧
    IceAdapter.hostGameMaps (a._onGpgNetMessage message).2 =
      IceAdapter.queuedHostMaps a._gameTasks := by
  simp only [IceAdapter.isLobbyMessage, Bool.and_eq_true, decide_eq_true_eq] at hm
  obtain ⟨⟨hh, hn⟩, hs⟩ := hm
  obtain ⟨h1, h2⟩ := tryExecute_lobby
    { a with _gpgnetGameState := (message.chunks.headD Json.null).asString } hc hs
  simp only [IceAdapter._onGpgNetMessage, hh, hn, if_true, hostGameMaps_append]
  refine ⟨h1, ?_⟩
  rw [h2, hs]
  simp [IceAdapter.hostGameMaps]

/-- C13. Task gating: a `HostGame` task enqueued while no game is connected or the
game state is not `Lobby` makes no `HostGame` message under any operations that
follow, as long as no `GameState` message with the single chunk `Lobby` comes, and
it waits in the queue; when that message comes with the game connected, the
`HostGame` messages sent are exactly the waiting `HostGame` tasks, `HostGame(map)`
among them, and the queue is left empty; afterwards the `HostGame` messages sent
and the `HostGame` tasks waiting are exactly those enqueued afterwards, so the task
is not sent again. -/
theorem host_game_gating (a : IceAdapter) (map : String) (ops later : List IceAdapter.Op)
    (lobby : GPGNetMessage)
    (hreach : a.hasConnectedClient = false → a._gpgnetGameState = "None")
    (hpre : a.hasConnectedClient = false ∨ a._gpgnetGameState ≠ "Lobby")
    (hops : ∀ op ∈ ops, IceAdapter.isLobbyMessage op = false)
    (hlobby : IceAdapter.isLobbyMessage (IceAdapter.Op.gpgNetMessage lobby) = true)
    (hconn : (a.run (IceAdapter.Op.hostGame map :: ops)).1.hasConnectedClient = true) :
    IceAdapter.hostGameMaps (a.run (IceAdapter.Op.hostGame map :: ops)).2 = [] ∧
    IceAdapter.queuedHostMaps (a.run (IceAdapter.Op.hostGame map :: ops)).1._gameTasks =
      IceAdapter.queuedHostMaps (a._gameTasks ++ a.enqueued (IceAdapter.Op.hostGame map :: ops)) ∧
    map ∈ IceAdapter.queuedHostMaps (a.run (IceAdapter.Op.hostGame map :: ops)).1._gameTasks ∧
    IceAdapter.hostGameMaps
        ((a.run (IceAdapter.Op.hostGame map :: ops)).1._onGpgNetMessage lobby).2 =
      IceAdapter.queuedHostMaps (a.run (IceAdapter.Op.hostGame map :: ops)).1._gameTasks ∧
    AdapterEvent.toGame (GameMessage.HostGame map) ∈
      ((a.run (IceAdapter.Op.hostGame map :: ops)).1._onGpgNetMessage lobby).2 ∧
    ((a.run (IceAdapter.Op.hostGame map :: ops)).1._onGpgNetMessage lobby).1._gameTasks = [] ∧
    IceAdapter.hostGameMaps
        (((a.run (IceAdapter.Op.hostGame map :: ops)).1._onGpgNetMessage lobby).1.run later).2 ++
      IceAdapter.queuedHostMaps
        (((a.run (IceAdapter.Op.hostGame map :: ops)).1._onGpgNetMessage lobby).1.run
          later).1._gameTasks =
      IceAdapter.queuedHostMaps
        (((a.run (IceAdapter.Op.hostGame map :: ops)).1._onGpgNetMessage lobby).1.enqueued
          later) := by
  have hl : a._gpgnetGameState ≠ "Lobby" := by
    rcases hpre with h | h
    · rw [hreach h]; decide
    · exact h
  have hall : ∀ op ∈ IceAdapter.Op.hostGame map :: ops, IceAdapter.isLobbyMessage op = false := by
    intro op hop
    rcases List.mem_cons.mp hop with h | h
    · rw [h]; rfl
    · exact hops op h
  obtain ⟨_, hnone⟩ := run_not_lobby _ a hl hall
  obtain ⟨p, hp, _, hmaps⟩ := run_spec (IceAdapter.Op.hostGame map :: ops) a
  have hpnone : IceAdapter.queuedHostMaps p = [] := by rw [← hmaps, hnone]
  have hqueue : IceAdapter.queuedHostMaps (a.run (IceAdapter.Op.hostGame map :: ops)).1._gameTasks =
      IceAdapter.queuedHostMaps
        (a._gameTasks ++ a.enqueued (IceAdapter.Op.hostGame map :: ops)) := by
    rw [hp, queuedHostMaps_append, hpnone, List.nil_append]
  have hmem : map ∈ IceAdapter.queuedHostMaps
      (a.run (IceAdapter.Op.hostGame map :: ops)).1._gameTasks := by
    rw [hqueue]
    simp [IceAdapter.enqueued, IceAdapter.queuedBy, queuedHostMaps_append,
      IceAdapter.queuedHostMaps]
  obtain ⟨hdrain, hsent⟩ := lobby_message_drains _ lobby hconn hlobby
  obtain ⟨p2, hp2, _, hmaps2⟩ := run_spec later
    ((a.run (IceAdapter.Op.hostGame map :: ops)).1._onGpgNetMessage lobby).1
  refine ⟨hnone, hqueue, hmem, hsent, ?_, hdrain, ?_⟩
  · apply mem_hostGameMaps
    rw [hsent]; exact hmem
  · rw [hmaps2, ← queuedHostMaps_append, ← hp2, hdrain, List.nil_append]

/-- Witness for C13: on a fresh adapter `hostGame("SCMP_009")` is called, the game
connects and reports `Idle`; the report `Lobby` then sends `HostGame("SCMP_009")`
and nothing is left to send. -/
theorem host_game_gating_witness :
    IceAdapter.hostGameMaps ((IceAdapter.init sampleOptions).run
      [IceAdapter.Op.hostGame "SCMP_009", IceAdapter.Op.gameConnected,
       IceAdapter.Op.gpgNetMessage (IceAdapter.gameState "Idle")]).2 = [] ∧
    IceAdapter.hostGameMaps (((IceAdapter.init sampleOptions).run
      [IceAdapter.Op.hostGame "SCMP_009", IceAdapter.Op.gameConnected,
       IceAdapter.Op.gpgNetMessage (IceAdapter.gameState "Idle")]).1._onGpgNetMessage
        (IceAdapter.gameState "Lobby")).2 = ["SCMP_009"] :=
  ⟨(host_game_gating (IceAdapter.init sampleOptions) "SCMP_009"
      [IceAdapter.Op.gameConnected, IceAdapter.Op.gpgNetMessage (IceAdapter.gameState "Idle")]
      [] (IceAdapter.gameState "Lobby") (fun _ => rfl) (Or.inl rfl) (by decide) (by decide)
      rfl).1,
   (host_game_gating (IceAdapter.init sampleOptions) "SCMP_009"
      [IceAdapter.Op.gameConnected, IceAdapter.Op.gpgNetMessage (IceAdapter.gameState "Idle")]
      [] (IceAdapter.gameState "Lobby") (fun _ => rfl) (Or.inl rfl) (by decide) (by decide)
      rfl).2.2.2.1⟩

/-- C14. Task ordering: over any sequence of operations, the queue at the start
followed by the tasks enqueued is, in order, the tasks taken from the queue
followed by the tasks still waiting; the task-derived messages sent to the game
are an order-preserving sublist of the tasks taken, hence of the tasks enqueued,
each task answered at most once. -/
theorem task_ordering (a : IceAdapter) (ops : List IceAdapter.Op) :
    (∃ processed : List IceAdapterGameTask,
      a._gameTasks ++ a.enqueued ops = processed ++ (a.run ops).1._gameTasks ∧
      List.Sublist (IceAdapter.eventKeys (a.run ops).2) (processed.map IceAdapter.taskKey)) ∧
    List.Sublist (IceAdapter.eventKeys (a.run ops).2)
      ((a._gameTasks ++ a.enqueued ops).map IceAdapter.taskKey) := by
  obtain ⟨p, h1, h2, _⟩ := run_spec ops a
  refine ⟨⟨p, h1, h2⟩, ?_⟩
  rw [h1, List.map_append]
  exact h2.trans (List.sublist_append_left _ _)


theorem onGpgNetMessage_connected (a : IceAdapter) (message : GPGNetMessage) :
    (a._onGpgNetMessage message).1.hasConnectedClient = a.hasConnectedClient := by
  unfold IceAdapter._onGpgNetMessage
  simp only
  split_ifs <;> first | exact (tryExecute_state _).2.2.2.1 | rfl

/-- The game state is `None` whenever no game is connected: the constructed adapter
has this, and every run in which messages come only from a connected game keeps it. -/
theorem disconnected_state_none : ∀ (ops : List IceAdapter.Op) (a : IceAdapter),
    (a.hasConnectedClient = false → a._gpgnetGameState = "None") →
    a.MessagesWhileConnected ops →
    ((a.run ops).1.hasConnectedClient = false → (a.run ops).1._gpgnetGameState = "None") := by
  intro ops
  induction ops with
  | nil => intro a h _; exact h
  | cons op ops ih =>
    intro a h hw
    have key : (a.step op).1.hasConnectedClient = false →
        (a.step op).1._gpgnetGameState = "None" := by
      cases op with
      | hostGame map =>
        simp only [IceAdapter.step, IceAdapter.hostGame, IceAdapter._queueGameTask]
        rw [(tryExecute_state _).1, (tryExecute_state _).2.2.2.1]; exact h
      | joinGame login id port =>
        simp only [IceAdapter.step, IceAdapter.joinGame, IceAdapter._queueGameTask]
        rw [(tryExecute_state _).1, (tryExecute_state _).2.2.2.1]; exact h
      | connectToPeer login id offer port =>
        simp only [IceAdapter.step, IceAdapter.connectToPeer, IceAdapter._queueGameTask]
        rw [(tryExecute_state _).1, (tryExecute_state _).2.2.2.1]; exact h
      | disconnectFromPeer id =>
        simp only [IceAdapter.step, IceAdapter.disconnectFromPeer, IceAdapter._queueGameTask]
        cases mapFind id a._relays with
        | none => exact h
        | some relay =>
          simp only
          rw [(tryExecute_state _).1, (tryExecute_state _).2.2.2.1]; exact h
      | setLobbyInitMode mode => exact h
      | sendToGpgNet message =>
        simp only [IceAdapter.step, IceAdapter.sendToGpgNet]
        split_ifs <;> exact h
      | gameConnected => intro hc; simp [IceAdapter.step, IceAdapter._onGameConnected] at hc
      | gameDisconnected => intro _; rfl
      | gpgNetMessage message =>
        have hc : a.hasConnectedClient = true := hw.1
        intro hfalse
        exfalso
        have hkeep := onGpgNetMessage_connected a message
        simp only [IceAdapter.step] at hfalse
        rw [hkeep, hc] at hfalse
        exact Bool.noConfusion hfalse
    have hw2 : (a.step op).1.MessagesWhileConnected ops := by
      cases op <;> first | exact hw.2 | exact hw
    exact ih (a.step op).1 key hw2

/-! ## Teardown, reset and the registry -/

theorem queueGameTask_state (a : IceAdapter) (t : IceAdapterGameTask) :
    (a._queueGameTask t).1._gpgnetGameState = a._gpgnetGameState ∧
    (a._queueGameTask t).1._relays = a._relays ∧
    (a._queueGameTask t).1._options = a._options ∧
    (a._queueGameTask t).1.hasConnectedClient = a.hasConnectedClient ∧
    (a._queueGameTask t).1._gametaskString = a._gametaskString :=
  tryExecute_state { a with _gameTasks := a._gameTasks ++ [t] }

theorem mapErase_length {β : Type} (id : Int) :
    ∀ (m : List (Int × β)) (r : β), KeysAscending m → mapFind id m = some r →
      (mapErase id m).length + 1 = m.length := by
  intro m
  induction m with
  | nil => intro r _ h; simp [mapFind] at h
  | cons e m ih =>
    intro r hs h
    obtain ⟨k, v⟩ := e
    have hs2 : KeysAscending m := (List.pairwise_cons.mp hs).2
    have hlt : ∀ x ∈ m.map Prod.fst, k < x := (List.pairwise_cons.mp hs).1
    by_cases hk : k = id
    · have hrest : mapErase id m = m := by
        unfold mapErase
        rw [List.filter_eq_self]
        intro e he
        have := hlt e.1 (List.mem_map_of_mem _ he)
        simp only [ne_eq, decide_not, Bool.not_eq_eq_eq_not, Bool.not_true,
          decide_eq_false_iff_not]
        omega
      have : mapErase id ((k, v) :: m) = mapErase id m := by
        simp [mapErase, List.filter_cons, hk]
      rw [this, hrest]
      simp
    · have : mapErase id ((k, v) :: m) = (k, v) :: mapErase id m := by
        simp [mapErase, List.filter_cons, hk]
      rw [this]
      simp only [mapFind, hk, if_false] at h
      simp only [List.length_cons]
      rw [ih r hs2 h]

/-- C16. Game-disconnect reset: from every adapter state, after `_onGameDisconnected`
the relay registry is empty, the game state is `None` and the task string is `Idle`. -/
theorem game_disconnect_reset (a : IceAdapter) :
    a._onGameDisconnected.1._relays = [] ∧
    a._onGameDisconnected.1._gpgnetGameState = "None" ∧
    a._onGameDisconnected.1._gametaskString = "Idle" ∧
    (a.step IceAdapter.Op.gameDisconnected).1._relays = [] ∧
    (a.step IceAdapter.Op.gameDisconnected).1._gpgnetGameState = "None" ∧
    (a.step IceAdapter.Op.gameDisconnected).1._gametaskString = "Idle" :=
  ⟨rfl, rfl, rfl, rfl, rfl, rfl⟩


/-! ## Enqueueing a disconnect, game messages, short parameter lists -/

theorem executeTasks_congr (a b : IceAdapter) (hs : a._gpgnetGameState = b._gpgnetGameState)
    (hr : a._relays = b._relays) :
    ∀ q : List IceAdapterGameTask, a.executeTasks q = b.executeTasks q := by
  intro q
  induction q with
  | nil => rfl
  | cons t rest ih =>
    cases hk : t.task <;> simp [IceAdapter.executeTasks, hk, hs, hr, ih]

theorem executeTasks_blocked (a : IceAdapter) (q2 : List IceAdapterGameTask) :
    ∀ q : List IceAdapterGameTask, (a.executeTasks q).1 ≠ [] →
      a.executeTasks (q ++ q2) = ((a.executeTasks q).1 ++ q2, (a.executeTasks q).2) := by
  intro q
  induction q with
  | nil => intro h; simp [IceAdapter.executeTasks] at h
  | cons t rest ih =>
    intro h
    cases hk : t.task
    · by_cases hl : a._gpgnetGameState = "Lobby"
      · cases hr : mapFind t.remoteId a._relays
        · simp only [IceAdapter.executeTasks, hk, hl, hr, ne_eq, not_true_eq_false, if_false]
            at h ⊢
          simpa [IceAdapter.executeTasks, hk, hl, hr] using ih h
        · simp only [IceAdapter.executeTasks, hk, hl, hr, ne_eq, not_true_eq_false, if_false]
            at h ⊢
          simp [IceAdapter.executeTasks, hk, hl, hr, ih h]
      · simp [IceAdapter.executeTasks, hk, hl]
    · by_cases hl : a._gpgnetGameState = "Lobby"
      · simp only [IceAdapter.executeTasks, hk, hl, ne_eq, not_true_eq_false, if_false] at h ⊢
        simp [IceAdapter.executeTasks, hk, hl, ih h]
      · simp [IceAdapter.executeTasks, hk, hl]
    · by_cases hl : a._gpgnetGameState = "Lobby"
      · cases hr : mapFind t.remoteId a._relays
        · simp only [IceAdapter.executeTasks, hk, hl, hr, ne_eq, not_true_eq_false, if_false]
            at h ⊢
          simpa [IceAdapter.executeTasks, hk, hl, hr] using ih h
        · simp only [IceAdapter.executeTasks, hk, hl, hr, ne_eq, not_true_eq_false, if_false]
            at h ⊢
          simp [IceAdapter.executeTasks, hk, hl, hr, ih h]
      · simp [IceAdapter.executeTasks, hk, hl]
    · simp only [IceAdapter.executeTasks, hk] at h ⊢
      simp [IceAdapter.executeTasks, hk, ih h]

/-- With a game connected, `_queueGameTask` runs the loop on the queue with the new
task at its end. -/
theorem queueGameTask_connected (a : IceAdapter) (t : IceAdapterGameTask)
    (hc : a.hasConnectedClient = true) :
    a._queueGameTask t =
      ({ a with _gameTasks := (a.executeTasks (a._gameTasks ++ [t])).1 },
       (a.executeTasks (a._gameTasks ++ [t])).2.map AdapterEvent.toGame) := by
  unfold IceAdapter._queueGameTask IceAdapter._tryExecuteGameTasks
  rw [if_neg, executeTasks_congr { a with _gameTasks := a._gameTasks ++ [t] } a rfl rfl]
  show ¬ ((!a.hasConnectedClient) = true)
  simp [hc]

theorem tryExecute_connected (a : IceAdapter) (hc : a.hasConnectedClient = true) :
    a._tryExecuteGameTasks =
      ({ a with _gameTasks := (a.executeTasks a._gameTasks).1 },
       (a.executeTasks a._gameTasks).2.map AdapterEvent.toGame) := by
  unfold IceAdapter._tryExecuteGameTasks
  rw [if_neg]
  simp [hc]

/-- C18, counterexample. The game is connected and has reported `Idle`, and the task
`HostGame("SCMP_009")` waits in the queue: enqueueing `DisconnectFromPeer(5)` sends
nothing to the game, and both tasks stay in the queue. -/
theorem disconnect_waits_behind_host_game :
    IceAdapter.waitingForLobby.hasConnectedClient = true ∧
    IceAdapter.waitingForLobby._gpgnetGameState = "Idle" ∧
    IceAdapter.waitingForLobby._gameTasks.map IceAdapter.taskKey = [IceAdapter.TaskKey.host "SCMP_009"] ∧
    (IceAdapter.waitingForLobby._queueGameTask (IceAdapter.disconnectTask 5)).2 = [] ∧
    (IceAdapter.waitingForLobby._queueGameTask (IceAdapter.disconnectTask 5)).1._gameTasks.map
      IceAdapter.taskKey = [IceAdapter.TaskKey.host "SCMP_009", IceAdapter.TaskKey.disconnect 5] :=
  ⟨rfl, rfl, by decide, rfl, by decide⟩

/-- C18, amended. With a game connected, enqueueing a `DisconnectFromPeer(id)` task
sends `DisconnectFromPeer(id)` during that enqueue whenever no earlier task is left
waiting: that is so when the game state is `Lobby` and when every task in the queue
is a `DisconnectFromPeer` task; the queue is then empty and the message is the last
one sent. When an earlier task is left waiting, the enqueue sends what
`_tryExecuteGameTasks` alone sends and the new task stays at the end of the queue. -/
theorem disconnect_emitted (a : IceAdapter) (id : Int) (hc : a.hasConnectedClient = true) :
    ((a._gpgnetGameState = "Lobby" ∨
        (∀ t ∈ a._gameTasks, t.task = TaskKind.DisconnectFromPeer)) →
      a._tryExecuteGameTasks.1._gameTasks = []) ∧
    (a._tryExecuteGameTasks.1._gameTasks = [] →
      (a._queueGameTask (IceAdapter.disconnectTask id)).1._gameTasks = [] ∧
      (a._queueGameTask (IceAdapter.disconnectTask id)).2 =
        a._tryExecuteGameTasks.2 ++ [AdapterEvent.toGame (GameMessage.DisconnectFromPeer id)]) ∧
    (a._tryExecuteGameTasks.1._gameTasks ≠ [] →
      (a._queueGameTask (IceAdapter.disconnectTask id)).1._gameTasks =
        a._tryExecuteGameTasks.1._gameTasks ++ [IceAdapter.disconnectTask id] ∧
      (a._queueGameTask (IceAdapter.disconnectTask id)).2 = a._tryExecuteGameTasks.2) := by
  rw [queueGameTask_connected a _ hc, tryExecute_connected a hc]
  simp only
  refine ⟨?_, ?_, ?_⟩
  · rintro (hl | hd)
    · exact executeTasks_lobby a hl _
    · exact executeTasks_disconnects a _ hd
  · intro h
    rw [executeTasks_append a _ _ h]
    simp [IceAdapter.executeTasks, IceAdapter.disconnectTask]
  · intro h
    rw [executeTasks_blocked a _ _ h]
    exact ⟨rfl, rfl⟩

/-- The amended C18 where the game has connected and reported nothing yet (the state
is `None`) and the queue is empty: enqueueing `DisconnectFromPeer(5)` sends it. -/
theorem disconnect_emitted_witness :
    ((IceAdapter.init sampleOptions).run [IceAdapter.Op.gameConnected]).1.hasConnectedClient
      = true ∧
    (((IceAdapter.init sampleOptions).run [IceAdapter.Op.gameConnected]).1._queueGameTask
      (IceAdapter.disconnectTask 5)).1._gameTasks = [] ∧
    (((IceAdapter.init sampleOptions).run [IceAdapter.Op.gameConnected]).1._queueGameTask
      (IceAdapter.disconnectTask 5)).2 =
        [AdapterEvent.toGame (GameMessage.DisconnectFromPeer 5)] :=
  ⟨rfl,
   ((disconnect_emitted ((IceAdapter.init sampleOptions).run [IceAdapter.Op.gameConnected]).1
      5 rfl).2.1 rfl).1,
   ((disconnect_emitted ((IceAdapter.init sampleOptions).run [IceAdapter.Op.gameConnected]).1
      5 rfl).2.1 rfl).2⟩

theorem createLobbies_append (xs ys : List AdapterEvent) :
    IceAdapter.createLobbies (xs ++ ys) =
      IceAdapter.createLobbies xs ++ IceAdapter.createLobbies ys := by
  induction xs with
  | nil => rfl
  | cons e rest ih =>
    cases e with
    | toGame m => cases m <;> simp [IceAdapter.createLobbies, ih]
    | rpc method params => simp [IceAdapter.createLobbies, ih]

theorem executeTasks_createLobbies (a : IceAdapter) :
    ∀ q : List IceAdapterGameTask,
      IceAdapter.createLobbies ((a.executeTasks q).2.map AdapterEvent.toGame) = [] := by
  intro q
  induction q with
  | nil => rfl
  | cons t rest ih =>
    cases hk : t.task
    · by_cases hl : a._gpgnetGameState = "Lobby"
      · cases hr : mapFind t.remoteId a._relays <;>
          simp [IceAdapter.executeTasks, hk, hl, hr, IceAdapter.createLobbies, ih]
      · simp [IceAdapter.executeTasks, hk, hl, IceAdapter.createLobbies]
    · by_cases hl : a._gpgnetGameState = "Lobby"
      · simp [IceAdapter.executeTasks, hk, hl, IceAdapter.createLobbies, ih]
      · simp [IceAdapter.executeTasks, hk, hl, IceAdapter.createLobbies]
    · by_cases hl : a._gpgnetGameState = "Lobby"
      · cases hr : mapFind t.remoteId a._relays <;>
          simp [IceAdapter.executeTasks, hk, hl, hr, IceAdapter.createLobbies, ih]
      · simp [IceAdapter.executeTasks, hk, hl, IceAdapter.createLobbies]
    · simp [IceAdapter.executeTasks, hk, IceAdapter.createLobbies, ih]

theorem tryExecute_createLobbies (a : IceAdapter) :
    IceAdapter.createLobbies a._tryExecuteGameTasks.2 = [] := by
  unfold IceAdapter._tryExecuteGameTasks
  split_ifs
  · rfl
  · exact executeTasks_createLobbies a _

/-- C19. Game-state transition: for a message with header `GameState` and the one
chunk `c` the game state afterwards is `c` as a string; for every other message the
adapter is unchanged and only the notification `onGpgNetMessageReceived` goes out.
When the adopted state is `Idle` the events are `CreateLobby(NormalLobby,
gameUdpPort, localPlayerLogin, localPlayerId, 1)` first, then what
`_tryExecuteGameTasks` sends, then the notification, with that one `CreateLobby`;
when the adopted state is another one, no `CreateLobby` is sent. -/
theorem game_state_transition (a : IceAdapter) (message : GPGNetMessage) :
    (∀ c : Json, message.header = "GameState" → message.chunks = [c] →
      (a._onGpgNetMessage message).1._gpgnetGameState = c.asString ∧
      (c.asString = "Idle" →
        (a._onGpgNetMessage message).2 =
          AdapterEvent.toGame (GameMessage.CreateLobby InitMode.NormalLobby
            a._options.gameUdpPort a._options.localPlayerLogin a._options.localPlayerId 1) ::
          (IceAdapter._tryExecuteGameTasks { a with _gpgnetGameState := "Idle" }).2 ++
          [AdapterEvent.rpc "onGpgNetMessageReceived"
            (Json.arr [Json.str message.header, Json.arr message.chunks])] ∧
        IceAdapter.createLobbies (a._onGpgNetMessage message).2 =
          [GameMessage.CreateLobby InitMode.NormalLobby
            a._options.gameUdpPort a._options.localPlayerLogin a._options.localPlayerId 1]) ∧
      (c.asString ≠ "Idle" →
        IceAdapter.createLobbies (a._onGpgNetMessage message).2 = [])) ∧
    (¬(message.header = "GameState" ∧ message.chunks.length = 1) →
      (a._onGpgNetMessage message).1 = a ∧
      (a._onGpgNetMessage message).1._gpgnetGameState = a._gpgnetGameState ∧
      (a._onGpgNetMessage message).2 =
        [AdapterEvent.rpc "onGpgNetMessageReceived"
          (Json.arr [Json.str message.header, Json.arr message.chunks])] ∧
      IceAdapter.createLobbies (a._onGpgNetMessage message).2 = []) := by
  constructor
  · intro c hh hch
    have hlen : message.chunks.length = 1 := by rw [hch]; rfl
    have hhead : message.chunks.headD Json.null = c := by rw [hch]; rfl
    refine ⟨?_, ?_, ?_⟩
    · simp only [IceAdapter._onGpgNetMessage, hh, hlen, if_true, hhead]
      exact (tryExecute_state _).1
    · intro hidle
      have hev : (a._onGpgNetMessage message).2 =
          AdapterEvent.toGame (GameMessage.CreateLobby InitMode.NormalLobby
            a._options.gameUdpPort a._options.localPlayerLogin a._options.localPlayerId 1) ::
          (IceAdapter._tryExecuteGameTasks { a with _gpgnetGameState := "Idle" }).2 ++
          [AdapterEvent.rpc "onGpgNetMessageReceived"
            (Json.arr [Json.str message.header, Json.arr message.chunks])] := by
        simp only [IceAdapter._onGpgNetMessage, hh, hlen, if_true, hhead, hidle,
          IceAdapter.createLobbyMessage]
        rfl
      refine ⟨hev, ?_⟩
      rw [hev]
      simp [IceAdapter.createLobbies, createLobbies_append, tryExecute_createLobbies]
    · intro hidle
      simp only [IceAdapter._onGpgNetMessage, hh, hlen, if_true, hhead, hidle, if_false]
      simp [IceAdapter.createLobbies, createLobbies_append, tryExecute_createLobbies]
  · intro hno
    have hev : a._onGpgNetMessage message =
        (a, [AdapterEvent.rpc "onGpgNetMessageReceived"
          (Json.arr [Json.str message.header, Json.arr message.chunks])]) := by
      unfold IceAdapter._onGpgNetMessage
      by_cases hh : message.header = "GameState"
      · have hlen : ¬ message.chunks.length = 1 := fun h => hno ⟨hh, h⟩
        simp [hh, hlen]
      · simp [hh]
    rw [hev]
    exact ⟨rfl, rfl, rfl, rfl⟩

/-- C20. Invalid parameters are rejected without effect: with fewer than 1 parameter
for `hostGame`, fewer than 2 for `joinGame`, fewer than 3 for `connectToPeer` and
fewer than 1 for `disconnectFromPeer`, the callback leaves the adapter as it was
(relays, task queue, task string and all), sends nothing, leaves `result` null and
sets `error` to the string that names the parameters. -/
theorem invalid_params_rejected (a : IceAdapter) (paramsArray : Json) (localPort : Int)
    (order : Nat) :
    (paramsArray.size < 1 →
      a.rpcHostGame paramsArray =
        { adapter := a, events := [], result := Json.null,
          error := Json.str "Need 1 parameter: mapName (string)" } ∧
      (a.rpcHostGame paramsArray).error.isNull = false ∧
      (a.rpcHostGame paramsArray).error.isString = true) ∧
    (paramsArray.size < 2 →
      a.rpcJoinGame paramsArray localPort order =
        { adapter := a, events := [], result := Json.null,
          error := Json.str
            "Need 2 parameters: remotePlayerLogin (string), remotePlayerId (int)" } ∧
      (a.rpcJoinGame paramsArray localPort order).error.isNull = false ∧
      (a.rpcJoinGame paramsArray localPort order).error.isString = true) ∧
    (paramsArray.size < 3 →
      a.rpcConnectToPeer paramsArray localPort order =
        { adapter := a, events := [], result := Json.null,
          error := Json.str
            "Need 3 parameters: remotePlayerLogin (string), remotePlayerId (int), createOffer (bool)" } ∧
      (a.rpcConnectToPeer paramsArray localPort order).error.isNull = false ∧
      (a.rpcConnectToPeer paramsArray localPort order).error.isString = true) ∧
    (paramsArray.size < 1 →
      a.rpcDisconnectFromPeer paramsArray =
        { adapter := a, events := [], result := Json.null,
          error := Json.str "Need 1 parameters: remotePlayerId (int)" } ∧
      (a.rpcDisconnectFromPeer paramsArray).error.isNull = false ∧
      (a.rpcDisconnectFromPeer paramsArray).error.isString = true) := by
  refine ⟨?_, ?_, ?_, ?_⟩ <;> intro h
  · simp [IceAdapter.rpcHostGame, h, Json.isNull, Json.isString]
  · simp [IceAdapter.rpcJoinGame, h, Json.isNull, Json.isString]
  · simp [IceAdapter.rpcConnectToPeer, h, Json.isNull, Json.isString]
  · simp [IceAdapter.rpcDisconnectFromPeer, h, Json.isNull, Json.isString]


/-! ## The relay registry -/

theorem mapAssign_keys_mem {β : Type} (key : Int) (v : β) :
    ∀ (m : List (Int × β)) (x : Int), x ∈ (mapAssign key v m).map Prod.fst →
      x = key ∨ x ∈ m.map Prod.fst := by
  intro m
  induction m with
  | nil => intro x hx; simp [mapAssign] at hx; exact Or.inl hx
  | cons e rest ih =>
    intro x hx
    obtain ⟨k, w⟩ := e
    by_cases hk : k = key
    · simp only [mapAssign, hk, if_true, List.map_cons, List.mem_cons] at hx ⊢
      rcases hx with h | h
      · exact Or.inl h
      · exact Or.inr (Or.inr h)
    · by_cases hlt : key < k
      · simp only [mapAssign, hk, hlt, if_true, if_false, List.map_cons, List.mem_cons] at hx ⊢
        rcases hx with h | h | h
        · exact Or.inl h
        · exact Or.inr (Or.inl h)
        · exact Or.inr (Or.inr h)
      · simp only [mapAssign, hk, hlt, if_false, List.map_cons, List.mem_cons] at hx ⊢
        rcases hx with h | h
        · exact Or.inr (Or.inl h)
        · rcases ih x h with h2 | h2
          · exact Or.inl h2
          · exact Or.inr (Or.inr h2)

theorem mapAssign_ascending {β : Type} (key : Int) (v : β) :
    ∀ m : List (Int × β), KeysAscending m → KeysAscending (mapAssign key v m) := by
  intro m
  induction m with
  | nil => intro _; simp [mapAssign, KeysAscending]
  | cons e rest ih =>
    intro hs
    obtain ⟨k, w⟩ := e
    have hs2 : KeysAscending rest := (List.pairwise_cons.mp hs).2
    have hlt : ∀ x ∈ rest.map Prod.fst, k < x := (List.pairwise_cons.mp hs).1
    by_cases hk : k = key
    · simp only [mapAssign, hk, if_true]
      unfold KeysAscending
      rw [List.map_cons, List.pairwise_cons]
      exact ⟨fun x hx => hk ▸ hlt x hx, hs2⟩
    · by_cases hkey : key < k
      · simp only [mapAssign, hk, hkey, if_true, if_false]
        unfold KeysAscending
        rw [List.map_cons, List.pairwise_cons]
        refine ⟨?_, hs⟩
        intro x hx
        simp only [List.map_cons, List.mem_cons] at hx
        rcases hx with h | h
        · rw [h]; exact hkey
        · exact lt_trans hkey (hlt x h)
      · simp only [mapAssign, hk, hkey, if_false]
        unfold KeysAscending
        rw [List.map_cons, List.pairwise_cons]
        refine ⟨?_, ih hs2⟩
        intro x hx
        rcases mapAssign_keys_mem key v rest x hx with h | h
        · rw [h]; omega
        · exact hlt x h

theorem mapErase_ascending {β : Type} (key : Int) (m : List (Int × β))
    (hs : KeysAscending m) : KeysAscending (mapErase key m) := by
  unfold KeysAscending mapErase
  exact List.Pairwise.sublist (List.Sublist.map Prod.fst (List.filter_sublist m)) hs

theorem keysAscending_nodup {β : Type} (m : List (Int × β)) (hs : KeysAscending m) :
    (m.map Prod.fst).Nodup := by
  unfold KeysAscending at hs
  exact List.Pairwise.imp (fun h => ne_of_lt h) hs

theorem step_options (a : IceAdapter) (op : IceAdapter.Op) :
    (a.step op).1._options = a._options := by
  cases op with
  | hostGame map =>
    simp only [IceAdapter.step, IceAdapter.hostGame]
    exact (queueGameTask_state _ _).2.2.1
  | joinGame login id port =>
    simp only [IceAdapter.step, IceAdapter.joinGame]
    exact (queueGameTask_state _ _).2.2.1
  | connectToPeer login id offer port =>
    simp only [IceAdapter.step, IceAdapter.connectToPeer]
    exact (queueGameTask_state _ _).2.2.1
  | disconnectFromPeer id =>
    simp only [IceAdapter.step, IceAdapter.disconnectFromPeer]
    cases mapFind id a._relays with
    | none => rfl
    | some relay => exact (queueGameTask_state _ _).2.2.1
  | setLobbyInitMode mode => rfl
  | sendToGpgNet message =>
    simp only [IceAdapter.step, IceAdapter.sendToGpgNet]
    split_ifs <;> rfl
  | gameConnected => rfl
  | gameDisconnected => rfl
  | gpgNetMessage message =>
    simp only [IceAdapter.step, IceAdapter._onGpgNetMessage]
    split_ifs <;> first | exact (tryExecute_state _).2.2.1 | rfl

/-- The registry after one operation. -/
theorem step_relays (a : IceAdapter) (op : IceAdapter.Op) :
    (a.step op).1._relays =
      match op with
      | IceAdapter.Op.joinGame login id port =>
        mapAssign id (a.newRelay id login false port) a._relays
      | IceAdapter.Op.connectToPeer login id offer port =>
        mapAssign id (a.newRelay id login offer port) a._relays
      | IceAdapter.Op.disconnectFromPeer id =>
        if (mapFind id a._relays).isSome then mapErase id a._relays else a._relays
      | IceAdapter.Op.gameDisconnected => []
      | _ => a._relays := by
  cases op with
  | hostGame map =>
    simp only [IceAdapter.step, IceAdapter.hostGame]
    exact (queueGameTask_state _ _).2.1
  | joinGame login id port =>
    simp only [IceAdapter.step, IceAdapter.joinGame]
    exact (queueGameTask_state _ _).2.1
  | connectToPeer login id offer port =>
    simp only [IceAdapter.step, IceAdapter.connectToPeer]
    exact (queueGameTask_state _ _).2.1
  | disconnectFromPeer id =>
    simp only [IceAdapter.step, IceAdapter.disconnectFromPeer]
    cases mapFind id a._relays with
    | none => rfl
    | some relay => exact (queueGameTask_state _ _).2.1
  | setLobbyInitMode mode => rfl
  | sendToGpgNet message =>
    simp only [IceAdapter.step, IceAdapter.sendToGpgNet]
    split_ifs <;> rfl
  | gameConnected => rfl
  | gameDisconnected => rfl
  | gpgNetMessage message =>
    simp only [IceAdapter.step, IceAdapter._onGpgNetMessage]
    split_ifs <;> first | exact (tryExecute_state _).2.1 | rfl

theorem step_ascending (a : IceAdapter) (op : IceAdapter.Op) (hs : KeysAscending a._relays) :
    KeysAscending (a.step op).1._relays := by
  rw [step_relays]
  cases op with
  | joinGame login id port => exact mapAssign_ascending _ _ _ hs
  | connectToPeer login id offer port => exact mapAssign_ascending _ _ _ hs
  | disconnectFromPeer id =>
    simp only
    split_ifs
    · exact mapErase_ascending _ _ hs
    · exact hs
  | gameDisconnected => exact List.Pairwise.nil
  | hostGame map => exact hs
  | setLobbyInitMode mode => exact hs
  | sendToGpgNet message => exact hs
  | gameConnected => exact hs
  | gpgNetMessage message => exact hs

theorem step_find_untouched (a : IceAdapter) (op : IceAdapter.Op) (id : Int)
    (ht : IceAdapter.touches id op = false) :
    mapFind id (a.step op).1._relays = mapFind id a._relays := by
  rw [step_relays]
  cases op with
  | joinGame login j port =>
    have hj : id ≠ j := by
      intro h; simp [IceAdapter.touches, h] at ht
    exact mapFind_mapAssign_other j id _ _ hj
  | connectToPeer login j offer port =>
    have hj : id ≠ j := by
      intro h; simp [IceAdapter.touches, h] at ht
    exact mapFind_mapAssign_other j id _ _ hj
  | disconnectFromPeer j =>
    have hj : id ≠ j := by
      intro h; simp [IceAdapter.touches, h] at ht
    simp only
    split_ifs
    · exact mapFind_mapErase_other j id _ hj
    · rfl
  | gameDisconnected => simp [IceAdapter.touches] at ht
  | hostGame map => rfl
  | setLobbyInitMode mode => rfl
  | sendToGpgNet message => rfl
  | gameConnected => rfl
  | gpgNetMessage message => rfl

theorem step_find_created (a : IceAdapter) (op : IceAdapter.Op) (id : Int) (relay : PeerRelay)
    (hcr : IceAdapter.creates a._options id op = some relay) :
    mapFind id (a.step op).1._relays = some relay := by
  rw [step_relays]
  cases op with
  | joinGame login j port =>
    simp only [IceAdapter.creates] at hcr
    split_ifs at hcr with hj
    subst hj
    simp only [Option.some.injEq] at hcr
    rw [← hcr]
    exact mapFind_mapAssign_self j _ _
  | connectToPeer login j offer port =>
    simp only [IceAdapter.creates] at hcr
    split_ifs at hcr with hj
    subst hj
    simp only [Option.some.injEq] at hcr
    rw [← hcr]
    exact mapFind_mapAssign_self j _ _
  | disconnectFromPeer j => simp [IceAdapter.creates] at hcr
  | gameDisconnected => simp [IceAdapter.creates] at hcr
  | hostGame map => simp [IceAdapter.creates] at hcr
  | setLobbyInitMode mode => simp [IceAdapter.creates] at hcr
  | sendToGpgNet message => simp [IceAdapter.creates] at hcr
  | gameConnected => simp [IceAdapter.creates] at hcr
  | gpgNetMessage message => simp [IceAdapter.creates] at hcr

theorem step_find_origin (a : IceAdapter) (op : IceAdapter.Op) (id : Int) (relay : PeerRelay)
    (hf : mapFind id (a.step op).1._relays = some relay) :
    (IceAdapter.touches id op = false ∧ mapFind id a._relays = some relay) ∨
    IceAdapter.creates a._options id op = some relay := by
  by_cases ht : IceAdapter.touches id op = false
  · left
    exact ⟨ht, by rw [← step_find_untouched a op id ht]; exact hf⟩
  · right
    rw [step_relays] at hf
    cases op with
    | joinGame login j port =>
      have hj : j = id := by simpa [IceAdapter.touches] using ht
      subst hj
      simp only at hf
      rw [mapFind_mapAssign_self] at hf
      simp only [IceAdapter.creates, if_true]
      exact hf
    | connectToPeer login j offer port =>
      have hj : j = id := by simpa [IceAdapter.touches] using ht
      subst hj
      simp only at hf
      rw [mapFind_mapAssign_self] at hf
      simp only [IceAdapter.creates, if_true]
      exact hf
    | disconnectFromPeer j =>
      have hj : j = id := by simpa [IceAdapter.touches] using ht
      subst hj
      exfalso
      simp only at hf
      split_ifs at hf with hsome
      · rw [mapFind_mapErase_self] at hf
        exact Option.noConfusion hf
      · rw [hf] at hsome
        exact hsome rfl
    | gameDisconnected =>
      exfalso
      simp [mapFind] at hf
    | hostGame map => exact absurd rfl ht
    | setLobbyInitMode mode => exact absurd rfl ht
    | sendToGpgNet message => exact absurd rfl ht
    | gameConnected => exact absurd rfl ht
    | gpgNetMessage message => exact absurd rfl ht

theorem run_append_state : ∀ (xs ys : List IceAdapter.Op) (a : IceAdapter),
    (a.run (xs ++ ys)).1 = ((a.run xs).1.run ys).1 := by
  intro xs
  induction xs with
  | nil => intro ys a; rfl
  | cons x rest ih =>
    intro ys a
    simp only [List.cons_append, IceAdapter.run]
    exact ih ys _

theorem run_options : ∀ (ops : List IceAdapter.Op) (a : IceAdapter),
    (a.run ops).1._options = a._options := by
  intro ops
  induction ops with
  | nil => intro a; rfl
  | cons op rest ih =>
    intro a
    simp only [IceAdapter.run]
    rw [ih, step_options]

theorem run_ascending : ∀ (ops : List IceAdapter.Op) (a : IceAdapter),
    KeysAscending a._relays → KeysAscending (a.run ops).1._relays := by
  intro ops
  induction ops with
  | nil => intro a h; exact h
  | cons op rest ih =>
    intro a h
    simp only [IceAdapter.run]
    exact ih _ (step_ascending a op h)

theorem run_find_untouched (id : Int) : ∀ (ops : List IceAdapter.Op) (a : IceAdapter),
    (∀ op ∈ ops, IceAdapter.touches id op = false) →
    mapFind id (a.run ops).1._relays = mapFind id a._relays := by
  intro ops
  induction ops with
  | nil => intro a _; rfl
  | cons op rest ih =>
    intro a h
    simp only [IceAdapter.run]
    rw [ih _ (fun o ho => h o (List.mem_cons_of_mem _ ho)),
      step_find_untouched a op id (h op (List.mem_cons_self _ _))]

theorem run_find_created (a : IceAdapter) (id : Int) (relay : PeerRelay)
    (before after : List IceAdapter.Op) (create : IceAdapter.Op)
    (hcr : IceAdapter.creates a._options id create = some relay)
    (hafter : ∀ op ∈ after, IceAdapter.touches id op = false) :
    mapFind id (a.run (before ++ create :: after)).1._relays = some relay := by
  rw [run_append_state]
  simp only [IceAdapter.run]
  rw [run_find_untouched id after _ hafter]
  apply step_find_created
  rw [run_options]
  exact hcr

theorem run_find_origin (id : Int) (relay : PeerRelay) :
    ∀ (ops : List IceAdapter.Op) (a : IceAdapter),
    mapFind id (a.run ops).1._relays = some relay →
    (mapFind id a._relays = some relay ∧ ∀ op ∈ ops, IceAdapter.touches id op = false) ∨
    ∃ (before after : List IceAdapter.Op) (create : IceAdapter.Op),
      ops = before ++ create :: after ∧
      IceAdapter.creates a._options id create = some relay ∧
      ∀ op ∈ after, IceAdapter.touches id op = false := by
  intro ops
  induction ops using List.reverseRecOn with
  | nil =>
    intro a h
    exact Or.inl ⟨h, fun _ ho => absurd ho (List.not_mem_nil _)⟩
  | append_singleton xs x ih =>
    intro a h
    rw [run_append_state] at h
    simp only [IceAdapter.run] at h
    rcases step_find_origin _ x id relay h with ⟨ht, hprev⟩ | hcr
    · rcases ih a hprev with ⟨h0, hall⟩ | ⟨before, after, create, hops, hcr, hall⟩
      · left
        refine ⟨h0, ?_⟩
        intro op ho
        rcases List.mem_append.mp ho with h1 | h1
        · exact hall op h1
        · rw [List.mem_singleton.mp h1]; exact ht
      · right
        refine ⟨before, after ++ [x], create, ?_, hcr, ?_⟩
        · rw [hops]; simp
        · intro op ho
          rcases List.mem_append.mp ho with h1 | h1
          · exact hall op h1
          · rw [List.mem_singleton.mp h1]; exact ht
    · right
      refine ⟨xs, [], x, rfl, ?_, fun _ ho => absurd ho (List.not_mem_nil _)⟩
      rw [run_options] at hcr
      exact hcr

/-- C17. Registry uniqueness: after any sequence of operations on the constructed
adapter the keys of the registry stand in strictly ascending order, so no id has
two relays. The relay held for an id is the one made by the last `joinGame` or
`connectToPeer` for that id with no later `disconnectFromPeer` of the id and no
later game disconnect, and an id is held only when there is such a call: a second
create for the id replaces the relay of the first. -/
theorem registry_uniqueness (options : IceAdapterOptions) (ops : List IceAdapter.Op) :
    KeysAscending ((IceAdapter.init options).run ops).1._relays ∧
    (((IceAdapter.init options).run ops).1._relays.map Prod.fst).Nodup ∧
    (∀ id : Int, (((IceAdapter.init options).run ops).1._relays.map Prod.fst).count id ≤ 1) ∧
    (∀ (id : Int) (relay : PeerRelay) (before after : List IceAdapter.Op)
        (create : IceAdapter.Op),
      ops = before ++ create :: after →
      IceAdapter.creates options id create = some relay →
      (∀ op ∈ after, IceAdapter.touches id op = false) →
      mapFind id ((IceAdapter.init options).run ops).1._relays = some relay) ∧
    (∀ (id : Int) (relay : PeerRelay),
      mapFind id ((IceAdapter.init options).run ops).1._relays = some relay →
      ∃ (before after : List IceAdapter.Op) (create : IceAdapter.Op),
        ops = before ++ create :: after ∧
        IceAdapter.creates options id create = some relay ∧
        ∀ op ∈ after, IceAdapter.touches id op = false) := by
  have hasc : KeysAscending ((IceAdapter.init options).run ops).1._relays :=
    run_ascending ops (IceAdapter.init options) List.Pairwise.nil
  have hnodup := keysAscending_nodup _ hasc
  refine ⟨hasc, hnodup, ?_, ?_, ?_⟩
  · intro id
    exact List.nodup_iff_count_le_one.mp hnodup id
  · intro id relay before after create hops hcr hafter
    rw [hops]
    exact run_find_created (IceAdapter.init options) id relay before after create hcr hafter
  · intro id relay hf
    rcases run_find_origin id relay ops (IceAdapter.init options) hf with ⟨h0, _⟩ | h
    · simp [IceAdapter.init, mapFind] at h0
    · exact h


/-! ## The trim of the receive buffer -/

theorem leftTrimSpec_append (w l : List Char) (hw : AllWhitespace w)
    (hl : ∀ c, l.head? = some c → c ∉ whitespace) : leftTrimSpec (w ++ l) = l := by
  induction w with
  | nil =>
    cases l with
    | nil => rfl
    | cons x l =>
      have hx : x ∉ whitespace := hl x rfl
      simp [leftTrimSpec, List.dropWhile, hx]
  | cons y w ih =>
    have hy : y ∈ whitespace := hw y (by simp)
    have h := ih (fun c hc => hw c (by simp [hc]))
    simp only [leftTrimSpec] at h ⊢
    simp [List.dropWhile, hy, h]

/-- The trim of any byte string: with `s` split into its leading whitespace `w`, a
core `z` and its trailing whitespace `u`, the trim is the core followed by the first
bytes of `u`, and the left trim of the specification is the core followed by `u`. -/
theorem trim_split (s : List Char) :
    ∃ w z u : List Char, s = w ++ z ++ u ∧ AllWhitespace w ∧ AllWhitespace u ∧
      (∀ c, z.head? = some c → c ∉ whitespace) ∧
      (∀ c, z.getLast? = some c → c ∉ whitespace) ∧
      trim_whitespace s = z ++ u.take (if z = [] then 0 else w.length) ∧
      leftTrimSpec s = z ++ (if z = [] then [] else u) := by
  obtain ⟨w, l, hs, hw, hl⟩ := split_leading_whitespace s
  obtain ⟨z, u, hlz, hu, hz⟩ := split_trailing_whitespace l
  by_cases hzn : z = []
  · subst hzn
    simp only [List.nil_append] at hlz
    have hlnil : l = [] := by
      cases l with
      | nil => rfl
      | cons x l =>
        exfalso
        exact hl x rfl (hu x (by rw [← hlz]; simp))
    subst hlnil
    refine ⟨w, [], [], by simpa using hs, hw, by intro c hc; simp at hc, by simp, by simp,
      ?_, ?_⟩
    · simp only [List.append_nil] at hs
      rw [hs, trim_all_whitespace w hw]
      simp
    · rw [hs, leftTrimSpec_append w [] hw (by simp)]
      simp
  · have hhead : ∀ c, z.head? = some c → c ∉ whitespace := by
      intro c hc
      apply hl c
      rw [hlz]
      cases z with
      | nil => exact absurd rfl hzn
      | cons x z => simpa using hc
    refine ⟨w, z, u, by rw [hs, hlz, List.append_assoc], hw, hu, hhead, hz, ?_, ?_⟩
    · rw [hs, hlz, ← List.append_assoc, trim_core w z u hw hu hzn hhead hz]
      simp [hzn]
    · rw [hs, leftTrimSpec_append w l hw hl, hlz]
      simp [hzn]

/-- C22, counterexample. On a space, the object `{}` and two spaces the trim leaves the
object and one space, while the string with its leading whitespace removed is the
object and two spaces. -/
theorem trim_cuts_trailing_whitespace :
    trim_whitespace [' ', '{', '}', ' ', ' '] = ['{', '}', ' '] ∧
    leftTrimSpec [' ', '{', '}', ' ', ' '] = ['{', '}', ' ', ' '] ∧
    trim_whitespace [' ', '{', '}', ' ', ' '] ≠ leftTrimSpec [' ', '{', '}', ' ', ' '] := by
  decide

/-- C22, amended. For every byte string `s`, `trim_whitespace s` is empty when `s` is
all whitespace; it is `s` without its leading run of whitespace and without some
whitespace bytes at its end: the left trim of the specification is the trim
followed by whitespace only, and the two agree when `s` does not end in whitespace.
So after trimming the buffer is empty or begins with a byte that is not
whitespace. -/
theorem trim_left (s : List Char) :
    (AllWhitespace s → trim_whitespace s = []) ∧
    (∃ dropped : List Char, leftTrimSpec s = trim_whitespace s ++ dropped ∧
      AllWhitespace dropped) ∧
    (NoTrailingWhitespace s → trim_whitespace s = leftTrimSpec s) ∧
    (trim_whitespace s = [] ↔ AllWhitespace s) ∧
    (trim_whitespace s = [] ∨
      ∃ c rest, trim_whitespace s = c :: rest ∧ c ∉ whitespace) := by
  obtain ⟨w, z, u, hs, hw, hu, hhead, hlast, htrim, hleft⟩ := trim_split s
  have hempty : trim_whitespace s = [] ↔ AllWhitespace s := by
    constructor
    · intro h
      rw [htrim] at h
      have hz : z = [] := (List.append_eq_nil.mp h).1
      subst hz
      rw [hs]
      intro c hc
      simp only [List.append_nil, List.mem_append] at hc
      rcases hc with h1 | h1
      · exact hw c h1
      · exact hu c h1
    · exact trim_all_whitespace s
  refine ⟨trim_all_whitespace s, ?_, ?_, hempty, ?_⟩
  · by_cases hz : z = []
    · refine ⟨[], ?_, by intro c hc; simp at hc⟩
      rw [htrim, hleft]
      simp [hz]
    · refine ⟨u.drop w.length, ?_, ?_⟩
      · rw [htrim, hleft]
        simp [hz]
      · intro c hc
        exact hu c (List.mem_of_mem_drop hc)
  · intro hno
    by_cases hz : z = []
    · rw [htrim, hleft]
      simp [hz]
    · have hunil : u = [] := by
        rcases List.eq_nil_or_concat u with h | ⟨a, x, h⟩
        · exact h
        · exfalso
          have hx : x ∈ whitespace := hu x (by rw [h]; simp)
          apply hno x _ hx
          rw [hs, h]
          simp
      rw [htrim, hleft, hunil]
      simp
  · by_cases hz : z = []
    · left
      rw [htrim]
      simp [hz]
    · right
      obtain ⟨c, r, hcr⟩ := List.exists_cons_of_ne_nil hz
      refine ⟨c, r ++ u.take w.length, ?_, hhead c (by rw [hcr]; rfl)⟩
      rw [htrim, hcr]
      simp


/-! ## The nesting counter -/

/-- One round of the loop with the 32-bit counter, from a level between 1 and
2^31 - 2: the counter does not wrap. The round ends the scan when the byte closes
the last open brace, and not through the negative branch; otherwise the counter,
still at least 1, is recorded and the scan goes on, as it does in `parseLoop`. -/
theorem parseLoopTrace_cons (reader : Reader) (buf rest : List Char) (c : Char) (pos : Nat)
    (inS : Bool) (lvl : Int) (h1 : 1 ≤ lvl) (h2 : lvl ≤ 2147483646) :
    ((parseLoopTrace reader buf (c :: rest) pos inS lvl).exit ≠ ParseExit.negativeNesting ∧
      (parseLoopTrace reader buf (c :: rest) pos inS lvl).levels = [0] ∧
      (parseLoopTrace reader buf (c :: rest) pos inS lvl).result =
        parseLoop reader buf (c :: rest) pos inS lvl) ∨
    (∃ (inS2 : Bool) (lvl2 : Int), 1 ≤ lvl2 ∧ lvl2 ≤ lvl + 1 ∧
      (parseLoopTrace reader buf (c :: rest) pos inS lvl).exit =
        (parseLoopTrace reader buf rest (pos + 1) inS2 lvl2).exit ∧
      (parseLoopTrace reader buf (c :: rest) pos inS lvl).levels =
        lvl2 :: (parseLoopTrace reader buf rest (pos + 1) inS2 lvl2).levels ∧
      (parseLoopTrace reader buf (c :: rest) pos inS lvl).result =
        (parseLoopTrace reader buf rest (pos + 1) inS2 lvl2).result ∧
      parseLoop reader buf (c :: rest) pos inS lvl =
        parseLoop reader buf rest (pos + 1) inS2 lvl2) := by
  have hw1 : wrapInt32 (lvl + 1) = lvl + 1 := wrapInt32_id _ (by omega) (by omega)
  have hw2 : wrapInt32 (lvl - 1) = lvl - 1 := wrapInt32_id _ (by omega) (by omega)
  by_cases hq : c = '"'
  · subst hq
    right
    cases inS
    · exact ⟨true, lvl, h1, by omega, by simp [parseLoopTrace], by simp [parseLoopTrace],
        by simp [parseLoopTrace], by simp [parseLoop]⟩
    · exact ⟨false, lvl, h1, by omega, by simp [parseLoopTrace], by simp [parseLoopTrace],
        by simp [parseLoopTrace], by simp [parseLoop]⟩
  · by_cases hb : c = '{'
    · subst hb
      right
      cases inS
      · exact ⟨false, lvl + 1, by omega, by omega, by simp [parseLoopTrace, hw1],
          by simp [parseLoopTrace, hw1], by simp [parseLoopTrace, hw1], by simp [parseLoop]⟩
      · exact ⟨true, lvl, h1, by omega, by simp [parseLoopTrace], by simp [parseLoopTrace],
          by simp [parseLoopTrace], by simp [parseLoop]⟩
    · by_cases he : c = '}'
      · subst he
        cases inS
        · by_cases hone : lvl = 1
          · subst hone
            left
            have hw0 : wrapInt32 0 = 0 := by unfold wrapInt32; omega
            refine ⟨?_, ?_, ?_⟩
            · simp only [parseLoopTrace, Char.reduceEq, if_false, Bool.not_false, if_true,
                sub_self, hw0, lt_self_iff_false]
              split_ifs <;> simp
            · simp only [parseLoopTrace, Char.reduceEq, if_false, Bool.not_false, if_true,
                sub_self, hw0, lt_self_iff_false]
              split_ifs <;> simp
            · simp only [parseLoopTrace, parseLoop, Char.reduceEq, if_false, Bool.not_false,
                if_true, sub_self, hw0, lt_self_iff_false]
              split_ifs <;> simp
          · right
            have hneg : ¬ lvl - 1 < 0 := by omega
            have hzero : ¬ lvl - 1 = 0 := by omega
            exact ⟨false, lvl - 1, by omega, by omega,
              by simp [parseLoopTrace, hw2, hneg, hzero],
              by simp [parseLoopTrace, hw2, hneg, hzero],
              by simp [parseLoopTrace, hw2, hneg, hzero],
              by simp [parseLoop, hneg, hzero]⟩
        · right
          exact ⟨true, lvl, h1, by omega, by simp [parseLoopTrace], by simp [parseLoopTrace],
            by simp [parseLoopTrace], by simp [parseLoop]⟩
      · right
        cases inS
        · exact ⟨false, lvl, h1, by omega, by simp [parseLoopTrace, hq, hb, he],
            by simp [parseLoopTrace, hq, hb, he], by simp [parseLoopTrace, hq, hb, he],
            by simp [parseLoop, hq, hb, he]⟩
        · exact ⟨true, lvl, h1, by omega, by simp [parseLoopTrace, hq, hb, he],
            by simp [parseLoopTrace, hq, hb, he], by simp [parseLoopTrace, hq, hb, he],
            by simp [parseLoop, hq, hb, he]⟩

/-- From a nesting level of at least 1, on fewer than 2^31 bytes in all, the loop with
the 32-bit counter returns what `parseLoop` returns, never leaves through the
negative branch, and its counter stays between 0 and the number of bytes scanned. -/
theorem parseLoopTrace_levels (reader : Reader) (buf : List Char) :
    ∀ (rest : List Char) (pos : Nat) (inS : Bool) (lvl : Int), 1 ≤ lvl → lvl ≤ (pos : Int) →
      (pos : Int) + (rest.length : Int) < 2147483648 →
      (parseLoopTrace reader buf rest pos inS lvl).result = parseLoop reader buf rest pos inS lvl ∧
      (parseLoopTrace reader buf rest pos inS lvl).exit ≠ ParseExit.negativeNesting ∧
      ∀ l ∈ (parseLoopTrace reader buf rest pos inS lvl).levels,
        0 ≤ l ∧ l ≤ (pos : Int) + (rest.length : Int) := by
  intro rest
  induction rest with
  | nil =>
    intro pos inS lvl _ _ _
    refine ⟨rfl, by simp [parseLoopTrace], ?_⟩
    intro l hl
    simp [parseLoopTrace] at hl
  | cons c rest ih =>
    intro pos inS lvl h1 h2 h3
    have hlen : ((c :: rest).length : Int) = (rest.length : Int) + 1 := by
      simp only [List.length_cons]; push_cast; rfl
    rw [hlen] at h3 ⊢
    have hnn : (0 : Int) ≤ (rest.length : Int) := Int.natCast_nonneg _
    rcases parseLoopTrace_cons reader buf rest c pos inS lvl h1 (by omega) with
      ⟨hexit, hlev, hres⟩ | ⟨inS2, lvl2, ha, hb, hexit, hlev, hres, hloop⟩
    · refine ⟨hres, hexit, ?_⟩
      intro l hl
      rw [hlev] at hl
      rw [List.mem_singleton.mp hl]
      omega
    · obtain ⟨hr, he, hl⟩ := ih (pos + 1) inS2 lvl2 ha (by push_cast; omega)
        (by push_cast; omega)
      refine ⟨by rw [hres, hr, hloop], by rw [hexit]; exact he, ?_⟩
      intro l hmem
      rw [hlev] at hmem
      rcases List.mem_cons.mp hmem with h | h
      · rw [h]; omega
      · have := hl l h
        push_cast at this
        omega

theorem parseTrace_brace (reader : Reader) (tl : List Char) :
    (parseTrace reader ('{' :: tl)).result =
      (parseLoopTrace reader ('{' :: tl) tl 1 false 1).result ∧
    (parseTrace reader ('{' :: tl)).exit =
      (parseLoopTrace reader ('{' :: tl) tl 1 false 1).exit ∧
    (parseTrace reader ('{' :: tl)).levels =
      1 :: (parseLoopTrace reader ('{' :: tl) tl 1 false 1).levels := by
  have hw : wrapInt32 1 = 1 := by unfold wrapInt32; omega
  simp [parseTrace, parseLoopTrace, hw]

/-- On every buffer shorter than 2^31 bytes the function with the 32-bit counter
returns and leaves what `_parseJsonFromMsgBuffer`, which counts in the integers,
returns and leaves. -/
theorem parseTrace_result (reader : Reader) (msgBuffer : List Char)
    (hlen : msgBuffer.length < 2147483648) :
    (parseTrace reader msgBuffer).result = _parseJsonFromMsgBuffer reader msgBuffer := by
  cases msgBuffer with
  | nil => rfl
  | cons c tl =>
    by_cases hc : c = '{'
    · subst hc
      simp only [List.length_cons] at hlen
      rw [(parseTrace_brace reader tl).1,
        (parseLoopTrace_levels reader ('{' :: tl) tl 1 false 1 le_rfl (by norm_num)
          (by push_cast; omega)).1]
      simp [_parseJsonFromMsgBuffer, parseLoop]
    · simp [parseTrace, _parseJsonFromMsgBuffer, hc]

/-- The loop with the 32-bit counter over a run of opening braces outside a string:
the counter goes up by their number, modulo 2^32. -/
theorem parseLoopTrace_braces (reader : Reader) (buf rest : List Char) :
    ∀ (n pos : Nat) (lvl : Int),
      (parseLoopTrace reader buf (List.replicate n '{' ++ rest) pos false lvl).exit =
        (parseLoopTrace reader buf rest (pos + n) false (wrapInt32 (lvl + n))).exit ∨ n = 0 := by
  intro n
  induction n with
  | zero => intro pos lvl; exact Or.inr rfl
  | succ n ih =>
    intro pos lvl
    left
    have hstep : (parseLoopTrace reader buf ('{' :: (List.replicate n '{' ++ rest)) pos false
        lvl).exit =
        (parseLoopTrace reader buf (List.replicate n '{' ++ rest) (pos + 1) false
          (wrapInt32 (lvl + 1))).exit := by
      simp [parseLoopTrace]
    rw [List.replicate_succ, List.cons_append, hstep]
    rcases ih (pos + 1) (wrapInt32 (lvl + 1)) with h | h
    · rw [h, wrapInt32_add]
      have e1 : pos + 1 + n = pos + (n + 1) := by omega
      have e2 : lvl + 1 + (n : Int) = lvl + ((n + 1 : Nat) : Int) := by push_cast; omega
      rw [e1, e2]
    · subst h
      simp


theorem parseLoopTrace_closing (reader : Reader) (buf : List Char) (pos : Nat) (lvl : Int)
    (hneg : wrapInt32 (lvl - 1) < 0) :
    (parseLoopTrace reader buf ['}'] pos false lvl).exit = ParseExit.negativeNesting ∧
    (parseLoopTrace reader buf ['}'] pos false lvl).result = (Json.null, []) ∧
    (parseLoopTrace reader buf ['}'] pos false lvl).levels = [wrapInt32 (lvl - 1)] := by
  simp [parseLoopTrace, hneg]

theorem parseLoopTrace_braces_result (reader : Reader) (buf rest : List Char) :
    ∀ (n pos : Nat) (lvl : Int),
      (parseLoopTrace reader buf (List.replicate n '{' ++ rest) pos false lvl).result =
        (parseLoopTrace reader buf rest (pos + n) false (wrapInt32 (lvl + n))).result ∨
      n = 0 := by
  intro n
  induction n with
  | zero => intro pos lvl; exact Or.inr rfl
  | succ n ih =>
    intro pos lvl
    left
    have hstep : (parseLoopTrace reader buf ('{' :: (List.replicate n '{' ++ rest)) pos false
        lvl).result =
        (parseLoopTrace reader buf (List.replicate n '{' ++ rest) (pos + 1) false
          (wrapInt32 (lvl + 1))).result := by
      simp [parseLoopTrace]
    rw [List.replicate_succ, List.cons_append, hstep]
    rcases ih (pos + 1) (wrapInt32 (lvl + 1)) with h | h
    · rw [h, wrapInt32_add]
      have e1 : pos + 1 + n = pos + (n + 1) := by omega
      have e2 : lvl + 1 + (n : Int) = lvl + ((n + 1 : Nat) : Int) := by push_cast; omega
      rw [e1, e2]
    · subst h
      simp

/-- A run of at least one opening brace, then a closing brace: when their number,
counted in 32 bits, is not positive, the function leaves through the negative
branch and clears the buffer. -/
theorem parseTrace_braces (reader : Reader) (n : Nat)
    (hneg : wrapInt32 (wrapInt32 ((n : Int) + 1) - 1) < 0) :
    (parseTrace reader (List.replicate (n + 1) '{' ++ ['}'])).exit =
      ParseExit.negativeNesting ∧
    (parseTrace reader (List.replicate (n + 1) '{' ++ ['}'])).result = (Json.null, []) := by
  have hb : List.replicate (n + 1) '{' ++ ['}'] = '{' :: (List.replicate n '{' ++ ['}']) := by
    rw [List.replicate_succ, List.cons_append]
  have hlvl : wrapInt32 (1 + (n : Int)) = wrapInt32 ((n : Int) + 1) := by
    rw [add_comm]
  rw [hb]
  obtain ⟨hres, hexit, _⟩ := parseTrace_brace reader (List.replicate n '{' ++ ['}'])
  rw [hres, hexit]
  rcases Nat.eq_zero_or_pos n with h0 | hpos
  · subst h0
    simp only [List.replicate_zero, List.nil_append]
    have h1 : wrapInt32 ((1 : Int) - 1) < 0 := by
      have : wrapInt32 (((0 : Nat) : Int) + 1) = 1 := by unfold wrapInt32; omega
      rw [this] at hneg
      exact hneg
    exact ⟨(parseLoopTrace_closing reader _ 1 1 h1).1, (parseLoopTrace_closing reader _ 1 1 h1).2.1⟩
  · rcases parseLoopTrace_braces reader ('{' :: (List.replicate n '{' ++ ['}'])) ['}'] n 1 1
      with h | h
    · rcases parseLoopTrace_braces_result reader ('{' :: (List.replicate n '{' ++ ['}'])) ['}']
        n 1 1 with h2 | h2
      · rw [h, h2, hlvl]
        exact ⟨(parseLoopTrace_closing reader _ _ _ hneg).1,
          (parseLoopTrace_closing reader _ _ _ hneg).2.1⟩
      · omega
    · omega

theorem scanState_braces : ∀ n : Nat, scanState (List.replicate n '{') = (false, (n : Int)) := by
  intro n
  induction n with
  | zero => rfl
  | succ n ih =>
    rw [List.replicate_succ', scanState_snoc, ih]
    simp [scanStep]

/-- Two or more opening braces and one closing brace: the brace count never returns
to zero. -/
theorem neverCloses_braces (n : Nat) (hn : 2 ≤ n) :
    NeverCloses (List.replicate n '{' ++ ['}']) := by
  intro q hq
  simp only [List.length_append, List.length_replicate, List.length_singleton] at hq
  unfold braceCount
  by_cases hle : q + 1 ≤ n
  · have htake : (List.replicate n '{' ++ ['}']).take (q + 1) = List.replicate (q + 1) '{' := by
      rw [List.take_append_of_le_length (by simpa using hle), List.take_replicate]
      congr 1
      omega
    rw [htake, scanState_braces]
    simp only
    push_cast
    omega
  · have hq1 : q + 1 = n + 1 := by omega
    have htake : (List.replicate n '{' ++ ['}']).take (q + 1) = List.replicate n '{' ++ ['}'] := by
      apply List.take_of_length_le
      simp only [List.length_append, List.length_replicate, List.length_singleton]
      omega
    rw [htake, scanState_snoc, scanState_braces]
    simp only [scanStep, Char.reduceEq, if_false, Bool.false_eq_true, if_true]
    omega

/-- C23, counterexample. On the buffer of 2^31 + 1 opening braces and one closing
brace the 32-bit counter has wrapped: it stands at -2147483647 before the closing
brace, and the function leaves through the branch `braceNestingLevel < 0`. -/
theorem deep_nesting_goes_negative :
    wrapInt32 (2147483647 + 1) = -2147483648 ∧
    (parseTrace sampleReader deepBuffer).exit = ParseExit.negativeNesting ∧
    (parseTrace sampleReader deepBuffer).result = (Json.null, []) :=
  ⟨by unfold wrapInt32; omega,
   (parseTrace_braces sampleReader 2147483648 (by unfold wrapInt32; omega)).1,
   (parseTrace_braces sampleReader 2147483648 (by unfold wrapInt32; omega)).2⟩

/-- C23, amended. The nesting counter is never negative on a buffer shorter than 2^31
bytes: for every reader and every such buffer, `_parseJsonFromMsgBuffer` with its
32-bit counter (`parseTrace`, which then returns what the function counting in
the integers returns) does not leave through the branch `braceNestingLevel < 0`,
and every value the counter takes lies between 0 and the length of the buffer. -/
theorem nesting_never_negative (reader : Reader) (msgBuffer : List Char)
    (hlen : msgBuffer.length < 2147483648) :
    (parseTrace reader msgBuffer).result = _parseJsonFromMsgBuffer reader msgBuffer ∧
    (parseTrace reader msgBuffer).exit ≠ ParseExit.negativeNesting ∧
    (∀ l ∈ (parseTrace reader msgBuffer).levels, 0 ≤ l ∧ l ≤ (msgBuffer.length : Int)) := by
  refine ⟨parseTrace_result reader msgBuffer hlen, ?_, ?_⟩
  · cases msgBuffer with
    | nil => simp [parseTrace]
    | cons c tl =>
      by_cases hc : c = '{'
      · subst hc
        simp only [List.length_cons] at hlen
        rw [(parseTrace_brace reader tl).2.1]
        exact (parseLoopTrace_levels reader ('{' :: tl) tl 1 false 1 le_rfl (by norm_num)
          (by push_cast; omega)).2.1
      · simp [parseTrace, hc]
  · cases msgBuffer with
    | nil => intro l hl; simp [parseTrace] at hl
    | cons c tl =>
      by_cases hc : c = '{'
      · subst hc
        simp only [List.length_cons] at hlen
        have hlenZ : ((('{' : Char) :: tl).length : Int) = (tl.length : Int) + 1 := by
          simp only [List.length_cons]; push_cast; rfl
        have hl := (parseLoopTrace_levels reader ('{' :: tl) tl 1 false 1 le_rfl (by norm_num)
          (by push_cast; omega)).2.2
        intro l hmem
        rw [(parseTrace_brace reader tl).2.2] at hmem
        rw [hlenZ]
        rcases List.mem_cons.mp hmem with h | h
        · rw [h]; omega
        · have := hl l h
          push_cast at this
          omega
      · intro l hl
        simp [parseTrace, hc] at hl

/-- Witness for C23: on `{"a":1}` the function leaves through the extraction, and
the counter takes the values 1 (six times) and 0. -/
theorem nesting_never_negative_witness :
    (parseTrace sampleReader textA).result = (objA, []) ∧
    (parseTrace sampleReader textA).exit ≠ ParseExit.negativeNesting ∧
    (∀ l ∈ (parseTrace sampleReader textA).levels, 0 ≤ l ∧ l ≤ (textA.length : Int)) :=
  ⟨(nesting_never_negative sampleReader textA (by decide)).1.trans rfl,
   (nesting_never_negative sampleReader textA (by decide)).2.1,
   (nesting_never_negative sampleReader textA (by decide)).2.2⟩

/-- C4, counterexample. The buffer of 2^31 + 1 opening braces and one closing brace
begins with `{` and its brace count never returns to zero, yet the function, whose
32-bit counter has wrapped, returns null and leaves the buffer empty. -/
theorem deep_nesting_clears_buffer :
    deepBuffer.head? = some '{' ∧ NeverCloses deepBuffer ∧ deepBuffer ≠ [] ∧
    (parseTrace sampleReader deepBuffer).result = (Json.null, []) :=
  ⟨rfl, neverCloses_braces 2147483649 (by omega),
   List.append_ne_nil_of_right_ne_nil _ (List.cons_ne_nil _ _),
   (parseTrace_braces sampleReader 2147483648 (by unfold wrapInt32; omega)).2⟩

/-- C4, amended. Need more data: when a buffer shorter than 2^31 bytes begins with `{`
and the scan reaches its end without the brace count returning to zero, the call
returns null and leaves the buffer as it was; so do the function with the 32-bit
counter of the source and the one that counts in the integers. -/
theorem need_more_data (reader : Reader) (buf : List Char)
    (hfirst : buf.head? = some '{') (hopen : NeverCloses buf)
    (hlen : buf.length < 2147483648) :
    (parseTrace reader buf).result = (Json.null, buf) ∧
    _parseJsonFromMsgBuffer reader buf = (Json.null, buf) := by
  have h : _parseJsonFromMsgBuffer reader buf = (Json.null, buf) := by
    cases buf with
    | nil => simp at hfirst
    | cons c tl =>
      simp only [List.head?_cons, Option.some.injEq] at hfirst
      subst hfirst
      exact parse_needMore reader tl hopen
  exact ⟨(parseTrace_result reader buf hlen).trans h, h⟩

/-- Witness for C4: the incomplete buffer `{"a":{"b":1}` stays as it is. -/
theorem need_more_data_witness :
    (parseTrace sampleReader
      ['{', '"', 'a', '"', ':', '{', '"', 'b', '"', ':', '1', '}']).result =
      (Json.null, ['{', '"', 'a', '"', ':', '{', '"', 'b', '"', ':', '1', '}']) :=
  (need_more_data sampleReader _ (by decide) (by decide) (by decide)).1


/-! ## A send that fails for want of a client -/

/-- With no client connected, a valid `sendRequest` that carries a continuation
registers it under the counter, calls it with `send failed`, and leaves it
registered. -/
theorem sendRequest_send_failed {κ : Type} (writer : Writer) (sendOk : Socket → Bool)
    (s : JsonRpcServer κ) (method : String) (params : Json) (socket : Option Socket) (cb : κ)
    (ha : params.isArray = true) (hm : method ≠ "") (hnone : s._connectedSockets = []) :
    sendRequest writer sendOk s method params socket (some cb) =
      ({ s with _currentRequests := mapAssign s._currentId cb s._currentRequests,
                _currentId := wrapInt32 (s._currentId + 1) },
       [Event.invoke cb Json.null (Json.str "send failed")]) ∧
    mapFind s._currentId
      (sendRequest writer sendOk s method params socket (some cb)).1._currentRequests =
        some cb := by
  have h : sendRequest writer sendOk s method params socket (some cb) =
      ({ s with _currentRequests := mapAssign s._currentId cb s._currentRequests,
                _currentId := wrapInt32 (s._currentId + 1) },
       [Event.invoke cb Json.null (Json.str "send failed")]) := by
    unfold sendRequest
    simp [ha, hm, _sendJson, hnone, failWith]
  refine ⟨h, ?_⟩
  rw [h]
  exact mapFind_mapAssign_self _ _ _

/-- C24, the code at the failing input. On a fresh server, with no client connected,
`sendRequest("m", [])` with the continuation 100 calls it with `send failed` and
keeps it registered under id 0; client 7 then connects and sends the response
`{"id":0,"result":1}`, and the continuation is called a second time. -/
theorem send_failed_invoked_twice :
    (run replyReader keyWriter (JsonRpcServer.fresh Nat)
      [Op.request "m" (Json.arr []) none (some 100) (fun _ => true)]).2 =
      [Event.invoke 100 Json.null (Json.str "send failed")] ∧
    (run replyReader keyWriter (JsonRpcServer.fresh Nat)
      [Op.request "m" (Json.arr []) none (some 100) (fun _ => true)]).1._currentRequests =
      [(0, 100)] ∧
    (run replyReader keyWriter (JsonRpcServer.fresh Nat)
      [Op.request "m" (Json.arr []) none (some 100) (fun _ => true),
       Op.newClient 7, Op.read 7 textReply]).2 =
      [Event.invoke 100 Json.null (Json.str "send failed"),
       Event.invoke 100 (Json.int 1) Json.null] :=
  ⟨rfl, rfl, rfl⟩


/-! ## The queue with the game in the lobby -/

theorem executeTasks_lobby_messages (a : IceAdapter) (hl : a._gpgnetGameState = "Lobby") :
    ∀ q : List IceAdapterGameTask,
      a.executeTasks q = ([], q.filterMap (IceAdapter.lobbyMessage a._relays)) := by
  intro q
  induction q with
  | nil => rfl
  | cons t rest ih =>
    cases hk : t.task
    · cases hr : mapFind t.remoteId a._relays <;>
        simp [IceAdapter.executeTasks, IceAdapter.lobbyMessage, hk, hl, hr, ih]
    · simp [IceAdapter.executeTasks, IceAdapter.lobbyMessage, hk, hl, ih]
    · cases hr : mapFind t.remoteId a._relays <;>
        simp [IceAdapter.executeTasks, IceAdapter.lobbyMessage, hk, hl, hr, ih]
    · simp [IceAdapter.executeTasks, IceAdapter.lobbyMessage, hk, ih]

theorem tryExecute_lobby_messages (a : IceAdapter) (hc : a.hasConnectedClient = true)
    (hl : a._gpgnetGameState = "Lobby") :
    a._tryExecuteGameTasks =
      ({ a with _gameTasks := [] },
       (a._gameTasks.filterMap (IceAdapter.lobbyMessage a._relays)).map AdapterEvent.toGame) := by
  rw [tryExecute_connected a hc, executeTasks_lobby_messages a hl]

theorem lobbyMessage_isNone (relays : List (Int × PeerRelay)) (t : IceAdapterGameTask) :
    (IceAdapter.lobbyMessage relays t).isNone = IceAdapter.relayMissing relays t := by
  cases hk : t.task <;> cases hr : mapFind t.remoteId relays <;>
    simp [IceAdapter.lobbyMessage, IceAdapter.relayMissing, hk, hr]

theorem length_filterMap_add {α β : Type} (f : α → Option β) (q : List α) :
    (q.filterMap f).length + (q.filter (fun t => (f t).isNone)).length = q.length := by
  induction q with
  | nil => rfl
  | cons t rest ih =>
    cases h : f t with
    | none =>
      simp only [List.filterMap_cons, h, List.filter_cons, Option.isNone_none, if_true,
        List.length_cons]
      omega
    | some v =>
      simp only [List.filterMap_cons, h, List.filter_cons, Option.isNone_some,
        Bool.false_eq_true, if_false, List.length_cons]
      omega

/-- C21. `JoinGame`/`ConnectToPeer` execution: with a game connected and the game
state `Lobby`, for a `JoinGame` or `ConnectToPeer` task at the head of the queue
whose remote id has a relay, `_tryExecuteGameTasks` first sends the corresponding
message with the address `127.0.0.1:<localUdpSocketPort>`, the login and the id of
the task, and goes on as on the queue without the task; for one whose remote id has
no relay it does just what it does on the queue without the task. -/
theorem join_connect_execution (a : IceAdapter) (t : IceAdapterGameTask)
    (rest : List IceAdapterGameTask) (hc : a.hasConnectedClient = true)
    (hl : a._gpgnetGameState = "Lobby") (hq : a._gameTasks = t :: rest) :
    (∀ relay : PeerRelay, t.task = TaskKind.JoinGame →
      mapFind t.remoteId a._relays = some relay →
      a._tryExecuteGameTasks.2 =
        AdapterEvent.toGame (GameMessage.JoinGame
          ("127.0.0.1:" ++ toString relay.localUdpSocketPort) t.remoteLogin t.remoteId) ::
        (IceAdapter._tryExecuteGameTasks { a with _gameTasks := rest }).2 ∧
      a._tryExecuteGameTasks.1 =
        (IceAdapter._tryExecuteGameTasks { a with _gameTasks := rest }).1) ∧
    (∀ relay : PeerRelay, t.task = TaskKind.ConnectToPeer →
      mapFind t.remoteId a._relays = some relay →
      a._tryExecuteGameTasks.2 =
        AdapterEvent.toGame (GameMessage.ConnectToPeer
          ("127.0.0.1:" ++ toString relay.localUdpSocketPort) t.remoteLogin t.remoteId) ::
        (IceAdapter._tryExecuteGameTasks { a with _gameTasks := rest }).2 ∧
      a._tryExecuteGameTasks.1 =
        (IceAdapter._tryExecuteGameTasks { a with _gameTasks := rest }).1) ∧
    (t.task = TaskKind.JoinGame ∨ t.task = TaskKind.ConnectToPeer →
      mapFind t.remoteId a._relays = none →
      a._tryExecuteGameTasks = IceAdapter._tryExecuteGameTasks { a with _gameTasks := rest }) ∧
    a._tryExecuteGameTasks.1._gameTasks = [] := by
  have hrest : IceAdapter._tryExecuteGameTasks { a with _gameTasks := rest } =
      ({ a with _gameTasks := [] },
       (rest.filterMap (IceAdapter.lobbyMessage a._relays)).map AdapterEvent.toGame) :=
    tryExecute_lobby_messages { a with _gameTasks := rest } hc hl
  have hall := tryExecute_lobby_messages a hc hl
  rw [hq] at hall
  rw [hrest, hall]
  refine ⟨?_, ?_, ?_, rfl⟩
  · intro relay hk hr
    simp [IceAdapter.lobbyMessage, hk, hr]
  · intro relay hk hr
    simp [IceAdapter.lobbyMessage, hk, hr]
  · intro hk hr
    rcases hk with hk | hk <;> simp [IceAdapter.lobbyMessage, hk, hr]

/-- Witness for C21: on the sample adapter the `JoinGame` task of `bob`, whose relay
has port 7000, is sent with the address `127.0.0.1:7000`; with the
`ConnectToPeer` task of `carol` at the head, who has no relay, nothing is sent for
it and the `DisconnectFromPeer` task behind it is executed. -/
theorem join_connect_execution_witness :
    IceAdapter.lobbyWithPeers._tryExecuteGameTasks.2 =
      AdapterEvent.toGame (GameMessage.JoinGame "127.0.0.1:7000" "bob" 2) ::
      (IceAdapter._tryExecuteGameTasks
        { IceAdapter.lobbyWithPeers with
          _gameTasks := [IceAdapter.connectTaskOfCarol, IceAdapter.disconnectTask 3] }).2 ∧
    IceAdapter._tryExecuteGameTasks
        { IceAdapter.lobbyWithPeers with
          _gameTasks := [IceAdapter.connectTaskOfCarol, IceAdapter.disconnectTask 3] } =
      IceAdapter._tryExecuteGameTasks
        { IceAdapter.lobbyWithPeers with _gameTasks := [IceAdapter.disconnectTask 3] } ∧
    (IceAdapter._tryExecuteGameTasks
        { IceAdapter.lobbyWithPeers with _gameTasks := [IceAdapter.disconnectTask 3] }).2 =
      [AdapterEvent.toGame (GameMessage.DisconnectFromPeer 3)] :=
  ⟨((join_connect_execution IceAdapter.lobbyWithPeers IceAdapter.joinTaskOfBob
      [IceAdapter.connectTaskOfCarol, IceAdapter.disconnectTask 3] rfl rfl rfl).1
      IceAdapter.relayOfBob rfl rfl).1,
   (join_connect_execution
      { IceAdapter.lobbyWithPeers with
        _gameTasks := [IceAdapter.connectTaskOfCarol, IceAdapter.disconnectTask 3] }
      IceAdapter.connectTaskOfCarol [IceAdapter.disconnectTask 3] rfl rfl rfl).2.2.1
      (Or.inr rfl) rfl,
   rfl⟩

/-- C25. Lobby drains the queue: with a game connected and the game state `Lobby`,
`_tryExecuteGameTasks` (a total function: every round of its loop returns or pops a
task) leaves the queue empty whatever it held, and what it sends is, task by task
in order, the one message of each task, none for a `JoinGame` or `ConnectToPeer`
task whose relay is missing. -/
theorem lobby_drains_queue (a : IceAdapter) (hc : a.hasConnectedClient = true)
    (hl : a._gpgnetGameState = "Lobby") :
    a._tryExecuteGameTasks.1 = { a with _gameTasks := [] } ∧
    a._tryExecuteGameTasks.1._gameTasks = [] ∧
    a._tryExecuteGameTasks.2 =
      (a._gameTasks.filterMap (IceAdapter.lobbyMessage a._relays)).map AdapterEvent.toGame ∧
    (∀ t : IceAdapterGameTask,
      (IceAdapter.lobbyMessage a._relays t).isNone = IceAdapter.relayMissing a._relays t) ∧
    a._tryExecuteGameTasks.2.length +
        (a._gameTasks.filter (IceAdapter.relayMissing a._relays)).length =
      a._gameTasks.length := by
  have h := tryExecute_lobby_messages a hc hl
  rw [h]
  refine ⟨rfl, rfl, rfl, lobbyMessage_isNone a._relays, ?_⟩
  have hlen := length_filterMap_add (IceAdapter.lobbyMessage a._relays) a._gameTasks
  have hfun : (fun t => (IceAdapter.lobbyMessage a._relays t).isNone) =
      IceAdapter.relayMissing a._relays := funext (lobbyMessage_isNone a._relays)
  rw [hfun] at hlen
  simpa using hlen

/-- Witness for C25: the sample adapter holds the tasks `JoinGame(bob, 2)`,
`ConnectToPeer(carol, 3)` and `DisconnectFromPeer(3)`, with a relay for 2 only: the
queue ends empty and two messages are sent, none for `carol`. -/
theorem lobby_drains_queue_witness :
    IceAdapter.lobbyWithPeers._gameTasks =
      [IceAdapter.joinTaskOfBob, IceAdapter.connectTaskOfCarol, IceAdapter.disconnectTask 3] ∧
    IceAdapter.lobbyWithPeers._tryExecuteGameTasks.1._gameTasks = [] ∧
    IceAdapter.lobbyWithPeers._tryExecuteGameTasks.2 =
      [AdapterEvent.toGame (GameMessage.JoinGame "127.0.0.1:7000" "bob" 2),
       AdapterEvent.toGame (GameMessage.DisconnectFromPeer 3)] :=
  ⟨rfl, (lobby_drains_queue IceAdapter.lobbyWithPeers rfl rfl).2.1,
   (lobby_drains_queue IceAdapter.lobbyWithPeers rfl rfl).2.2.1.trans rfl⟩

/-- C26. Game disconnect does not touch the task queue: `_onGameDisconnected` leaves
the queue as it was, and so does the connection of the next game; when that game
reports `Lobby`, the tasks of the old session are executed against it: the queue is
emptied and each task is sent, the `JoinGame` and `ConnectToPeer` tasks without a
message, since the disconnect removed their relays. -/
theorem game_disconnect_keeps_queue (a : IceAdapter) :
    a._onGameDisconnected.1._gameTasks = a._gameTasks ∧
    (a.step IceAdapter.Op.gameDisconnected).1._gameTasks = a._gameTasks ∧
    (a.run [IceAdapter.Op.gameDisconnected, IceAdapter.Op.gameConnected]).1._gameTasks =
      a._gameTasks ∧
    (∀ lobby : GPGNetMessage,
      IceAdapter.isLobbyMessage (IceAdapter.Op.gpgNetMessage lobby) = true →
      ((a.run [IceAdapter.Op.gameDisconnected, IceAdapter.Op.gameConnected]).1._onGpgNetMessage
          lobby).1._gameTasks = [] ∧
      ((a.run [IceAdapter.Op.gameDisconnected, IceAdapter.Op.gameConnected]).1._onGpgNetMessage
          lobby).2 =
        (a._gameTasks.filterMap (IceAdapter.lobbyMessage [])).map AdapterEvent.toGame ++
          [AdapterEvent.rpc "onGpgNetMessageReceived"
            (Json.arr [Json.str lobby.header, Json.arr lobby.chunks])] ∧
      IceAdapter.hostGameMaps
          ((a.run [IceAdapter.Op.gameDisconnected, IceAdapter.Op.gameConnected]).1._onGpgNetMessage
            lobby).2 = IceAdapter.queuedHostMaps a._gameTasks) := by
  refine ⟨rfl, rfl, rfl, ?_⟩
  intro lobby hm
  have hb : (a.run [IceAdapter.Op.gameDisconnected, IceAdapter.Op.gameConnected]).1 =
      { a with _gametaskString := "Idle", _gpgnetGameState := "None", _relays := [],
               hasConnectedClient := true } := rfl
  have hdrain := lobby_message_drains
    (a.run [IceAdapter.Op.gameDisconnected, IceAdapter.Op.gameConnected]).1 lobby rfl hm
  simp only [IceAdapter.isLobbyMessage, Bool.and_eq_true, decide_eq_true_eq] at hm
  obtain ⟨⟨hh, hn⟩, hs⟩ := hm
  have htry := tryExecute_lobby_messages
    { a with _gametaskString := "Idle",
             _gpgnetGameState := (lobby.chunks.headD Json.null).asString, _relays := [],
             hasConnectedClient := true } rfl hs
  refine ⟨hdrain.1, ?_, hdrain.2⟩
  rw [hb]
  have hidle : ¬ ((lobby.chunks.headD Json.null).asString = "Idle") := by
    rw [hs]; decide
  simp only [IceAdapter._onGpgNetMessage, hh, hn, if_true, hidle, if_false, List.nil_append]
  rw [htry]

/-- An example for C26: a `HostGame("SCMP_009")` task waits while the game is in
`Idle`; the game goes, another connects and reports `Lobby`, and the task of the old
session is sent to it. -/
theorem stale_host_game_sent :
    IceAdapter.hostGameMaps (IceAdapter.waitingForLobby.run
      [IceAdapter.Op.gameDisconnected, IceAdapter.Op.gameConnected,
       IceAdapter.Op.gpgNetMessage (IceAdapter.gameState "Lobby")]).2 = ["SCMP_009"] := by
  decide


/-! ## Request ids and notifications, within defined behaviour -/

theorem defined_append {κ : Type} (a b : List (Event κ)) :
    defined (a ++ b) = (defined a && defined b) := by
  induction a with
  | nil => rfl
  | cons e a ih => cases e <;> simp [defined, ih]

theorem not_mem_of_defined {κ : Type} (events : List (Event κ)) (h : defined events = true) :
    Event.undefined ∉ events := by
  induction events with
  | nil => simp
  | cons e rest ih =>
    cases e with
    | undefined => simp [defined] at h
    | send sock msg =>
      intro hmem
      rcases List.mem_cons.mp hmem with h1 | h1
      · exact Event.noConfusion h1
      · exact ih (by simpa [defined] using h) h1
    | invoke cont r er =>
      intro hmem
      rcases List.mem_cons.mp hmem with h1 | h1
      · exact Event.noConfusion h1
      · exact ih (by simpa [defined] using h) h1
    | call m p sock =>
      intro hmem
      rcases List.mem_cons.mp hmem with h1 | h1
      · exact Event.noConfusion h1
      · exact ih (by simpa [defined] using h) h1

/-- A broadcast writes to the first connected client, whatever the sends return. -/
theorem sendLoop_head {κ : Type} (sendOk : Socket → Bool) (message : List Char) (x : Socket)
    (rest : List Socket) (s : JsonRpcServer κ) :
    ∃ more, (sendLoop sendOk message none (x :: rest) s).2 = Event.send x message :: more := by
  unfold sendLoop
  simp only [Option.isSome_none, Bool.false_and, Bool.false_eq_true, if_false]
  split_ifs
  · cases rest with
    | nil => exact ⟨_, rfl⟩
    | cons y rest2 => exact ⟨_, rfl⟩
  · exact ⟨_, rfl⟩

/-- What `_sendJson` writes: to the target alone when it is connected; without a
target to the first connected client at least, and to every connected client when
no `Send` fails. -/
theorem sendJson_written {κ : Type} (sendOk : Socket → Bool) (s : JsonRpcServer κ)
    (message : List Char) :
    (∀ x : Socket, s._connectedSockets.Nodup → x ∈ s._connectedSockets →
      sends (_sendJson sendOk s message (some x)).2.2 = [(x, message)]) ∧
    ((∀ y ∈ s._connectedSockets, sendOk y = true) →
      sends (_sendJson sendOk s message none).2.2 =
        s._connectedSockets.map (fun y => (y, message))) ∧
    (∀ (x : Socket) (rest : List Socket), s._connectedSockets = x :: rest →
      ∃ more, sends (_sendJson sendOk s message none).2.2 = (x, message) :: more) := by
  refine ⟨?_, ?_, ?_⟩
  · intro x hnd hx
    have hne : s._connectedSockets ≠ [] := List.ne_nil_of_mem hx
    rw [(sendJson_targets sendOk s message hne hnd).1 x, if_pos hx]
  · intro hok
    by_cases hne : s._connectedSockets = []
    · simp [_sendJson, hne, sends]
    · unfold _sendJson
      rw [if_neg hne, sendLoop_broadcast sendOk message _ s hok]
      exact sends_map_send _ _
  · intro x rest hx
    unfold _sendJson
    rw [if_neg (by rw [hx]; exact List.cons_ne_nil _ _), hx]
    obtain ⟨more, hmore⟩ := sendLoop_head sendOk message x rest s
    exact ⟨sends more, by simp only [hmore, sends]⟩

theorem filter_accepted_replicate {κ : Type} (op : Op κ) (h : accepted op = true) :
    ∀ n : Nat, ((List.replicate n op).filter (fun o => accepted o)).length = n := by
  intro n
  induction n with
  | zero => rfl
  | succ n ih =>
    rw [List.replicate_succ, List.filter_cons]
    simp only [h, if_true, List.length_cons, ih]

/-- The counter of a fresh server reaches 2147483647, the largest `int`, after that
many accepted requests that carry a continuation. -/
theorem last_id_reachable :
    (run sampleReader idWriter (JsonRpcServer.fresh Nat)
      (List.replicate 2147483647
        (Op.request "a" (Json.arr []) none (some 10) (fun _ => true)))).1._currentId =
      2147483647 := by
  rw [run_currentId sampleReader idWriter _ (JsonRpcServer.fresh Nat) (by decide) (by decide),
    filter_accepted_replicate
      (Op.request "a" (Json.arr []) none (some 10) (fun _ => true) : Op Nat) (by decide)]
  unfold wrapInt32
  show ((0 : Int) + ((2147483647 : Nat) : Int) + 2147483648) % 4294967296 - 2147483648 =
    2147483647
  omega

/-- C6, counterexample. With the counter at 2147483647, the largest `int`, two
requests that carry a continuation are written with the ids 2147483647 and
-2147483648: the counter has wrapped, and the second id is not the first plus one. -/
theorem rpc_id_wraps :
    lastIdServer._currentId = 2147483647 ∧
    sends (run sampleReader idWriter lastIdServer
      [Op.request "a" (Json.arr []) none (some 10) (fun _ => true),
       Op.request "b" (Json.arr []) none (some 11) (fun _ => true)]).2 =
      [(7, ['2', '1', '4', '7', '4', '8', '3', '6', '4', '7']),
       (7, ['-', '2', '1', '4', '7', '4', '8', '3', '6', '4', '8'])] ∧
    (run sampleReader idWriter lastIdServer
      [Op.request "a" (Json.arr []) none (some 10) (fun _ => true),
       Op.request "b" (Json.arr []) none (some 11) (fun _ => true)]).1._currentRequests =
      [(-2147483648, 11), (2147483647, 10)] := by
  decide

/-- C6, amended. RPC id monotonicity within the range of the counter: over any
sequence of `sendRequest` calls, reads and connection events that stays within
defined behaviour, started with the counter at `k` and with `n` accepted calls that
carry a continuation, `k + n` being at most 2^31, the `i`-th such call (`i` counted
from 0) finds the counter at `k + i`, registers its continuation under `k + i` and
writes the frame whose `id` is `k + i` and no other frame: to its target when that
is connected, to the first connected client at least when it has no target, and to
every connected client when no `Send` fails. Ids grow strictly from one such call
to the next, the counter ends at `k + n` as an `int` holds it, and a fresh server
starts at 0. -/
theorem rpc_id_monotonic {κ : Type} (reader : Reader) (writer : Writer) (s : JsonRpcServer κ)
    (ops : List (Op κ))
    (hlow : -2147483648 ≤ s._currentId) (hint : s._currentId ≤ 2147483647)
    (hhigh : s._currentId + ((ops.filter (fun op => accepted op)).length : Int) ≤ 2147483648)
    (hdef : defined (run reader writer s ops).2 = true) :
    (run reader writer s ops).1._currentId =
      wrapInt32 (s._currentId + ((ops.filter (fun op => accepted op)).length : Int)) ∧
    (s._currentId + ((ops.filter (fun op => accepted op)).length : Int) ≤ 2147483647 →
      (run reader writer s ops).1._currentId =
        s._currentId + ((ops.filter (fun op => accepted op)).length : Int)) ∧
    (∀ (pre post : List (Op κ)) (method : String) (params : Json) (socket : Option Socket)
        (cb : κ) (sendOk : Socket → Bool),
      ops = pre ++ Op.request method params socket (some cb) sendOk :: post →
      params.isArray = true → method ≠ "" →
      (run reader writer s pre).1._currentId =
        s._currentId + ((pre.filter (fun op => accepted op)).length : Int) ∧
      (∀ e ∈ (sendRequest writer sendOk (run reader writer s pre).1 method params socket
            (some cb)).2,
        (∃ sock, e = Event.send sock (writer (requestFrame method params
          (some (s._currentId + ((pre.filter (fun op => accepted op)).length : Int)))))) ∨
        e = Event.invoke cb Json.null (Json.str "send failed")) ∧
      (requestFrame method params
          (some (s._currentId + ((pre.filter (fun op => accepted op)).length : Int)))).get "id" =
        Json.int (s._currentId + ((pre.filter (fun op => accepted op)).length : Int)) ∧
      mapFind (s._currentId + ((pre.filter (fun op => accepted op)).length : Int))
          (sendRequest writer sendOk (run reader writer s pre).1 method params socket
            (some cb)).1._currentRequests = some cb ∧
      (∀ x : Socket, socket = some x → (run reader writer s pre).1._connectedSockets.Nodup →
        x ∈ (run reader writer s pre).1._connectedSockets →
        sends (sendRequest writer sendOk (run reader writer s pre).1 method params socket
            (some cb)).2 =
          [(x, writer (requestFrame method params
            (some (s._currentId + ((pre.filter (fun op => accepted op)).length : Int)))))]) ∧
      (socket = none → (∀ y ∈ (run reader writer s pre).1._connectedSockets, sendOk y = true) →
        sends (sendRequest writer sendOk (run reader writer s pre).1 method params socket
            (some cb)).2 =
          (run reader writer s pre).1._connectedSockets.map (fun y =>
            (y, writer (requestFrame method params
              (some (s._currentId + ((pre.filter (fun op => accepted op)).length : Int))))))) ∧
      (socket = none → ∀ (x : Socket) (rest : List Socket),
        (run reader writer s pre).1._connectedSockets = x :: rest →
        ∃ more, sends (sendRequest writer sendOk (run reader writer s pre).1 method params
            socket (some cb)).2 =
          (x, writer (requestFrame method params
            (some (s._currentId + ((pre.filter (fun op => accepted op)).length : Int))))) ::
            more) ∧
      (run reader writer s ops).2 =
        (run reader writer s pre).2 ++
          ((sendRequest writer sendOk (run reader writer s pre).1 method params socket
            (some cb)).2 ++
           (run reader writer
              (sendRequest writer sendOk (run reader writer s pre).1 method params socket
                (some cb)).1 post).2)) ∧
    (∀ (pre mid : List (Op κ)) (op : Op κ), accepted op = true →
      (pre.filter (fun op => accepted op)).length <
        ((pre ++ op :: mid).filter (fun op => accepted op)).length) ∧
    (JsonRpcServer.fresh κ)._currentId = 0 := by
  have hfinal := run_currentId reader writer ops s hlow hint
  refine ⟨hfinal, ?_, ?_, ?_, rfl⟩
  · intro hle
    rw [hfinal]
    exact wrapInt32_id _ (by omega) hle
  · intro pre post method params socket cb sendOk hops ha hm
    have hcount : (ops.filter (fun op => accepted op)).length =
        (pre.filter (fun op => accepted op)).length + 1 +
          (post.filter (fun op => accepted op)).length := by
      rw [hops]
      simp [List.filter_append, List.filter_cons, accepted, ha, hm]
      omega
    have hpre : s._currentId + ((pre.filter (fun op => accepted op)).length : Int) ≤
        2147483647 := by
      rw [hcount] at hhigh
      push_cast at hhigh
      omega
    have hid : (run reader writer s pre).1._currentId =
        s._currentId + ((pre.filter (fun op => accepted op)).length : Int) := by
      rw [run_currentId reader writer pre s hlow hint]
      exact wrapInt32_id _ (by omega) hpre
    have hevents : (run reader writer s ops).2 =
        (run reader writer s pre).2 ++
          ((sendRequest writer sendOk (run reader writer s pre).1 method params socket
            (some cb)).2 ++
           (run reader writer
              (sendRequest writer sendOk (run reader writer s pre).1 method params socket
                (some cb)).1 post).2) := by
      rw [hops, run_append]
      simp [run, step]
    have hcall : defined (sendRequest writer sendOk (run reader writer s pre).1 method params
        socket (some cb)).2 = true := by
      rw [hevents, defined_append, defined_append] at hdef
      simp only [Bool.and_eq_true] at hdef
      exact hdef.2.1
    obtain ⟨_, h2, _, h4, h5⟩ :=
      sendRequest_accepted writer sendOk (run reader writer s pre).1 method params socket cb ha hm
    rw [hid] at h4 h5
    obtain ⟨w1, w2, w3⟩ := sendJson_written sendOk (run reader writer s pre).1
      (writer (requestFrame method params
        (some (s._currentId + ((pre.filter (fun op => accepted op)).length : Int)))))
    refine ⟨hid, ?_, ?_, ?_, ?_, ?_, ?_, hevents⟩
    · intro e he
      rcases h4 e he with h | h | h
      · exact Or.inl h
      · exact Or.inr h
      · exact absurd (h ▸ he) (not_mem_of_defined _ hcall)
    · rw [requestFrame_some, get_set_self]
    · rw [h2, ← hid, mapFind_mapAssign_self]
    · intro x hx hnd hmem
      rw [h5, hx]
      exact w1 x hnd hmem
    · intro hx hok
      rw [h5, hx]
      exact w2 hok
    · intro hx x rest hconn
      rw [h5, hx]
      exact w3 x rest hconn
  · intro pre mid op hop
    simp [List.filter_append, List.filter_cons, hop]

/-- Witness for the amended C6: on a fresh server a client connects, then come a
request with continuation 10, a notification, a rejected call and a request with
continuation 12; the counter ends at 2. -/
theorem rpc_id_monotonic_witness :
    (run sampleReader keyWriter (JsonRpcServer.fresh Nat)
      [Op.newClient 7,
       Op.request "a" (Json.arr []) none (some 10) (fun _ => true),
       Op.request "b" (Json.arr []) none none (fun _ => true),
       Op.request "" (Json.arr []) none (some 11) (fun _ => true),
       Op.request "c" (Json.arr []) none (some 12) (fun _ => true)]).1._currentId =
      (0 : Int) + ((2 : Nat) : Int) :=
  (rpc_id_monotonic sampleReader keyWriter (JsonRpcServer.fresh Nat)
      [Op.newClient 7,
       Op.request "a" (Json.arr []) none (some 10) (fun _ => true),
       Op.request "b" (Json.arr []) none none (fun _ => true),
       Op.request "" (Json.arr []) none (some 11) (fun _ => true),
       Op.request "c" (Json.arr []) none (some 12) (fun _ => true)]
      (by decide) (by decide) (by decide) (by decide)).2.1 (by decide)

/-- C7, counterexample. With an empty method name, and with no client connected,
`sendRequest` without a continuation writes no frame. -/
theorem notification_not_written :
    (sendRequest keyWriter (fun _ => true) sampleServer "" (Json.arr []) none none).2 = [] ∧
    sampleServer._connectedSockets = [7] ∧
    (sendRequest keyWriter (fun _ => true) (JsonRpcServer.fresh Nat) "m" (Json.arr []) none
      none).2 = [] ∧
    (JsonRpcServer.fresh Nat)._connectedSockets = [] :=
  ⟨rfl, rfl, rfl, rfl⟩

/-- C7, amended. Notifications: `sendRequest` called without a continuation, within
defined behaviour, leaves the pending-request table and the id counter as they
were and invokes nothing; its events are sends of the encoding of the request
object, which has no `id` member. With a non-empty method and a params array the
frame is written to the target when that is connected, to the first connected
client at least when there is no target, and to every connected client when no
`Send` fails. -/
theorem notification_no_id {κ : Type} (writer : Writer) (sendOk : Socket → Bool)
    (s : JsonRpcServer κ) (method : String) (params : Json) (socket : Option Socket)
    (hdef : defined (sendRequest writer sendOk s method params socket none).2 = true) :
    (sendRequest writer sendOk s method params socket none).1._currentRequests =
      s._currentRequests ∧
    (sendRequest writer sendOk s method params socket none).1._currentId = s._currentId ∧
    (∀ e ∈ (sendRequest writer sendOk s method params socket none).2,
      ∃ sock, e = Event.send sock (writer (requestFrame method params none))) ∧
    (requestFrame method params none).isMember "id" = false ∧
    (params.isArray = true → method ≠ "" →
      sendRequest writer sendOk s method params socket none =
        (_sendJson sendOk s (writer (requestFrame method params none)) socket).2) ∧
    (params.isArray = true → method ≠ "" → ∀ x : Socket, socket = some x →
      s._connectedSockets.Nodup → x ∈ s._connectedSockets →
      sends (sendRequest writer sendOk s method params socket none).2 =
        [(x, writer (requestFrame method params none))]) ∧
    (params.isArray = true → method ≠ "" → socket = none →
      (∀ y ∈ s._connectedSockets, sendOk y = true) →
      sends (sendRequest writer sendOk s method params socket none).2 =
        s._connectedSockets.map (fun y => (y, writer (requestFrame method params none)))) ∧
    (params.isArray = true → method ≠ "" → socket = none →
      ∀ (x : Socket) (rest : List Socket), s._connectedSockets = x :: rest →
      ∃ more, sends (sendRequest writer sendOk s method params socket none).2 =
        (x, writer (requestFrame method params none)) :: more) := by
  obtain ⟨h1, h2⟩ := sendRequest_notification_state writer sendOk s method params socket
  have hframe : (requestFrame method params none).isMember "id" = false := by
    rw [requestFrame_none, isMember_set_other _ _ _ _ (by decide),
      isMember_set_other _ _ _ _ (by decide), isMember_set_other _ _ _ _ (by decide)]
    rfl
  have hvalid : params.isArray = true → method ≠ "" →
      sendRequest writer sendOk s method params socket none =
        (_sendJson sendOk s (writer (requestFrame method params none)) socket).2 := by
    intro ha hm
    unfold sendRequest
    simp only [ha, hm, Bool.not_true, Bool.false_eq_true, if_false]
    rw [← requestFrame_none]
    split_ifs <;> simp [failWith]
  obtain ⟨w1, w2, w3⟩ := sendJson_written sendOk s (writer (requestFrame method params none))
  refine ⟨h2, h1, ?_, hframe, hvalid, ?_, ?_, ?_⟩
  · intro e he
    by_cases ha : params.isArray = true
    · by_cases hm : method = ""
      · unfold sendRequest at he
        simp [ha, hm, failWith] at he
      · have he2 := he
        rw [hvalid ha hm] at he2
        rcases (sendJson_spec sendOk s _ socket).2.2.2 e he2 with h | h
        · exact h
        · exact absurd (h ▸ he) (not_mem_of_defined _ hdef)
    · unfold sendRequest at he
      simp [ha, failWith] at he
  · intro ha hm x hx hnd hmem
    rw [hvalid ha hm, hx]
    exact w1 x hnd hmem
  · intro ha hm hx hok
    rw [hvalid ha hm, hx]
    exact w2 hok
  · intro ha hm hx x rest hconn
    rw [hvalid ha hm, hx]
    exact w3 x rest hconn

/-- Witness for the amended C7: the notification `status` on the sample server is
written to its one client, 7. -/
theorem notification_no_id_witness :
    sends (sendRequest keyWriter (fun _ => true) sampleServer "status" (Json.arr []) none
      none).2 =
      [(7, keyWriter (requestFrame "status" (Json.arr []) none))] :=
  (notification_no_id keyWriter (fun _ => true) sampleServer "status" (Json.arr []) none
    rfl).2.2.2.2.2.2.1 rfl (by decide) rfl (fun _ _ => rfl)


/-! ## Teardown of a peer -/

/-- C15. Idempotent teardown: `disconnectFromPeer(id)` with no relay for `id` changes
nothing and sends nothing. With a relay for `id` it erases that relay, leaves every
other relay, and enqueues the one task `DisconnectFromPeer(id)`: with no game
connected the queue is the old one with that task at its end and nothing is sent;
with a game connected the loop runs on that queue, and where no earlier task is
left waiting the queue ends empty and `DisconnectFromPeer(id)` is the last message
sent. The queue with the new task is always what was taken from it followed by what
is left, the messages sent being of the tasks taken. A second call straight after
finds no relay, changes nothing and sends nothing, so the two calls together do what
the first does. -/
theorem idempotent_teardown (a : IceAdapter) (id : Int) :
    (mapFind id a._relays = none → a.disconnectFromPeer id = (a, [])) ∧
    (∀ relay : PeerRelay, mapFind id a._relays = some relay →
      a.disconnectFromPeer id =
        IceAdapter._queueGameTask { a with _relays := mapErase id a._relays }
          (IceAdapter.disconnectTask id) ∧
      a.queuedBy (IceAdapter.Op.disconnectFromPeer id) = [IceAdapter.disconnectTask id] ∧
      (a.disconnectFromPeer id).1._relays = mapErase id a._relays ∧
      mapFind id (a.disconnectFromPeer id).1._relays = none ∧
      (∀ j, j ≠ id → mapFind j (a.disconnectFromPeer id).1._relays = mapFind j a._relays) ∧
      (KeysAscending a._relays →
        (a.disconnectFromPeer id).1._relays.length + 1 = a._relays.length) ∧
      (a.disconnectFromPeer id).1.disconnectFromPeer id = ((a.disconnectFromPeer id).1, []) ∧
      (a.hasConnectedClient = false →
        a.disconnectFromPeer id =
          ({ a with _relays := mapErase id a._relays,
                    _gameTasks := a._gameTasks ++ [IceAdapter.disconnectTask id] }, [])) ∧
      (a.hasConnectedClient = true →
        (a.disconnectFromPeer id).1._gameTasks =
          (IceAdapter.executeTasks { a with _relays := mapErase id a._relays }
            (a._gameTasks ++ [IceAdapter.disconnectTask id])).1 ∧
        (a.disconnectFromPeer id).2 =
          (IceAdapter.executeTasks { a with _relays := mapErase id a._relays }
            (a._gameTasks ++ [IceAdapter.disconnectTask id])).2.map AdapterEvent.toGame) ∧
      (a.hasConnectedClient = true →
        (a._gpgnetGameState = "Lobby" ∨
          ∀ t ∈ a._gameTasks, t.task = TaskKind.DisconnectFromPeer) →
        (a.disconnectFromPeer id).1._gameTasks = [] ∧
        ∃ before : List AdapterEvent, (a.disconnectFromPeer id).2 =
          before ++ [AdapterEvent.toGame (GameMessage.DisconnectFromPeer id)]) ∧
      (∃ processed : List IceAdapterGameTask,
        a._gameTasks ++ [IceAdapter.disconnectTask id] =
          processed ++ (a.disconnectFromPeer id).1._gameTasks ∧
        List.Sublist (IceAdapter.eventKeys (a.disconnectFromPeer id).2)
          (processed.map IceAdapter.taskKey)) ∧
      (a.run [IceAdapter.Op.disconnectFromPeer id, IceAdapter.Op.disconnectFromPeer id]).1 =
        (a.disconnectFromPeer id).1 ∧
      (a.run [IceAdapter.Op.disconnectFromPeer id, IceAdapter.Op.disconnectFromPeer id]).2 =
        (a.disconnectFromPeer id).2) := by
  have hnone : ∀ b : IceAdapter, mapFind id b._relays = none →
      b.disconnectFromPeer id = (b, []) := by
    intro b h
    simp [IceAdapter.disconnectFromPeer, h]
  constructor
  · exact hnone a
  · intro relay h
    have hdef : a.disconnectFromPeer id =
        IceAdapter._queueGameTask { a with _relays := mapErase id a._relays }
          (IceAdapter.disconnectTask id) := by
      simp [IceAdapter.disconnectFromPeer, h, IceAdapter.disconnectTask]
    have hrel : (a.disconnectFromPeer id).1._relays = mapErase id a._relays := by
      rw [hdef, (queueGameTask_state _ _).2.1]
    have hgone : mapFind id (a.disconnectFromPeer id).1._relays = none := by
      rw [hrel]; exact mapFind_mapErase_self id _
    have hsecond := hnone _ hgone
    have hconn : a.hasConnectedClient = true →
        a.disconnectFromPeer id =
          ({ a with _relays := mapErase id a._relays,
                    _gameTasks :=
                      (IceAdapter.executeTasks { a with _relays := mapErase id a._relays }
                        (a._gameTasks ++ [IceAdapter.disconnectTask id])).1 },
           (IceAdapter.executeTasks { a with _relays := mapErase id a._relays }
              (a._gameTasks ++ [IceAdapter.disconnectTask id])).2.map AdapterEvent.toGame) := by
      intro hc
      rw [hdef]
      exact queueGameTask_connected { a with _relays := mapErase id a._relays }
        (IceAdapter.disconnectTask id) hc
    refine ⟨hdef, ?_, hrel, hgone, ?_, ?_, hsecond, ?_, ?_, ?_, ?_, ?_, ?_⟩
    · simp [IceAdapter.queuedBy, h, IceAdapter.disconnectTask]
    · intro j hj
      rw [hrel]; exact mapFind_mapErase_other id j _ hj
    · intro hs
      rw [hrel]; exact mapErase_length id _ relay hs h
    · intro hc
      rw [hdef]
      unfold IceAdapter._queueGameTask IceAdapter._tryExecuteGameTasks
      rw [if_pos]
      show (!a.hasConnectedClient) = true
      simp [hc]
    · intro hc
      rw [hconn hc]
      exact ⟨rfl, rfl⟩
    · intro hc hq
      rw [hconn hc]
      have hdrain : (IceAdapter.executeTasks { a with _relays := mapErase id a._relays }
          a._gameTasks).1 = [] := by
        rcases hq with hl | hd
        · exact executeTasks_lobby { a with _relays := mapErase id a._relays } hl _
        · exact executeTasks_disconnects { a with _relays := mapErase id a._relays } _ hd
      rw [executeTasks_append _ _ _ hdrain]
      refine ⟨by simp [IceAdapter.executeTasks, IceAdapter.disconnectTask], ?_⟩
      refine ⟨(IceAdapter.executeTasks { a with _relays := mapErase id a._relays }
        a._gameTasks).2.map AdapterEvent.toGame, ?_⟩
      simp [IceAdapter.executeTasks, IceAdapter.disconnectTask]
    · obtain ⟨p, h1, h2, _⟩ := queueGameTask_spec { a with _relays := mapErase id a._relays }
        (IceAdapter.disconnectTask id)
      rw [hdef]
      exact ⟨p, h1, h2⟩
    · simp only [IceAdapter.run, IceAdapter.step]
      rw [hsecond]
    · simp only [IceAdapter.run, IceAdapter.step]
      rw [hsecond]
      simp


end faf
